import Mathlib

set_option maxRecDepth 40000

/-!
Verification of the podsy iPod library manager against its specification.

The development shallowly embeds the relevant Python modules:

* `src/podsy/db/atoms.py`   — string/path codecs and header-size constants,
* `src/podsy/db/models.py`  — the data model (Track, Playlist, Database),
* `src/podsy/db/parser.py`  — the iTunesDB parser and serializer,
* `src/podsy/playlists.py`  — the playlist mutation API,
* `src/podsy/sync.py`       — the load-balanced music-folder selection.

Modelling conventions:

* Python `bytes` values are `List Nat` with every element < 256; multi-byte
  integers are little-endian, mirroring `struct.pack`/`struct.unpack`.
* Python `str` values are `List Char` (Lean `Char` is exactly a Unicode
  scalar value, matching the set of Python strings that the UTF-16 codecs
  accept; `String.data` converts literals).
* Python `datetime` values are modelled as `Int` seconds since the Unix
  epoch, i.e. at the one-second granularity at which the on-disk format
  stores them.  `datetime.now()` is passed in as an explicit `now` argument.
* `struct.pack` raising `struct.error` on an out-of-range value, and
  `encode_path` raising `ValueError`, are modelled with `Except`.
* The global random generator used for fresh 64-bit identifiers is passed
  in as an explicit supply.
-/

namespace Podsy

/-- Python bytes: a list of naturals, each < 256 for well-formed data. -/
abbrev Bytes := List Nat

/-- Python strings: a list of Unicode scalar values. -/
abbrev PyStr := List Char

/-! ## Little-endian byte packing (struct.pack "<H" / "<I" / "<Q") -/

/-- The two little-endian bytes of a 16-bit value. -/
def u16le (x : Nat) : Bytes := [x % 256, x / 256 % 256]

/-- The four little-endian bytes of a 32-bit value. -/
def u32le (x : Nat) : Bytes :=
  [x % 256, x / 256 % 256, x / 65536 % 256, x / 16777216 % 256]

/-- The eight little-endian bytes of a 64-bit value. -/
def u64le (x : Nat) : Bytes := u32le (x % 4294967296) ++ u32le (x / 4294967296)

/-- Byte access `data[i]`, defaulting to 0 out of range (uses are guarded by
the same length checks the Python performs before indexing). -/
def byteAt (d : Bytes) (i : Nat) : Nat := d.getD i 0

/-- Little-endian decoding of `data[off:off+2]` (struct.unpack "<H"). -/
def readU16 (d : Bytes) (off : Nat) : Nat := byteAt d off + 256 * byteAt d (off + 1)

/-- Little-endian decoding of `data[off:off+4]` (struct.unpack "<I"). -/
def readU32 (d : Bytes) (off : Nat) : Nat :=
  byteAt d off + 256 * byteAt d (off + 1) + 65536 * byteAt d (off + 2) +
    16777216 * byteAt d (off + 3)

/-- Little-endian decoding of `data[off:off+8]` (struct.unpack "<Q"). -/
def readU64 (d : Bytes) (off : Nat) : Nat :=
  readU32 d off + 4294967296 * readU32 d (off + 4)

/-- Python slice `data[a:b]` (clamping, as in Python). -/
def pySlice (d : Bytes) (a b : Nat) : Bytes := (d.drop a).take (b - a)

/-! ## Parser error kinds

`parser.py` raises `InvalidDatabaseError(...)` at several distinct sites;
`struct.unpack` on a short slice raises `struct.error`, and a strict
`bytes.decode("utf-16-le")` on malformed data raises `UnicodeDecodeError`.
One constructor per raise site / exception kind. -/

inductive PErr where
  /-- read_uint32 / read_uint64 / read_bytes: "Unexpected end of file". -/
  | eof
  /-- "Invalid database header" (top-level magic is not mhbd). -/
  | badMhbd
  /-- "Expected mhsd, got ...". -/
  | badMhsd
  /-- "Expected mhlt in track section". -/
  | badMhlt
  /-- "Expected mhlp in playlist section". -/
  | badMhlp
  /-- parse_mhod: "MHOD too short" (fewer than 24 bytes). -/
  | mhodTooShort
  /-- parse_mhod: "Invalid MHOD identifier". -/
  | badMhodMagic
  /-- parse_mhod: "String MHOD too short" (string type, fewer than 40 bytes). -/
  | stringMhodTooShort
  /-- parse_mhit: "MHIT too short" (fewer than 16 bytes). -/
  | mhitTooShort
  /-- parse_mhit: "Invalid MHIT identifier". -/
  | badMhitMagic
  /-- parse_mhyp: "MHYP too short" (fewer than 24 bytes). -/
  | mhypTooShort
  /-- parse_mhyp: "Invalid MHYP identifier". -/
  | badMhypMagic
  /-- struct.error from unpacking a slice shorter than the format requires. -/
  | structError
  /-- UnicodeDecodeError from a strict utf-16-le decode. -/
  | unicodeError
deriving DecidableEq, Repr

/-! ## String codecs (atoms.py encode_string / decode_string) -/

/-- UTF-16LE encoding of one Unicode scalar value (no BOM, no terminator). -/
def encChar (c : Char) : Bytes :=
  if c.toNat < 65536 then u16le c.toNat
  else
    u16le (55296 + (c.toNat - 65536) / 1024) ++ u16le (56320 + (c.toNat - 65536) % 1024)

/-- atoms.encode_string: UTF-16LE bytes of a string. -/
def encode_string (s : PyStr) : Bytes := (s.map encChar).flatten

/-- Group bytes into 16-bit little-endian code units; an odd trailing byte is
a UnicodeDecodeError under the strict decoder. -/
def bytesToUnits : Bytes → Except PErr (List Nat)
  | [] => .ok []
  | [_] => .error .unicodeError
  | a :: b :: rest => do pure ((a + 256 * b) :: (← bytesToUnits rest))

/-- Combine UTF-16 code units into scalar values; lone surrogates are a
UnicodeDecodeError under the strict decoder. -/
def unitsToChars : List Nat → Except PErr PyStr
  | [] => .ok []
  | u :: rest =>
    if u < 55296 ∨ 57343 < u then do
      pure (Char.ofNat u :: (← unitsToChars rest))
    else if u < 56320 then
      match rest with
      | [] => .error .unicodeError
      | v :: rest2 =>
        if 56320 ≤ v ∧ v ≤ 57343 then do
          pure (Char.ofNat (65536 + (u - 55296) * 1024 + (v - 56320)) :: (← unitsToChars rest2))
        else .error .unicodeError
    else .error .unicodeError

/-- atoms.decode_string: strict UTF-16LE decoding. -/
def decode_string (b : Bytes) : Except PErr PyStr := do
  unitsToChars (← bytesToUnits b)

/-- Replace `/` by `:` (str.replace("/", ":")). -/
def colonize (s : PyStr) : PyStr := s.map fun c => if c = '/' then ':' else c

/-- Prepend a leading `:` unless the string already starts with one. -/
def ensureLeadingColon (s : PyStr) : PyStr :=
  if s.head? = some ':' then s else ':' :: s

/-- atoms.encode_path raises ValueError("Path too long ...") past 112 bytes. -/
inductive PathErr where
  | pathTooLong
deriving DecidableEq, Repr

/-- The path transform applied by encode_path before encoding: ensure the
leading colon, then substitute slashes. -/
def pathTransform (path : PyStr) : PyStr := colonize (ensureLeadingColon path)

/-- atoms.encode_path: colon-form the path, UTF-16LE encode, enforce the
112-byte limit. -/
def encode_path (path : PyStr) : Except PathErr Bytes :=
  let encoded := encode_string (pathTransform path)
  if encoded.length > 112 then .error .pathTooLong else .ok encoded

/-- atoms.decode_path is decode_string. -/
def decode_path (b : Bytes) : Except PErr PyStr := decode_string b

/-- One step of a UTF-8 decoder with U+FFFD replacement, as used for URL
data-objects (`url_data.decode("utf-8", errors="replace")`).  Returns the
decoded scalar and the number of bytes consumed (at least one).  The repo
never emits URL data-objects and their decoded value is dropped by both
callers; the replacement granularity of CPython is approximated. -/
def utf8Step (b0 : Nat) (rest : Bytes) : Char × Nat :=
  if b0 < 128 then (Char.ofNat b0, 1)
  else if 192 ≤ b0 ∧ b0 < 224 then
    match rest with
    | b1 :: _ =>
      if 128 ≤ b1 ∧ b1 < 192 then
        let v := (b0 - 192) * 64 + (b1 - 128)
        if 128 ≤ v then (Char.ofNat v, 2) else (Char.ofNat 65533, 1)
      else (Char.ofNat 65533, 1)
    | _ => (Char.ofNat 65533, 1)
  else if 224 ≤ b0 ∧ b0 < 240 then
    match rest with
    | b1 :: b2 :: _ =>
      if (128 ≤ b1 ∧ b1 < 192) ∧ (128 ≤ b2 ∧ b2 < 192) then
        let v := (b0 - 224) * 4096 + (b1 - 128) * 64 + (b2 - 128)
        if 2048 ≤ v ∧ (v < 55296 ∨ 57343 < v) then (Char.ofNat v, 3)
        else (Char.ofNat 65533, 1)
      else (Char.ofNat 65533, 1)
    | _ => (Char.ofNat 65533, 1)
  else if 240 ≤ b0 ∧ b0 < 245 then
    match rest with
    | b1 :: b2 :: b3 :: _ =>
      if (128 ≤ b1 ∧ b1 < 192) ∧ (128 ≤ b2 ∧ b2 < 192) ∧ (128 ≤ b3 ∧ b3 < 192) then
        let v := (b0 - 240) * 262144 + (b1 - 128) * 4096 + (b2 - 128) * 64 + (b3 - 128)
        if 65536 ≤ v ∧ v < 1114112 then (Char.ofNat v, 4) else (Char.ofNat 65533, 1)
      else (Char.ofNat 65533, 1)
    | _ => (Char.ofNat 65533, 1)
  else (Char.ofNat 65533, 1)

/-- UTF-8 decoding with replacement, fueled by the byte count (each step
consumes at least one byte). -/
def utf8DecodeReplaceAux : Nat → Bytes → PyStr
  | 0, _ => []
  | _ + 1, [] => []
  | fuel + 1, b0 :: rest =>
    let (c, used) := utf8Step b0 rest
    c :: utf8DecodeReplaceAux fuel (List.drop (used - 1) rest)

/-- bytes.decode("utf-8", errors="replace"). -/
def utf8DecodeReplace (b : Bytes) : PyStr := utf8DecodeReplaceAux b.length b

/-- bytes.decode("ascii", errors="replace"): bytes ≥ 128 become U+FFFD. -/
def asciiDecodeReplace (b : Bytes) : PyStr :=
  b.map fun x => if x < 128 then Char.ofNat x else Char.ofNat 65533

/-! ## Data model (models.py) -/

/-- models.FileType: audio file types, stored as reversed 4-byte ASCII. -/
inductive FileType where
  | mp3 | aac | m4a | m4p | wav
deriving DecidableEq, Repr

/-- The IntEnum value of a FileType. -/
def FileType.value : FileType → Nat
  | .mp3 => 0x4D503320
  | .aac => 0x41414320
  | .m4a => 0x4D344120
  | .m4p => 0x4D345020
  | .wav => 0x57415620

/-- FileType(n): `some` when n is one of the enumerated codes, otherwise the
constructor raises ValueError. -/
def FileType.fromValue? (n : Nat) : Option FileType :=
  if n = 0x4D503320 then some .mp3
  else if n = 0x41414320 then some .aac
  else if n = 0x4D344120 then some .m4a
  else if n = 0x4D345020 then some .m4p
  else if n = 0x57415620 then some .wav
  else none

/-- models.MediaType. -/
inductive MediaType where
  | audioVideo | audio | video | podcast | videoPodcast | audiobook | musicVideo | tvShow
deriving DecidableEq, Repr

/-- The IntEnum value of a MediaType. -/
def MediaType.value : MediaType → Nat
  | .audioVideo => 0x00
  | .audio => 0x01
  | .video => 0x02
  | .podcast => 0x04
  | .videoPodcast => 0x06
  | .audiobook => 0x08
  | .musicVideo => 0x20
  | .tvShow => 0x40

/-- MediaType(n): `some` when n is an enumerated code. -/
def MediaType.fromValue? (n : Nat) : Option MediaType :=
  if n = 0x00 then some .audioVideo
  else if n = 0x01 then some .audio
  else if n = 0x02 then some .video
  else if n = 0x04 then some .podcast
  else if n = 0x06 then some .videoPodcast
  else if n = 0x08 then some .audiobook
  else if n = 0x20 then some .musicVideo
  else if n = 0x40 then some .tvShow
  else none

/-- models.SortOrder. -/
inductive SortOrder where
  | manual | title | album | artist | bitrate | genre | time | year
  | playCount | lastPlayed | rating | releaseDate
deriving DecidableEq, Repr

/-- The IntEnum value of a SortOrder. -/
def SortOrder.value : SortOrder → Nat
  | .manual => 1
  | .title => 3
  | .album => 4
  | .artist => 5
  | .bitrate => 6
  | .genre => 7
  | .time => 12
  | .year => 13
  | .playCount => 20
  | .lastPlayed => 21
  | .rating => 23
  | .releaseDate => 24

/-- SortOrder(n): `some` when n is an enumerated code. -/
def SortOrder.fromValue? (n : Nat) : Option SortOrder :=
  if n = 1 then some .manual
  else if n = 3 then some .title
  else if n = 4 then some .album
  else if n = 5 then some .artist
  else if n = 6 then some .bitrate
  else if n = 7 then some .genre
  else if n = 12 then some .time
  else if n = 13 then some .year
  else if n = 20 then some .playCount
  else if n = 21 then some .lastPlayed
  else if n = 23 then some .rating
  else if n = 24 then some .releaseDate
  else none

/-- MhodType codes used by the codec (models.MhodType); the full IntEnum is
kept as plain numbers since the codec compares numerically. -/
def mhodTitle : Nat := 1
/-- MhodType.LOCATION. -/
def mhodLocation : Nat := 2
/-- MhodType.ALBUM. -/
def mhodAlbum : Nat := 3
/-- MhodType.ARTIST. -/
def mhodArtist : Nat := 4
/-- MhodType.GENRE. -/
def mhodGenre : Nat := 5
/-- MhodType.COMMENT. -/
def mhodComment : Nat := 8
/-- MhodType.COMPOSER. -/
def mhodComposer : Nat := 12
/-- MhodType.ALBUM_ARTIST. -/
def mhodAlbumArtist : Nat := 22
/-- MhodType.PLAYLIST_COLUMN. -/
def mhodPlaylistColumn : Nat := 100

/-- models.Track.  Numeric fields are unbounded naturals (Python int);
timestamps are Unix seconds as `Int`. -/
structure Track where
  id : Nat
  title : PyStr
  artist : PyStr
  album : PyStr
  album_artist : PyStr := []
  genre : PyStr := []
  composer : PyStr := []
  comment : PyStr := []
  path : PyStr := []
  duration_ms : Nat := 0
  bitrate : Nat := 0
  sample_rate : Nat := 44100
  size_bytes : Nat := 0
  track_number : Nat := 0
  total_tracks : Nat := 0
  disc_number : Nat := 1
  total_discs : Nat := 1
  year : Nat := 0
  rating : Nat := 0
  play_count : Nat := 0
  skip_count : Nat := 0
  date_added : Int := 0
  last_played : Option Int := none
  last_modified : Int := 0
  file_type : FileType := .mp3
  media_type : MediaType := .audio
  compilation : Bool := false
  dbid : Nat := 0
  pregap : Nat := 0
  postgap : Nat := 0
  sample_count : Nat := 0
  gapless_data : Nat := 0
  gapless_track_flag : Bool := false
  gapless_album_flag : Bool := false
deriving DecidableEq, Repr

/-- models.Playlist. -/
structure Playlist where
  id : Nat
  name : PyStr
  track_ids : List Nat := []
  is_master : Bool := false
  is_podcast : Bool := false
  sort_order : SortOrder := .manual
  timestamp : Int := 0
deriving DecidableEq, Repr

/-- models.Database. -/
structure Database where
  version : Nat := 0x15
  database_id : Nat := 0
  library_persistent_id : Nat := 0
  language : PyStr := [ 'e', 'n']
  tracks : List Track := []
  playlists : List Playlist := []
deriving DecidableEq, Repr

/-- Database.get_track_by_id: first track with the given id. -/
def Database.get_track_by_id (db : Database) (track_id : Nat) : Option Track :=
  db.tracks.find? fun t => t.id = track_id

/-- Database.get_playlist_by_id: first playlist with the given id. -/
def Database.get_playlist_by_id (db : Database) (playlist_id : Nat) : Option Playlist :=
  db.playlists.find? fun p => p.id = playlist_id

/-- Database.get_playlist_by_name: first playlist with the given name. -/
def Database.get_playlist_by_name (db : Database) (name : PyStr) : Option Playlist :=
  db.playlists.find? fun p => p.name = name

/-- Database.get_master_playlist: first playlist flagged is_master. -/
def Database.get_master_playlist (db : Database) : Option Playlist :=
  db.playlists.find? fun p => p.is_master

/-- Database.next_track_id: max existing id + 1, or 1 when empty. -/
def Database.next_track_id (db : Database) : Nat :=
  match db.tracks with
  | [] => 1
  | ts => (ts.map Track.id).foldl max 0 + 1

/-- Database.next_playlist_id: max existing id + 1, or 1 when empty. -/
def Database.next_playlist_id (db : Database) : Nat :=
  match db.playlists with
  | [] => 1
  | ps => (ps.map Playlist.id).foldl max 0 + 1

/-! ## Mutation API (playlists.py)

Each operation returns the database together with `none` on success or the
raised error.  Python mutates the playlist object in place; the returned
database is the state at the moment the function returns or raises. -/

/-- The typed errors of playlists.py, one constructor per raise site kind
(`PlaylistNotFoundError`, `DuplicatePlaylistError`, and the distinct
`PlaylistError` messages). -/
inductive PlErr where
  /-- PlaylistNotFoundError. -/
  | notFound
  /-- DuplicatePlaylistError. -/
  | duplicate
  /-- PlaylistError "Cannot delete/rename/clear the master playlist". -/
  | masterProtected
  /-- PlaylistError "Track with ID ... not found". -/
  | trackNotFound
  /-- PlaylistError "Track ... is already in playlist". -/
  | alreadyPresent
  /-- PlaylistError "Track ... is not in playlist". -/
  | notPresent
  /-- PlaylistError "New track order must contain the same tracks". -/
  | orderMismatch
deriving DecidableEq, Repr

/-- Mutate the first playlist with the given id (the object
`get_playlist_by_id` aliases). -/
def mutateFirst (pid : Nat) (f : Playlist → Playlist) : List Playlist → List Playlist
  | [] => []
  | p :: rest => if p.id = pid then f p :: rest else p :: mutateFirst pid f rest

/-- Python list.insert index resolution: a negative index counts from the
end and is floored at 0; a nonnegative index is capped at the length. -/
def pyInsertIdx (pos : Int) (len : Nat) : Nat :=
  if pos < 0 then ((len : Int) + pos).toNat else min pos.toNat len

/-- Insert at a (already clamped) position. -/
def insertAt (x : Nat) : Nat → List Nat → List Nat
  | 0, l => x :: l
  | _ + 1, [] => [x]
  | n + 1, a :: l => a :: insertAt x n l

/-- playlists.create_playlist. -/
def create_playlist (db : Database) (name : PyStr) (sort_order : SortOrder := .manual)
    (now : Int := 0) : Database × Option PlErr :=
  match db.get_playlist_by_name name with
  | some _ => (db, some .duplicate)
  | none =>
    let playlist : Playlist :=
      { id := db.next_playlist_id, name := name, sort_order := sort_order, timestamp := now }
    ({ db with playlists := db.playlists ++ [playlist] }, none)

/-- playlists.delete_playlist. -/
def delete_playlist (db : Database) (playlist_id : Nat) : Database × Option PlErr :=
  match db.get_playlist_by_id playlist_id with
  | none => (db, some .notFound)
  | some playlist =>
    if playlist.is_master then (db, some .masterProtected)
    else ({ db with playlists := db.playlists.filter fun p => p.id ≠ playlist_id }, none)

/-- playlists.rename_playlist. -/
def rename_playlist (db : Database) (playlist_id : Nat) (new_name : PyStr) :
    Database × Option PlErr :=
  match db.get_playlist_by_id playlist_id with
  | none => (db, some .notFound)
  | some playlist =>
    if playlist.is_master then (db, some .masterProtected)
    else
      match db.get_playlist_by_name new_name with
      | some existing =>
        if existing.id ≠ playlist_id then (db, some .duplicate)
        else ({ db with
                 playlists := mutateFirst playlist_id (fun p => { p with name := new_name })
                   db.playlists }, none)
      | none =>
        ({ db with
            playlists := mutateFirst playlist_id (fun p => { p with name := new_name })
              db.playlists }, none)

/-- playlists.add_track_to_playlist; `position` is passed straight to
`list.insert`, hence `pyInsertIdx`. -/
def add_track_to_playlist (db : Database) (playlist_id track_id : Nat)
    (position : Option Int := none) : Database × Option PlErr :=
  match db.get_playlist_by_id playlist_id with
  | none => (db, some .notFound)
  | some playlist =>
    match db.get_track_by_id track_id with
    | none => (db, some .trackNotFound)
    | some _ =>
      if track_id ∈ playlist.track_ids then (db, some .alreadyPresent)
      else
        match position with
        | none =>
          ({ db with
              playlists := mutateFirst playlist_id
                (fun p => { p with track_ids := p.track_ids ++ [track_id] }) db.playlists },
            none)
        | some pos =>
          ({ db with
              playlists := mutateFirst playlist_id
                (fun p => { p with
                   track_ids := insertAt track_id (pyInsertIdx pos p.track_ids.length)
                     p.track_ids }) db.playlists },
            none)

/-- playlists.remove_track_from_playlist. -/
def remove_track_from_playlist (db : Database) (playlist_id track_id : Nat) :
    Database × Option PlErr :=
  match db.get_playlist_by_id playlist_id with
  | none => (db, some .notFound)
  | some playlist =>
    if track_id ∉ playlist.track_ids then (db, some .notPresent)
    else
      ({ db with
          playlists := mutateFirst playlist_id
            (fun p => { p with track_ids := p.track_ids.filter fun tid => tid ≠ track_id })
            db.playlists }, none)

/-- Python set(a) == set(b) on integer lists. -/
def sameSet (a b : List Nat) : Bool :=
  a.all (fun x => x ∈ b) && b.all (fun x => x ∈ a)

/-- playlists.reorder_playlist. -/
def reorder_playlist (db : Database) (playlist_id : Nat) (track_ids : List Nat) :
    Database × Option PlErr :=
  match db.get_playlist_by_id playlist_id with
  | none => (db, some .notFound)
  | some playlist =>
    if ¬ sameSet track_ids playlist.track_ids then (db, some .orderMismatch)
    else
      ({ db with
          playlists := mutateFirst playlist_id (fun p => { p with track_ids := track_ids })
            db.playlists }, none)

/-- playlists.move_track_in_playlist. -/
def move_track_in_playlist (db : Database) (playlist_id track_id : Nat)
    (new_position : Int) : Database × Option PlErr :=
  match db.get_playlist_by_id playlist_id with
  | none => (db, some .notFound)
  | some playlist =>
    if track_id ∉ playlist.track_ids then (db, some .notPresent)
    else
      ({ db with
          playlists := mutateFirst playlist_id
            (fun p =>
              let removed := p.track_ids.filter fun tid => tid ≠ track_id
              let clamped := (max 0 (min new_position (removed.length : Int))).toNat
              { p with track_ids := insertAt track_id clamped removed })
            db.playlists }, none)

/-- playlists.set_playlist_sort_order. -/
def set_playlist_sort_order (db : Database) (playlist_id : Nat) (sort_order : SortOrder) :
    Database × Option PlErr :=
  match db.get_playlist_by_id playlist_id with
  | none => (db, some .notFound)
  | some _ =>
    ({ db with
        playlists := mutateFirst playlist_id (fun p => { p with sort_order := sort_order })
          db.playlists }, none)

/-- playlists.clear_playlist. -/
def clear_playlist (db : Database) (playlist_id : Nat) : Database × Option PlErr :=
  match db.get_playlist_by_id playlist_id with
  | none => (db, some .notFound)
  | some playlist =>
    if playlist.is_master then (db, some .masterProtected)
    else
      ({ db with
          playlists := mutateFirst playlist_id (fun p => { p with track_ids := [] })
            db.playlists }, none)

/-- playlists.duplicate_playlist. -/
def duplicate_playlist (db : Database) (playlist_id : Nat) (new_name : PyStr)
    (now : Int := 0) : Database × Option PlErr :=
  match db.get_playlist_by_id playlist_id with
  | none => (db, some .notFound)
  | some source =>
    match db.get_playlist_by_name new_name with
    | some _ => (db, some .duplicate)
    | none =>
      let new_playlist : Playlist :=
        { id := db.next_playlist_id, name := new_name, track_ids := source.track_ids,
          sort_order := source.sort_order, timestamp := now }
      ({ db with playlists := db.playlists ++ [new_playlist] }, none)

/-! ## Folder selection (sync.py select_music_folder)

The filesystem is abstracted as `counts i`: the number of entries of folder
`Fnn` with index `i` (the Python name is built as an "F" plus the
zero-padded index), or `none` when `folder.iterdir()` raises `OSError` and
the loop skips the folder.  The function returns the selected index. -/

/-- sync.select_music_folder: scan F00..F49 keeping the first folder with a
strictly smaller entry count; min_count starts at infinity (`none`) and the
initial selection is F00. -/
def select_music_folder (counts : Nat → Option Nat) : Nat :=
  ((List.range 50).foldl
    (fun (st : Option Nat × Nat) i =>
      match counts i with
      | none => st
      | some count =>
        match st.1 with
        | none => (some count, i)
        | some m => if count < m then (some count, i) else st)
    (none, 0)).2

/-! ## Timestamp conversion (parser.py) -/

/-- Seconds between 1904-01-01 and 1970-01-01. -/
def MAC_EPOCH_OFFSET : Int := 2082844800

/-- parser.mac_to_datetime, at one-second granularity; a zero on-disk value
denotes the Mac epoch itself (datetime(1904, 1, 1)). -/
def mac_to_datetime (ts : Nat) : Int :=
  if ts = 0 then -MAC_EPOCH_OFFSET else (ts : Int) - MAC_EPOCH_OFFSET

/-- parser.datetime_to_mac. -/
def datetime_to_mac (dt : Int) : Int := dt + MAC_EPOCH_OFFSET

/-! ## Atom magics -/

/-- ASCII bytes of "mhbd". -/
def mhbdMagic : Bytes := [0x6d, 0x68, 0x62, 0x64]
/-- ASCII bytes of "mhsd". -/
def mhsdMagic : Bytes := [0x6d, 0x68, 0x73, 0x64]
/-- ASCII bytes of "mhlt". -/
def mhltMagic : Bytes := [0x6d, 0x68, 0x6c, 0x74]
/-- ASCII bytes of "mhit". -/
def mhitMagic : Bytes := [0x6d, 0x68, 0x69, 0x74]
/-- ASCII bytes of "mhod". -/
def mhodMagic : Bytes := [0x6d, 0x68, 0x6f, 0x64]
/-- ASCII bytes of "mhlp". -/
def mhlpMagic : Bytes := [0x6d, 0x68, 0x6c, 0x70]
/-- ASCII bytes of "mhyp". -/
def mhypMagic : Bytes := [0x6d, 0x68, 0x79, 0x70]
/-- ASCII bytes of "mhip". -/
def mhipMagic : Bytes := [0x6d, 0x68, 0x69, 0x70]

/-! ## Parser (parser.py) -/

/-- struct.unpack("<I", data[a:a+4]) on an unguarded slice: struct.error when
the slice is short. -/
def sliceU32 (d : Bytes) (a : Nat) : Except PErr Nat :=
  if a + 4 ≤ d.length then .ok (readU32 d a) else .error .structError

/-- The value decoded from an MHOD: a string (also for URL types), a
playlist position, or raw bytes for unknown types. -/
inductive MhodVal where
  | str (s : PyStr)
  | pos (n : Nat)
  | raw (b : Bytes)
deriving DecidableEq, Repr

/-- String MHOD types: set(range(1, 15)) | set(range(18, 32)). -/
def isStringType (ty : Nat) : Bool := (1 ≤ ty && ty ≤ 14) || (18 ≤ ty && ty ≤ 31)

/-- URL MHOD types 15 and 16. -/
def isUrlType (ty : Nat) : Bool := ty = 15 || ty = 16

/-- parser.parse_mhod. -/
def parse_mhod (data : Bytes) : Except PErr (Nat × MhodVal) :=
  if data.length < 24 then .error .mhodTooShort
  else if pySlice data 0 4 ≠ mhodMagic then .error .badMhodMagic
  else
    let header_length := readU32 data 4
    let total_length := readU32 data 8
    let mhod_type := readU32 data 12
    if isStringType mhod_type then
      if data.length < 40 then .error .stringMhodTooShort
      else
        let string_length := readU32 data 28
        let string_data := pySlice data 40 (40 + string_length)
        if mhod_type = mhodLocation then do
          pure (mhod_type, .str (← decode_path string_data))
        else do
          pure (mhod_type, .str (← decode_string string_data))
    else if isUrlType mhod_type then
      .ok (mhod_type, .str (utf8DecodeReplace (pySlice data header_length total_length)))
    else if mhod_type = mhodPlaylistColumn then
      if 28 ≤ data.length then .ok (mhod_type, .pos (readU32 data 24))
      else .ok (mhod_type, .pos 0)
    else .ok (mhod_type, .raw (pySlice data header_length total_length))

/-- Store a recognized string MHOD into its Track field (the elif chain of
parse_mhit). -/
def applyTrackMhod (t : Track) (ty : Nat) (v : MhodVal) : Track :=
  match v with
  | .str value =>
    if ty = mhodTitle then { t with title := value }
    else if ty = mhodArtist then { t with artist := value }
    else if ty = mhodAlbum then { t with album := value }
    else if ty = mhodAlbumArtist then { t with album_artist := value }
    else if ty = mhodGenre then { t with genre := value }
    else if ty = mhodComposer then { t with composer := value }
    else if ty = mhodComment then { t with comment := value }
    else if ty = mhodLocation then { t with path := value }
    else t
  | _ => t

/-- The child-MHOD loop of parse_mhit (`for _ in range(num_mhods)` with its
break conditions); the first argument of the recursion is the remaining
iteration count. -/
def parseMhitMhods (data : Bytes) (total_length : Nat) :
    Nat → Nat → Track → Except PErr Track
  | 0, _, track => .ok track
  | n + 1, offset, track =>
    if total_length ≤ offset then .ok track
    else
      let mhod_data := data.drop offset
      if mhod_data.length < 12 then .ok track
      else
        let mhod_total := readU32 mhod_data 8
        if mhod_total = 0 ∨ total_length < offset + mhod_total then .ok track
        else do
          let tv ← parse_mhod (mhod_data.take mhod_total)
          parseMhitMhods data total_length n (offset + mhod_total)
            (applyTrackMhod track tv.1 tv.2)

/-- parser.parse_mhit. -/
def parse_mhit (now : Int) (data : Bytes) : Except PErr Track :=
  if data.length < 16 then .error .mhitTooShort
  else if pySlice data 0 4 ≠ mhitMagic then .error .badMhitMagic
  else do
    let header_length := readU32 data 4
    let total_length := readU32 data 8
    let num_mhods := readU32 data 12
    let unique_id ← sliceU32 data 16
    let rating := if 31 < data.length then byteAt data 31 else 0
    let last_modified := if 35 < data.length then readU32 data 32 else 0
    let size := if 39 < data.length then readU32 data 36 else 0
    let length := if 43 < data.length then readU32 data 40 else 0
    let track_number := if 47 < data.length then readU32 data 44 else 0
    let total_tracks := if 51 < data.length then readU32 data 48 else 0
    let year := if 55 < data.length then readU32 data 52 else 0
    let bitrate := if 59 < data.length then readU32 data 56 else 0
    let sample_rate_raw := if 63 < data.length then readU32 data 60 else 0
    let sample_rate := if sample_rate_raw ≠ 0 then sample_rate_raw / 65536 else 44100
    let play_count := if 83 < data.length then readU32 data 80 else 0
    let last_played := if 91 < data.length then readU32 data 88 else 0
    let disc_number := if 95 < data.length then readU32 data 92 else 1
    let total_discs := if 99 < data.length then readU32 data 96 else 1
    let date_added := if 107 < data.length then readU32 data 104 else 0
    let dbid := if 119 < data.length then readU64 data 112 else 0
    let compilation := 30 < data.length ∧ byteAt data 30 ≠ 0
    let skip_count := if 159 < data.length then readU32 data 156 else 0
    let media_type_raw := if 211 < data.length then readU32 data 208 else 1
    let pregap := if 187 < data.length then readU32 data 184 else 0
    let sample_count := if 195 < data.length then readU64 data 188 else 0
    let postgap := if 203 < data.length then readU32 data 200 else 0
    let gapless_data := if 251 < data.length then readU32 data 248 else 0
    let gapless_track_flag := if 257 < data.length then readU16 data 256 else 0
    let gapless_album_flag := if 259 < data.length then readU16 data 258 else 0
    let filetype_raw ← sliceU32 data 24
    let file_type := (FileType.fromValue? filetype_raw).getD .mp3
    let media_type := (MediaType.fromValue? media_type_raw).getD .audio
    let track : Track :=
      { id := unique_id, title := [], artist := [], album := [],
        file_type := file_type, media_type := media_type,
        duration_ms := length, bitrate := bitrate, sample_rate := sample_rate,
        size_bytes := size, track_number := track_number, total_tracks := total_tracks,
        disc_number := if disc_number = 0 then 1 else disc_number,
        total_discs := if total_discs = 0 then 1 else total_discs,
        year := year, rating := rating, play_count := play_count, skip_count := skip_count,
        date_added := if date_added ≠ 0 then mac_to_datetime date_added else now,
        last_played := if last_played ≠ 0 then some (mac_to_datetime last_played) else none,
        last_modified := if last_modified ≠ 0 then mac_to_datetime last_modified else now,
        compilation := compilation, dbid := dbid, pregap := pregap, postgap := postgap,
        sample_count := sample_count, gapless_data := gapless_data,
        gapless_track_flag := gapless_track_flag ≠ 0,
        gapless_album_flag := gapless_album_flag ≠ 0 }
    parseMhitMhods data total_length num_mhods header_length track

/-- The child loop of parse_mhyp (`while offset < total_length`); the first
argument is fuel, called with total_length + 1, which exceeds the iteration
count since every iteration advances the offset by at least one byte. -/
def parseMhypChildren (data : Bytes) (total_length num_mhods : Nat) :
    Nat → Nat → Nat → Playlist → List Nat → Except PErr (Playlist × List Nat)
  | 0, _, _, playlist, track_ids => .ok (playlist, track_ids)
  | fuel + 1, offset, mhods_parsed, playlist, track_ids =>
    if offset < total_length then
      if data.length < offset + 12 then .ok (playlist, track_ids)
      else
        let atom_id := pySlice data offset (offset + 4)
        let atom_total_len := readU32 data (offset + 8)
        if atom_total_len = 0 then .ok (playlist, track_ids)
        else if atom_id = mhodMagic ∧ mhods_parsed < num_mhods then do
          let tv ← parse_mhod (pySlice data offset (offset + atom_total_len))
          let playlist' :=
            match tv.2 with
            | .str s => if tv.1 = mhodTitle then { playlist with name := s } else playlist
            | _ => playlist
          parseMhypChildren data total_length num_mhods fuel (offset + atom_total_len)
            (mhods_parsed + 1) playlist' track_ids
        else if atom_id = mhipMagic then
          let track_ids' :=
            if offset + 28 ≤ data.length then track_ids ++ [readU32 data (offset + 24)]
            else track_ids
          parseMhypChildren data total_length num_mhods fuel (offset + atom_total_len)
            mhods_parsed playlist track_ids'
        else
          parseMhypChildren data total_length num_mhods fuel (offset + atom_total_len)
            mhods_parsed playlist track_ids
    else .ok (playlist, track_ids)

/-- parser.parse_mhyp. -/
def parse_mhyp (now : Int) (data : Bytes) : Except PErr (Playlist × List Nat) :=
  if data.length < 24 then .error .mhypTooShort
  else if pySlice data 0 4 ≠ mhypMagic then .error .badMhypMagic
  else do
    let header_length := readU32 data 4
    let total_length := readU32 data 8
    let num_mhods := readU32 data 12
    let is_master := 20 < data.length ∧ byteAt data 20 ≠ 0
    let timestamp := if 27 < data.length then readU32 data 24 else 0
    let playlist_id := if 35 < data.length then readU64 data 28 else 0
    let podcast_flag := if 43 < data.length then readU16 data 42 else 0
    let sort_order_raw := if 47 < data.length then readU32 data 44 else 1
    let sort_order := (SortOrder.fromValue? sort_order_raw).getD .manual
    let playlist : Playlist :=
      { id := playlist_id % 4294967296, name := [], is_master := is_master,
        is_podcast := podcast_flag ≠ 0, sort_order := sort_order,
        timestamp := if timestamp ≠ 0 then mac_to_datetime timestamp else now }
    let pr ← parseMhypChildren data total_length num_mhods (total_length + 1)
      header_length 0 playlist []
    pure ({ pr.1 with track_ids := pr.2 }, pr.2)

/-- The MHIT loop of _parse_track_section (`for _ in range(num_tracks)`),
appending parsed tracks. -/
def parseMhits (now : Int) (data : Bytes) :
    Nat → Nat → List Track → Except PErr (List Track)
  | 0, _, tracks => .ok tracks
  | n + 1, offset, tracks =>
    if data.length ≤ offset then .ok tracks
    else if pySlice data offset (offset + 4) ≠ mhitMagic then .ok tracks
    else do
      let mhit_total_len ← sliceU32 data (offset + 8)
      if mhit_total_len = 0 then .ok tracks
      else do
        let track ← parse_mhit now (pySlice data offset (offset + mhit_total_len))
        parseMhits now data n (offset + mhit_total_len) (tracks ++ [track])

/-- parser._parse_track_section. -/
def parse_track_section (now : Int) (data : Bytes) (db : Database) :
    Except PErr Database := do
  let mhsd_header_len ← sliceU32 data 4
  if pySlice data mhsd_header_len (mhsd_header_len + 4) ≠ mhltMagic then .error .badMhlt
  else do
    let mhlt_header_len ← sliceU32 data (mhsd_header_len + 4)
    let num_tracks ← sliceU32 data (mhsd_header_len + 8)
    let tracks ← parseMhits now data num_tracks (mhsd_header_len + mhlt_header_len) db.tracks
    pure { db with tracks := tracks }

/-- The MHYP loop of _parse_playlist_section (`for _ in range(num_playlists)`),
appending parsed playlists. -/
def parseMhyps (now : Int) (data : Bytes) :
    Nat → Nat → List Playlist → Except PErr (List Playlist)
  | 0, _, playlists => .ok playlists
  | n + 1, offset, playlists =>
    if data.length ≤ offset then .ok playlists
    else if pySlice data offset (offset + 4) ≠ mhypMagic then .ok playlists
    else do
      let mhyp_total_len ← sliceU32 data (offset + 8)
      if mhyp_total_len = 0 then .ok playlists
      else do
        let pr ← parse_mhyp now (pySlice data offset (offset + mhyp_total_len))
        parseMhyps now data n (offset + mhyp_total_len) (playlists ++ [pr.1])

/-- parser._parse_playlist_section. -/
def parse_playlist_section (now : Int) (data : Bytes) (db : Database) :
    Except PErr Database := do
  let mhsd_header_len ← sliceU32 data 4
  if pySlice data mhsd_header_len (mhsd_header_len + 4) ≠ mhlpMagic then .error .badMhlp
  else do
    let mhlp_header_len ← sliceU32 data (mhsd_header_len + 4)
    let num_playlists ← sliceU32 data (mhsd_header_len + 8)
    let playlists ← parseMhyps now data num_playlists (mhsd_header_len + mhlp_header_len)
      db.playlists
    pure { db with playlists := playlists }

/-- parser.read_bytes on an in-memory file: the bytes and the new position,
or the EOF error. -/
def read_bytesR (d : Bytes) (pos n : Nat) : Except PErr (Bytes × Nat) :=
  if pos + n ≤ d.length then .ok (pySlice d pos (pos + n), pos + n) else .error .eof

/-- parser.read_uint32 on an in-memory file. -/
def read_uint32R (d : Bytes) (pos : Nat) : Except PErr (Nat × Nat) :=
  if pos + 4 ≤ d.length then .ok (readU32 d pos, pos + 4) else .error .eof

/-- parser.read_uint64 on an in-memory file. -/
def read_uint64R (d : Bytes) (pos : Nat) : Except PErr (Nat × Nat) :=
  if pos + 8 ≤ d.length then .ok (readU64 d pos, pos + 8) else .error .eof

/-- The MHSD section loop of _parse_database (`for _ in range(num_children)`). -/
def parseSections (now : Int) (data : Bytes) :
    Nat → Nat → Database → Except PErr Database
  | 0, _, db => .ok db
  | n + 1, pos, db => do
    let sp ← read_bytesR data pos 4
    if sp.1 ≠ mhsdMagic then .error .badMhsd
    else do
      let hp ← read_uint32R data sp.2
      let tp ← read_uint32R data hp.2
      let yp ← read_uint32R data tp.2
      let sdp ← read_bytesR data pos tp.1
      let db' ←
        if yp.1 = 1 then parse_track_section now sdp.1 db
        else if yp.1 = 2 then parse_playlist_section now sdp.1 db
        else pure db
      parseSections now data n sdp.2 db'

/-- parser._parse_database. -/
def parse_database (now : Int) (data : Bytes) : Except PErr Database := do
  let idp ← read_bytesR data 0 4
  if idp.1 ≠ mhbdMagic then .error .badMhbd
  else do
    let hlp ← read_uint32R data idp.2
    let tlp ← read_uint32R data hlp.2
    let u1p ← read_uint32R data tlp.2
    let dvp ← read_uint32R data u1p.2
    let ncp ← read_uint32R data dvp.2
    let dip ← read_uint64R data ncp.2
    let lgp ← read_bytesR data 70 2
    let lpp ← read_uint64R data lgp.2
    let db : Database :=
      { version := dvp.1, database_id := dip.1, library_persistent_id := lpp.1,
        language := asciiDecodeReplace lgp.1, tracks := [], playlists := [] }
    parseSections now data ncp.1 hlp.1 db

/-! ## Serializer (parser.py _build_*)

`struct.pack` raises struct.error on out-of-range values and
`encode_path` raises ValueError past 112 bytes, so every builder returns
`Except BErr Bytes`. -/

/-- Failure kinds of the serializer. -/
inductive BErr where
  /-- struct.error: argument out of range for the format code. -/
  | packRange
  /-- ValueError from encode_path (path longer than 112 encoded bytes). -/
  | pathTooLong
  /-- UnicodeEncodeError from str.encode("ascii") on the language tag. -/
  | asciiError
deriving DecidableEq, Repr

/-- Builder result: emitted bytes or a raised error. -/
abbrev BR := Except BErr Bytes

/-- Emit literal bytes. -/
def pb (b : Bytes) : BR := .ok b

/-- struct.pack "<B". -/
def packU8 (x : Nat) : BR := if x < 256 then .ok [x] else .error .packRange

/-- struct.pack "<H". -/
def packU16 (x : Nat) : BR := if x < 65536 then .ok (u16le x) else .error .packRange

/-- struct.pack "<I". -/
def packU32 (x : Nat) : BR :=
  if x < 4294967296 then .ok (u32le x) else .error .packRange

/-- struct.pack "<Q". -/
def packU64 (x : Nat) : BR :=
  if x < 18446744073709551616 then .ok (u64le x) else .error .packRange

/-- struct.pack "<i". -/
def packI32 (x : Int) : BR :=
  if -2147483648 ≤ x ∧ x < 2147483648 then .ok (u32le (x.emod 4294967296).toNat)
  else .error .packRange

/-- struct.pack "<I" of datetime_to_mac(dt). -/
def packMac (dt : Int) : BR :=
  let m := datetime_to_mac dt
  if 0 ≤ m ∧ m < 4294967296 then .ok (u32le m.toNat) else .error .packRange

/-- Round to nearest with ties to even. -/
def rne (num den : Nat) : Nat :=
  let q := num / den
  let r := num % den
  if 2 * r < den then q else if den < 2 * r then q + 1
  else if q % 2 = 0 then q else q + 1

/-- IEEE-754 binary32 little-endian encoding of a natural number (the float
conversion performed by struct.pack "<f" on float(n)); `none` when the
rounded value overflows binary32. -/
def f32leBytes? (n : Nat) : Option Bytes :=
  if n = 0 then some (u32le 0)
  else
    let e := Nat.log2 n
    let m := if e ≤ 23 then n * 2 ^ (23 - e) else rne n (2 ^ (e - 23))
    let ep := if m = 2 ^ 24 then e + 1 else e
    let mp := if m = 2 ^ 24 then 2 ^ 23 else m
    if 128 ≤ ep then none
    else some (u32le ((ep + 127) * 2 ^ 23 + (mp - 2 ^ 23)))

/-- struct.pack "<f" of float(n). -/
def packF32 (n : Nat) : BR :=
  match f32leBytes? n with
  | some b => .ok b
  | none => .error .packRange

/-- Sequence builder writes, concatenating their bytes (the BytesIO writes). -/
def bcat : List BR → BR
  | [] => .ok []
  | x :: xs => do pure ((← x) ++ (← bcat xs))

/-- parser._build_string_mhod. -/
def build_string_mhod (mhod_type : Nat) (value : PyStr) : BR := do
  let string_data ←
    if mhod_type = mhodLocation then
      match encode_path value with
      | .ok b => pure b
      | .error _ => throw BErr.pathTooLong
    else pure (encode_string value)
  let string_length := string_data.length
  let total_length := 40 + string_length
  bcat [pb mhodMagic, packU32 24, packU32 total_length, packU32 mhod_type,
    packU32 0, packU32 0, packU32 1, packU32 string_length, packU32 1, packU32 0,
    pb string_data]

/-- The (type, value) pairs of the string MHODs _build_mhit emits, in
emission order, keeping only non-empty values. -/
def trackMhodFields (t : Track) : List (Nat × PyStr) :=
  (if t.title ≠ [] then [(mhodTitle, t.title)] else []) ++
  (if t.path ≠ [] then [(mhodLocation, t.path)] else []) ++
  (if t.artist ≠ [] then [(mhodArtist, t.artist)] else []) ++
  (if t.album ≠ [] then [(mhodAlbum, t.album)] else []) ++
  (if t.album_artist ≠ [] then [(mhodAlbumArtist, t.album_artist)] else []) ++
  (if t.genre ≠ [] then [(mhodGenre, t.genre)] else []) ++
  (if t.composer ≠ [] then [(mhodComposer, t.composer)] else []) ++
  (if t.comment ≠ [] then [(mhodComment, t.comment)] else [])

/-- parser._build_mhit; `fresh_dbid` is the random 63-bit value drawn when
the track's dbid is zero. -/
def build_mhit (track : Track) (fresh_dbid : Nat) : BR := do
  let mhod_data ← bcat ((trackMhodFields track).map fun tv => build_string_mhod tv.1 tv.2)
  let mhod_count := (trackMhodFields track).length
  let total_length := 388 + mhod_data.length
  let dbid := if track.dbid ≠ 0 then track.dbid else fresh_dbid
  let header ← bcat [pb mhitMagic, packU32 388, packU32 total_length, packU32 mhod_count,
    packU32 track.id, packU32 1, packU32 track.file_type.value,
    packU8 0, packU8 (if track.file_type = .mp3 then 1 else 0),
    packU8 (if track.compilation then 1 else 0), packU8 track.rating,
    packMac track.last_modified, packU32 track.size_bytes, packU32 track.duration_ms,
    packU32 track.track_number, packU32 track.total_tracks, packU32 track.year,
    packU32 track.bitrate, packU32 (track.sample_rate * 65536), packI32 0,
    packU32 0, packU32 0, packU32 0, packU32 track.play_count, packU32 track.play_count,
    (match track.last_played with
     | some lp => packMac lp
     | none => packU32 0),
    packU32 track.disc_number, packU32 track.total_discs, packU32 0,
    packMac track.date_added, packU32 0, packU64 dbid, packU8 0, packU8 0,
    packU16 0, packU16 0, packU16 65535, packU32 0, packU32 0, packF32 track.sample_rate,
    packU32 0, packU16 (if track.file_type = .mp3 then 12 else 51), packU16 0,
    packU32 0, packU32 0, packU32 track.skip_count, packU32 0,
    packU8 2, packU8 0, packU8 0, packU8 0, packU64 dbid, packU8 0, packU8 0,
    packU8 0, packU8 0, packU32 0, packU32 track.pregap, packU64 track.sample_count,
    packU32 0, packU32 track.postgap, packU32 0, packU32 track.media_type.value,
    packU32 0, packU32 0, pb (List.replicate 24 0), packU32 0, packU32 track.gapless_data,
    packU32 0, packU16 (if track.gapless_track_flag then 1 else 0),
    packU16 (if track.gapless_album_flag then 1 else 0), pb (List.replicate 20 0)]
  let padding_needed := 388 - header.length
  pure (header ++ List.replicate padding_needed 0 ++ mhod_data)

/-- parser._build_mhip. -/
def build_mhip (track_id position : Nat) : BR := do
  let pos_mhod_data ← bcat [pb mhodMagic, packU32 24, packU32 28,
    packU32 mhodPlaylistColumn, packU32 0, packU32 0, packU32 position]
  let total_length := 76 + pos_mhod_data.length
  let header ← bcat [pb mhipMagic, packU32 76, packU32 total_length, packU32 1,
    packU16 0, packU8 0, packU8 0, packU32 (position + 1), packU32 track_id,
    packU32 0, packU32 0]
  let padding_needed := 76 - header.length
  pure (header ++ List.replicate padding_needed 0 ++ pos_mhod_data)

/-- parser._build_mhyp. -/
def build_mhyp (playlist : Playlist) : BR := do
  let mhod_data ←
    if ¬ playlist.is_master ∧ playlist.name ≠ [] then
      build_string_mhod mhodTitle playlist.name
    else pure []
  let mhod_count : Nat :=
    if ¬ playlist.is_master ∧ playlist.name ≠ [] then 1 else 0
  let mhip_data ← bcat (playlist.track_ids.enum.map fun iv => build_mhip iv.2 iv.1)
  let total_length := 108 + mhod_data.length + mhip_data.length
  let header ← bcat [pb mhypMagic, packU32 108, packU32 total_length, packU32 mhod_count,
    packU32 playlist.track_ids.length, packU8 (if playlist.is_master then 1 else 0),
    pb [0, 0, 0], packMac playlist.timestamp, packU64 playlist.id, packU32 0,
    packU16 mhod_count, packU16 (if playlist.is_podcast then 1 else 0),
    packU32 playlist.sort_order.value]
  let padding_needed := 108 - header.length
  pure (header ++ List.replicate padding_needed 0 ++ mhod_data ++ mhip_data)

/-- parser._build_track_section; `rnd i` is the fresh dbid drawn for the
i-th track when its stored dbid is zero. -/
def build_track_section (db : Database) (rnd : Nat → Nat) : BR := do
  let mhits ← bcat (db.tracks.enum.map fun it => build_mhit it.2 (rnd it.1))
  let mhlt ← bcat [pb mhltMagic, packU32 92, packU32 db.tracks.length]
  let mhlt_data := mhlt ++ List.replicate (92 - mhlt.length) 0 ++ mhits
  let mhsd ← bcat [pb mhsdMagic, packU32 96, packU32 (96 + mhlt_data.length), packU32 1]
  pure (mhsd ++ List.replicate (96 - mhsd.length) 0 ++ mhlt_data)

/-- parser._build_playlist_section. -/
def build_playlist_section (db : Database) : BR := do
  let mhyps ← bcat (db.playlists.map build_mhyp)
  let mhlp ← bcat [pb mhlpMagic, packU32 92, packU32 db.playlists.length]
  let mhlp_data := mhlp ++ List.replicate (92 - mhlp.length) 0 ++ mhyps
  let mhsd ← bcat [pb mhsdMagic, packU32 96, packU32 (96 + mhlp_data.length), packU32 2]
  pure (mhsd ++ List.replicate (96 - mhsd.length) 0 ++ mhlp_data)

/-- str.encode("ascii")[:2].ljust(2, b"\x00") for the language tag. -/
def asciiEnc (s : PyStr) : Except BErr Bytes :=
  if s.all (fun c => c.toNat < 128) then
    let b := (s.map Char.toNat).take 2
    .ok (b ++ List.replicate (2 - b.length) 0)
  else .error .asciiError

/-- The random values consumed by _build_database: one per track position
(used when that track's dbid is zero) and the two database identifiers
(used when the stored ones are zero).  Python draws them from the global
generator; they are a parameter here. -/
structure Rnd where
  track_dbid : Nat → Nat
  db_id : Nat
  lib_id : Nat

/-- Refresh the track_ids of the first is_master playlist (the object
aliased by get_master_playlist). -/
def refreshFirstMaster (ids : List Nat) : List Playlist → List Playlist
  | [] => []
  | p :: rest =>
    if p.is_master then { p with track_ids := ids } :: rest
    else p :: refreshFirstMaster ids rest

/-- The byte-emitting part of parser._build_database, applied to the
already-mutated database. -/
def build_database_bytesPart (db3 : Database) (rnd : Rnd) : BR := do
  let track_section ← build_track_section db3 rnd.track_dbid
  let playlist_section ← build_playlist_section db3
  let total_size := 104 + track_section.length + playlist_section.length
  let language_bytes ← asciiEnc db3.language
  let mhbd ← bcat [pb mhbdMagic, packU32 104, packU32 total_size, packU32 1,
    packU32 db3.version, packU32 2, packU64 db3.database_id, packU16 2, packU32 0,
    packU64 0, pb (List.replicate 24 0), pb language_bytes,
    packU64 db3.library_persistent_id]
  pure (mhbd ++ List.replicate (104 - mhbd.length) 0 ++ track_section ++ playlist_section)

/-- parser._build_database, including its in-place mutation of the passed
database: the result is the mutated database together with the bytes (or
the raised error). -/
def build_database (db : Database) (rnd : Rnd) (now : Int) : Database × BR :=
  let track_id_list := db.tracks.map Track.id
  let db1 :=
    match db.get_master_playlist with
    | none =>
      let master : Playlist :=
        { id := db.next_playlist_id, name := "Library".data,
          track_ids := track_id_list, is_master := true, timestamp := now }
      { db with playlists := master :: db.playlists }
    | some _ => { db with playlists := refreshFirstMaster track_id_list db.playlists }
  let db2 := if db1.database_id = 0 then { db1 with database_id := rnd.db_id } else db1
  let db3 :=
    if db2.library_persistent_id = 0 then
      { db2 with library_persistent_id := rnd.lib_id }
    else db2
  (db3, build_database_bytesPart db3 rnd)

/-! ## Claim-support definitions -/

/-- The clamp to [0, len] that the specification describes for insert
positions. -/
def specClamp (pos : Int) (len : Nat) : Nat := (max 0 (min pos (len : Int))).toNat

/-- Equality of tracks modulo the dbid field, with the dbid required to
agree whenever the reference track's dbid is nonzero. -/
def trackEqModDbid (a b : Track) : Prop :=
  a = { b with dbid := a.dbid } ∧ (b.dbid ≠ 0 → a.dbid = b.dbid)

instance : DecidablePred fun ab : Track × Track => trackEqModDbid ab.1 ab.2 :=
  fun _ => by unfold trackEqModDbid; infer_instance

/-- The names, contents and order of the non-master playlists. -/
def userPlaylistView (db : Database) : List (PyStr × List Nat) :=
  (db.playlists.filter fun p => ¬ p.is_master).map fun p => (p.name, p.track_ids)

/-- The semantic conditions under which a track's on-disk image decodes to
the very same field values: a zero sample rate reloads as 44100, zero disc
fields reload as 1, a timestamp equal to the Mac epoch reloads as the load
time (or as absent for last_played), and a path not already in colon form
reloads as its colon form. -/
def TrackFaithful (t : Track) : Prop :=
  t.sample_rate ≠ 0 ∧
  t.disc_number ≠ 0 ∧
  t.total_discs ≠ 0 ∧
  datetime_to_mac t.date_added ≠ 0 ∧
  datetime_to_mac t.last_modified ≠ 0 ∧
  (∀ lp ∈ t.last_played, datetime_to_mac lp ≠ 0) ∧
  (t.path = [] ∨ (t.path.head? = some ':' ∧ '/' ∉ t.path))

instance (t : Track) : Decidable (TrackFaithful t) := by
  unfold TrackFaithful; infer_instance

/-- What a track written by build_mhit reads back as: dbid freshly drawn
when zero, the parser defaults for zero sample rate / disc fields /
timestamps, and the colon-form of the path. -/
def reloadTrack (now2 : Int) (fresh : Nat) (t : Track) : Track :=
  { t with
    dbid := if t.dbid ≠ 0 then t.dbid else fresh,
    sample_rate := if t.sample_rate = 0 then 44100 else t.sample_rate,
    disc_number := if t.disc_number = 0 then 1 else t.disc_number,
    total_discs := if t.total_discs = 0 then 1 else t.total_discs,
    date_added := if datetime_to_mac t.date_added ≠ 0 then t.date_added else now2,
    last_modified := if datetime_to_mac t.last_modified ≠ 0 then t.last_modified else now2,
    last_played :=
      match t.last_played with
      | some lp => if datetime_to_mac lp ≠ 0 then some lp else none
      | none => none,
    path := if t.path = [] then [] else pathTransform t.path }

/-- What a playlist written by build_mhyp reads back as: the low 32 bits of
the id, the empty name for the master (no title data-object is written) and
for the empty name, and the load time for a Mac-epoch timestamp. -/
def reloadPlaylist (now2 : Int) (p : Playlist) : Playlist :=
  { p with
    id := p.id % 4294967296,
    name := if p.is_master ∨ p.name = [] then [] else p.name,
    timestamp := if datetime_to_mac p.timestamp ≠ 0 then p.timestamp else now2 }

/-- What the language tag reads back as (ascii-encoded, cut or padded to two
bytes, decoded with replacement). -/
def langReload (s : PyStr) : PyStr :=
  asciiDecodeReplace ((s.map Char.toNat).take 2 ++
    List.replicate (2 - ((s.map Char.toNat).take 2).length) 0)

/-- The fresh-device folder counts of the concrete load-balancing scenario:
F00 through F09 hold 5 entries each, the rest are empty. -/
def freshDeviceCounts : Nat → Option Nat := fun i => if i < 10 then some 5 else some 0

/-- A database with three tracks and one user playlist holding [1, 2]; the
concrete input refuting the clamp reading of add_track_to_playlist. -/
def c4db : Database :=
  { tracks :=
      [{ id := 1, title := [ 'A'], artist := [], album := [] },
       { id := 2, title := [ 'B'], artist := [], album := [] },
       { id := 3, title := [ 'C'], artist := [], album := [] }],
    playlists := [{ id := 10, name := [ 'P'], track_ids := [1, 2] }] }

/-- A track record whose single declared child passes the length bounds of
the child loop but is shorter than a data-object header: magic mhit, header
length 32, total length 64, one child, id 7, 12 bytes of header padding,
then a 20-byte child declaring total length 20. -/
def c3data : Bytes :=
  mhitMagic ++ u32le 32 ++ u32le 64 ++ u32le 1 ++ u32le 7 ++ List.replicate 12 0 ++
    (mhodMagic ++ u32le 24 ++ u32le 20 ++ u32le 1 ++ List.replicate 4 0)

/-- The library of the round-trip counterexample: one track whose
sample_rate is 0 (a value build_mhit writes as a zero shifted field and
parse_mhit reloads as 44100), stored timestamps away from the Mac epoch,
and a master playlist. -/
def c1db : Database :=
  { version := 0x15, database_id := 7, library_persistent_id := 9,
    tracks :=
      [{ id := 1, title := [ 'S'], artist := [ 'A'], album := [ 'B'],
         sample_rate := 0, dbid := 5, date_added := 1, last_modified := 1 }],
    playlists := [{ id := 1, name := [], is_master := true, timestamp := 1 }] }

/-- A deterministic stand-in for the random id supply. -/
def c1rnd : Rnd := { track_dbid := fun _ => 11, db_id := 13, lib_id := 17 }

/-- The database object after build_database's in-place mutation of c1db. -/
def c1db3 : Database := (build_database c1db c1rnd 0).1

/-- The bytes build_database emits for c1db. -/
def c1bytes : Bytes :=
  match (build_database c1db c1rnd 0).2 with
  | .ok b => b
  | .error _ => []

/-- The database parse_database reloads from c1bytes. -/
def c1db2 : Database :=
  match parse_database 0 c1bytes with
  | .ok d => d
  | .error _ => {}

/-- The library of the round-trip witness: two well-formed tracks with
colon-form paths, a master playlist and a user playlist named Favorites
holding track 1 (the concrete scenario of the specification). -/
def w1db : Database :=
  { version := 0x15, database_id := 3, library_persistent_id := 4,
    tracks :=
      [{ id := 1, title := "Song One".data, artist := "Artist A".data,
         album := "Album X".data, path := ":iPod_Control:Music:F00:S001.mp3".data,
         sample_rate := 44100, dbid := 21, date_added := 1, last_modified := 1 },
       { id := 2, title := "Song Two".data, artist := "Artist B".data,
         album := "Album Y".data, path := ":iPod_Control:Music:F00:S002.mp3".data,
         sample_rate := 48000, dbid := 0, date_added := 1, last_modified := 1 }],
    playlists :=
      [{ id := 1, name := [], is_master := true, timestamp := 1 },
       { id := 2, name := "Favorites".data, track_ids := [1], timestamp := 1 }] }

/-- A deterministic stand-in for the random id supply of the witness. -/
def w1rnd : Rnd := { track_dbid := fun i => 100 + i, db_id := 31, lib_id := 37 }

/-- The database object after build_database's in-place mutation of w1db. -/
def w1db3 : Database := (build_database w1db w1rnd 0).1

/-- The bytes build_database emits for w1db. -/
def w1bytes : Bytes :=
  match (build_database w1db w1rnd 0).2 with
  | .ok b => b
  | .error _ => []

/-! ## Byte images of the builders

Pure descriptions of the bytes each builder emits on its success path;
the build_*_ok lemmas below prove the builders return exactly these. -/

/-- A one-byte chunk (struct.pack "<B" image). -/
def u8le (x : Nat) : Bytes := [x]

/-- A run of zero bytes (padding image). -/
def zeros (n : Nat) : Bytes := List.replicate n 0

/-- The IEEE-754 binary32 bytes emitted for a natural (total; the builders
only reach it for values where f32leBytes? is some). -/
def f32Bytes (n : Nat) : Bytes := (f32leBytes? n).getD (u32le 0)

/-- The payload of a string data-object: the path codec for type 2, the
text codec otherwise. -/
def stringMhodPayload (ty : Nat) (v : PyStr) : Bytes :=
  if ty = mhodLocation then encode_string (pathTransform v) else encode_string v

/-- The bytes of a string data-object. -/
def stringMhodBytes (ty : Nat) (v : PyStr) : Bytes :=
  mhodMagic ++ u32le 24 ++ u32le (40 + (stringMhodPayload ty v).length) ++ u32le ty ++
  u32le 0 ++ u32le 0 ++ u32le 1 ++ u32le (stringMhodPayload ty v).length ++ u32le 1 ++
  u32le 0 ++ stringMhodPayload ty v

/-- The value parse_mhod recovers from a string data-object of type ty. -/
def stringMhodDecoded (ty : Nat) (v : PyStr) : PyStr :=
  if ty = mhodLocation then pathTransform v else v

/-- The concatenated string data-objects of a field list. -/
def mhodsBytes (fields : List (Nat × PyStr)) : Bytes :=
  (fields.map fun tv => stringMhodBytes tv.1 tv.2).flatten

/-- The total length of a track record. -/
def mhitLen (t : Track) : Nat := 388 + (mhodsBytes (trackMhodFields t)).length

/-- The dbid written for a track: the stored one, or the fresh draw when
the stored one is zero. -/
def trackDbid (t : Track) (fresh : Nat) : Nat := if t.dbid ≠ 0 then t.dbid else fresh

/-- The 280 header bytes build_mhit writes before padding. -/
def mhitHeaderBytes (t : Track) (fresh : Nat) : Bytes :=
  mhitMagic ++ u32le 388 ++ u32le (mhitLen t) ++ u32le (trackMhodFields t).length ++
  u32le t.id ++ u32le 1 ++ u32le t.file_type.value ++ u8le 0 ++
  u8le (if t.file_type = .mp3 then 1 else 0) ++ u8le (if t.compilation then 1 else 0) ++
  u8le t.rating ++ u32le (datetime_to_mac t.last_modified).toNat ++ u32le t.size_bytes ++
  u32le t.duration_ms ++ u32le t.track_number ++ u32le t.total_tracks ++ u32le t.year ++
  u32le t.bitrate ++ u32le (t.sample_rate * 65536) ++ u32le 0 ++ u32le 0 ++ u32le 0 ++
  u32le 0 ++ u32le t.play_count ++ u32le t.play_count ++
  u32le (match t.last_played with
         | some lp => (datetime_to_mac lp).toNat
         | none => 0) ++
  u32le t.disc_number ++ u32le t.total_discs ++ u32le 0 ++
  u32le (datetime_to_mac t.date_added).toNat ++ u32le 0 ++ u64le (trackDbid t fresh) ++
  u8le 0 ++ u8le 0 ++ u16le 0 ++ u16le 0 ++ u16le 65535 ++ u32le 0 ++ u32le 0 ++
  f32Bytes t.sample_rate ++ u32le 0 ++ u16le (if t.file_type = .mp3 then 12 else 51) ++
  u16le 0 ++ u32le 0 ++ u32le 0 ++ u32le t.skip_count ++ u32le 0 ++ u8le 2 ++ u8le 0 ++
  u8le 0 ++ u8le 0 ++ u64le (trackDbid t fresh) ++ u8le 0 ++ u8le 0 ++ u8le 0 ++ u8le 0 ++
  u32le 0 ++ u32le t.pregap ++ u64le t.sample_count ++ u32le 0 ++ u32le t.postgap ++
  u32le 0 ++ u32le t.media_type.value ++ u32le 0 ++ u32le 0 ++ zeros 24 ++
  u32le 0 ++ u32le t.gapless_data ++ u32le 0 ++
  u16le (if t.gapless_track_flag then 1 else 0) ++
  u16le (if t.gapless_album_flag then 1 else 0) ++ zeros 20

/-- The full track record: header, zero padding to 388, string children. -/
def mhitBytes (t : Track) (fresh : Nat) : Bytes :=
  mhitHeaderBytes t fresh ++ zeros (388 - (mhitHeaderBytes t fresh).length) ++
    mhodsBytes (trackMhodFields t)

/-- The bytes of a playlist item (76-byte header plus position data-object). -/
def mhipBytes (tid pos : Nat) : Bytes :=
  mhipMagic ++ u32le 76 ++ u32le 104 ++ u32le 1 ++ u16le 0 ++ u8le 0 ++ u8le 0 ++
  u32le (pos + 1) ++ u32le tid ++ u32le 0 ++ u32le 0 ++ zeros 40 ++
  (mhodMagic ++ u32le 24 ++ u32le 28 ++ u32le 100 ++ u32le 0 ++ u32le 0 ++ u32le pos)

/-- The title data-object of a playlist record (none for the master or an
empty name). -/
def mhypMhodBytes (p : Playlist) : Bytes :=
  if ¬ p.is_master ∧ p.name ≠ [] then stringMhodBytes mhodTitle p.name else []

/-- The count of title data-objects of a playlist record. -/
def mhypMhodCount (p : Playlist) : Nat :=
  if ¬ p.is_master ∧ p.name ≠ [] then 1 else 0

/-- The concatenated playlist items of a playlist record. -/
def mhypMhipBytes (p : Playlist) : Bytes :=
  (p.track_ids.enum.map fun iv => mhipBytes iv.2 iv.1).flatten

/-- The total length of a playlist record. -/
def mhypLen (p : Playlist) : Nat :=
  108 + (mhypMhodBytes p).length + (mhypMhipBytes p).length

/-- The 48 header bytes build_mhyp writes before padding. -/
def mhypHeaderBytes (p : Playlist) : Bytes :=
  mhypMagic ++ u32le 108 ++ u32le (mhypLen p) ++ u32le (mhypMhodCount p) ++
  u32le p.track_ids.length ++ u8le (if p.is_master then 1 else 0) ++
  zeros 3 ++ u32le (datetime_to_mac p.timestamp).toNat ++ u64le p.id ++
  u32le 0 ++ u16le (mhypMhodCount p) ++ u16le (if p.is_podcast then 1 else 0) ++
  u32le p.sort_order.value

/-- The full playlist record. -/
def mhypBytes (p : Playlist) : Bytes :=
  mhypHeaderBytes p ++ zeros (108 - (mhypHeaderBytes p).length) ++
    mhypMhodBytes p ++ mhypMhipBytes p

/-- The concatenated track records, with the indexed fresh-dbid supply. -/
def mhitsBytes (tracks : List Track) (rnd : Nat → Nat) : Bytes :=
  (tracks.enum.map fun it => mhitBytes it.2 (rnd it.1)).flatten

/-- The total length of the type-1 section. -/
def trackSectionLen (db : Database) : Nat := 96 + 92 + (db.tracks.map mhitLen).sum

/-- The bytes of the type-1 (track list) section. -/
def trackSectionBytes (db : Database) (rnd : Nat → Nat) : Bytes :=
  mhsdMagic ++ u32le 96 ++ u32le (trackSectionLen db) ++ u32le 1 ++
  zeros 80 ++ mhltMagic ++ u32le 92 ++ u32le db.tracks.length ++
  zeros 80 ++ mhitsBytes db.tracks rnd

/-- The concatenated playlist records. -/
def mhypsBytes (ps : List Playlist) : Bytes := (ps.map mhypBytes).flatten

/-- The total length of the type-2 section. -/
def playlistSectionLen (db : Database) : Nat :=
  96 + 92 + (db.playlists.map mhypLen).sum

/-- The bytes of the type-2 (playlist list) section. -/
def playlistSectionBytes (db : Database) : Bytes :=
  mhsdMagic ++ u32le 96 ++ u32le (playlistSectionLen db) ++ u32le 2 ++
  zeros 80 ++ mhlpMagic ++ u32le 92 ++ u32le db.playlists.length ++
  zeros 80 ++ mhypsBytes db.playlists

/-- The length of the emitted file. -/
def fileLen (db : Database) : Nat := 104 + trackSectionLen db + playlistSectionLen db

/-- The two language bytes (encode to ascii, cut or pad to two). -/
def langBytes (s : PyStr) : Bytes :=
  (s.map Char.toNat).take 2 ++ zeros (2 - ((s.map Char.toNat).take 2).length)

/-- The 104-byte database header. -/
def mhbdBytes (db : Database) : Bytes :=
  mhbdMagic ++ u32le 104 ++ u32le (fileLen db) ++ u32le 1 ++ u32le db.version ++
  u32le 2 ++ u64le db.database_id ++ u16le 2 ++ u32le 0 ++ u64le 0 ++
  zeros 24 ++ langBytes db.language ++ u64le db.library_persistent_id ++
  zeros 24

/-- The whole emitted file. -/
def fileBytes (db : Database) (rnd : Rnd) : Bytes :=
  mhbdBytes db ++ trackSectionBytes db rnd.track_dbid ++ playlistSectionBytes db

/-- The database object after build_database's in-place mutation (master
synthesized or refreshed, zero identifiers replaced). -/
def postSave (db : Database) (rnd : Rnd) (now : Int) : Database :=
  (build_database db rnd now).1

/-- The database parse_database reloads from the emitted bytes. -/
def reloadDatabase (now2 : Int) (rnd : Rnd) (db3 : Database) : Database :=
  { version := db3.version, database_id := db3.database_id,
    library_persistent_id := db3.library_persistent_id,
    language := langReload db3.language,
    tracks := db3.tracks.enum.map fun it => reloadTrack now2 (rnd.track_dbid it.1) it.2,
    playlists := db3.playlists.map (reloadPlaylist now2) }

/-! ## Serializability bounds

The width conditions under which every struct.pack performed by the
builders succeeds.  The nesting of declared lengths makes the single bound
fileLen < 2^32 imply every inner length bound. -/

/-- Width bounds on one track's fields. -/
def TrackWF (t : Track) : Prop :=
  t.id < 4294967296 ∧ t.rating < 256 ∧ t.sample_rate * 65536 < 4294967296 ∧
  t.size_bytes < 4294967296 ∧ t.duration_ms < 4294967296 ∧
  t.track_number < 4294967296 ∧ t.total_tracks < 4294967296 ∧
  t.year < 4294967296 ∧ t.bitrate < 4294967296 ∧ t.play_count < 4294967296 ∧
  t.skip_count < 4294967296 ∧ t.disc_number < 4294967296 ∧
  t.total_discs < 4294967296 ∧ t.pregap < 4294967296 ∧ t.postgap < 4294967296 ∧
  t.gapless_data < 4294967296 ∧ t.sample_count < 18446744073709551616 ∧
  t.dbid < 18446744073709551616 ∧
  0 ≤ datetime_to_mac t.date_added ∧ datetime_to_mac t.date_added < 4294967296 ∧
  0 ≤ datetime_to_mac t.last_modified ∧ datetime_to_mac t.last_modified < 4294967296 ∧
  (∀ lp ∈ t.last_played,
     0 ≤ datetime_to_mac lp ∧ datetime_to_mac lp < 4294967296) ∧
  (encode_string (pathTransform t.path)).length ≤ 112

instance (t : Track) : Decidable (TrackWF t) := by
  unfold TrackWF; infer_instance

/-- Width bounds on one playlist's fields. -/
def PlaylistWF (p : Playlist) : Prop :=
  p.id < 18446744073709551616 ∧ 0 ≤ datetime_to_mac p.timestamp ∧
  datetime_to_mac p.timestamp < 4294967296 ∧ ∀ tid ∈ p.track_ids, tid < 4294967296

instance (p : Playlist) : Decidable (PlaylistWF p) := by
  unfold PlaylistWF; infer_instance

/-- Width bounds on the whole database. -/
def DatabaseWF (db : Database) : Prop :=
  db.version < 4294967296 ∧ db.database_id < 18446744073709551616 ∧
  db.library_persistent_id < 18446744073709551616 ∧
  (∀ c ∈ db.language, c.toNat < 128) ∧ fileLen db < 4294967296 ∧
  (∀ t ∈ db.tracks, TrackWF t) ∧ (∀ p ∈ db.playlists, PlaylistWF p)

instance (db : Database) : Decidable (DatabaseWF db) := by
  unfold DatabaseWF; infer_instance

/-- The UTF-16 code units of one scalar value. -/
def charUnits (c : Char) : List Nat :=
  if c.toNat < 65536 then [c.toNat]
  else [55296 + (c.toNat - 65536) / 1024, 56320 + (c.toNat - 65536) % 1024]

/-- The UTF-16 code units of a string. -/
def unitsList (s : PyStr) : List Nat := (s.map charUnits).flatten

deriving instance DecidableEq for Except

/-- The cumulative effect of the track child loop on the header-derived
track: every recognized string data-object stored into its field. -/
def applyMhods (track : Track) (fields : List (Nat × PyStr)) : Track :=
  fields.foldl (fun tr tv => applyTrackMhod tr tv.1 (.str (stringMhodDecoded tv.1 tv.2)))
    track

/-! ## Byte-level lemmas -/

theorem byteAt_append_right (l r : Bytes) (n : Nat) (h : l.length ≤ n) :
    byteAt (l ++ r) n = byteAt r (n - l.length) := by
  simp [byteAt, List.getD_eq_getElem?_getD, List.getElem?_append_right h]

@[simp] theorem readU32_append_right (l r : Bytes) (n : Nat) (h : l.length ≤ n) :
    readU32 (l ++ r) n = readU32 r (n - l.length) := by
  unfold readU32
  rw [byteAt_append_right l r n h,
    byteAt_append_right l r (n+1) (by omega),
    byteAt_append_right l r (n+2) (by omega),
    byteAt_append_right l r (n+3) (by omega),
    show n+1 - l.length = n - l.length + 1 from by omega,
    show n+2 - l.length = n - l.length + 2 from by omega,
    show n+3 - l.length = n - l.length + 3 from by omega]

@[simp] theorem readU16_append_right (l r : Bytes) (n : Nat) (h : l.length ≤ n) :
    readU16 (l ++ r) n = readU16 r (n - l.length) := by
  unfold readU16
  rw [byteAt_append_right l r n h, byteAt_append_right l r (n+1) (by omega),
    show n+1 - l.length = n - l.length + 1 from by omega]

@[simp] theorem readU64_append_right (l r : Bytes) (n : Nat) (h : l.length ≤ n) :
    readU64 (l ++ r) n = readU64 r (n - l.length) := by
  unfold readU64
  rw [readU32_append_right l r n h, readU32_append_right l r (n+4) (by omega),
    show n+4 - l.length = n - l.length + 4 from by omega]

@[simp] theorem byteAt_append_skip (l r : Bytes) (n : Nat) (h : l.length ≤ n) :
    byteAt (l ++ r) n = byteAt r (n - l.length) := byteAt_append_right l r n h

@[simp] theorem readU32_u32le (x : Nat) (r : Bytes) :
    readU32 (u32le x ++ r) 0 = x % 4294967296 := by
  simp [readU32, u32le, byteAt]; omega

@[simp] theorem readU16_u16le (x : Nat) (r : Bytes) : readU16 (u16le x ++ r) 0 = x % 65536 := by
  simp [readU16, u16le, byteAt]; omega

@[simp] theorem byteAt_u8le (x : Nat) (r : Bytes) : byteAt (u8le x ++ r) 0 = x := by
  simp [byteAt, u8le]

@[simp] theorem readU64_u64le (x : Nat) (r : Bytes) :
    readU64 (u64le x ++ r) 0 = x % 18446744073709551616 := by
  unfold u64le
  rw [List.append_assoc, readU64, readU32_u32le,
    readU32_append_right (u32le (x % 4294967296)) _ 4 (by simp [u32le]),
    show (4:Nat) - (u32le (x % 4294967296)).length = 0 from by simp [u32le], readU32_u32le]
  omega

@[simp] theorem u32le_length (x : Nat) : (u32le x).length = 4 := rfl
@[simp] theorem u16le_length (x : Nat) : (u16le x).length = 2 := rfl
@[simp] theorem u8le_length (x : Nat) : (u8le x).length = 1 := rfl
@[simp] theorem u64le_length (x : Nat) : (u64le x).length = 8 := rfl
@[simp] theorem zeros_length (n : Nat) : (zeros n).length = n := List.length_replicate n 0
@[simp] theorem mhbdMagic_length : mhbdMagic.length = 4 := rfl
@[simp] theorem mhsdMagic_length : mhsdMagic.length = 4 := rfl
@[simp] theorem mhltMagic_length : mhltMagic.length = 4 := rfl
@[simp] theorem mhitMagic_length : mhitMagic.length = 4 := rfl
@[simp] theorem mhodMagic_length : mhodMagic.length = 4 := rfl
@[simp] theorem mhlpMagic_length : mhlpMagic.length = 4 := rfl
@[simp] theorem mhypMagic_length : mhypMagic.length = 4 := rfl
@[simp] theorem mhipMagic_length : mhipMagic.length = 4 := rfl

@[simp] theorem f32Bytes_length (n : Nat) : (f32Bytes n).length = 4 := by
  unfold f32Bytes f32leBytes?
  dsimp only
  repeat' split
  all_goals rfl

theorem drop_append_right (l r : Bytes) (n : Nat) (h : l.length ≤ n) :
    (l ++ r).drop n = r.drop (n - l.length) := by
  induction l generalizing n with
  | nil => simp
  | cons a l ih =>
    cases n with
    | zero => simp at h
    | succ m =>
      simp only [List.cons_append, List.drop_succ_cons]
      rw [ih m (by simpa using h)]
      simp

theorem take_append_exact (l r : Bytes) (n : Nat) (h : l.length = n) :
    (l ++ r).take n = l := by
  subst h; exact List.take_left l r

theorem pySlice_zero_exact (l r : Bytes) (n : Nat) (h : l.length = n) :
    pySlice (l ++ r) 0 n = l := by
  simp [pySlice, take_append_exact l r n h]

theorem pySlice_extract_exact (pre mid suf : Bytes) (a b : Nat) (ha : pre.length = a)
    (hb : a + mid.length = b) : pySlice (pre ++ (mid ++ suf)) a b = mid := by
  subst ha
  simp only [pySlice, drop_append_right _ _ _ (Nat.le_refl _), Nat.sub_self, List.drop_zero]
  have hb2 : b - pre.length = mid.length := by omega
  rw [hb2, take_append_exact mid suf _ rfl]

/-! ## String codec round trip -/

theorem bytesToUnits_encode (s : PyStr) :
    bytesToUnits (encode_string s) = .ok (unitsList s) := by
  induction s with
  | nil => rfl
  | cons c s ih =>
    have hstep : encode_string (c :: s) = encChar c ++ encode_string s := by
      simp [encode_string]
    rw [hstep]
    by_cases h : c.toNat < 65536
    · rw [show encChar c = [c.toNat % 256, c.toNat / 256 % 256] from by
        simp [encChar, if_pos h, u16le]]
      show bytesToUnits (c.toNat % 256 :: c.toNat / 256 % 256 :: encode_string s) = _
      rw [bytesToUnits, ih]
      have : c.toNat % 256 + 256 * (c.toNat / 256 % 256) = c.toNat := by omega
      simp [unitsList, charUnits, if_pos h, this]
    · rw [show encChar c =
          (55296 + (c.toNat - 65536) / 1024) % 256 ::
          (55296 + (c.toNat - 65536) / 1024) / 256 % 256 ::
          (56320 + (c.toNat - 65536) % 1024) % 256 ::
          [(56320 + (c.toNat - 65536) % 1024) / 256 % 256] from by
        simp [encChar, if_neg h, u16le]]
      show bytesToUnits (_ :: _ :: _ :: _ :: encode_string s) = _
      rw [bytesToUnits, bytesToUnits, ih]
      have hval : c.toNat < 55296 ∨ 57343 < c.toNat ∧ c.toNat < 1114112 := c.valid
      have hlt : c.toNat < 1114112 := by omega
      have h1 : (55296 + (c.toNat - 65536) / 1024) % 256 +
          256 * ((55296 + (c.toNat - 65536) / 1024) / 256 % 256) =
          55296 + (c.toNat - 65536) / 1024 := by omega
      have h2 : (56320 + (c.toNat - 65536) % 1024) % 256 +
          256 * ((56320 + (c.toNat - 65536) % 1024) / 256 % 256) =
          56320 + (c.toNat - 65536) % 1024 := by omega
      simp [unitsList, charUnits, if_neg h, h1, h2]

theorem unitsToChars_unitsList (s : PyStr) : unitsToChars (unitsList s) = .ok s := by
  induction s with
  | nil => rfl
  | cons c s ih =>
    have hval : c.toNat < 55296 ∨ 57343 < c.toNat ∧ c.toNat < 1114112 := c.valid
    by_cases h : c.toNat < 65536
    · have hstep : unitsList (c :: s) = c.toNat :: unitsList s := by
        simp [unitsList, charUnits, if_pos h]
      have hcond : c.toNat < 55296 ∨ 57343 < c.toNat := by omega
      rw [hstep]
      rcases hu : unitsList s with _ | ⟨v, rest⟩
      · rw [hu] at ih
        have hs : s = [] := by
          have : Except.ok ([] : PyStr) = .ok s := ih
          simpa using this.symm
        subst hs
        simp [unitsToChars, if_pos hcond, Char.ofNat_toNat]
      · rw [hu] at ih
        simp only [unitsToChars]
        rw [if_pos hcond, ih]
        simp [Char.ofNat_toNat]
    · have hstep : unitsList (c :: s) =
          (55296 + (c.toNat - 65536) / 1024) :: (56320 + (c.toNat - 65536) % 1024) ::
            unitsList s := by
        simp [unitsList, charUnits, if_neg h]
      have hlt : c.toNat < 1114112 := by omega
      have hq : (c.toNat - 65536) / 1024 < 1024 := by omega
      rw [hstep]
      simp only [unitsToChars]
      rw [if_neg (by omega), if_pos (by omega), if_pos (by constructor <;> omega), ih]
      have hsum : 65536 + (55296 + (c.toNat - 65536) / 1024 - 55296) * 1024 +
          (56320 + (c.toNat - 65536) % 1024 - 56320) = c.toNat := by omega
      simp only [hsum, Char.ofNat_toNat]
      simp

theorem decode_encode_string (s : PyStr) : decode_string (encode_string s) = .ok s := by
  rw [decode_string, bytesToUnits_encode s]
  show unitsToChars (unitsList s) = .ok s
  exact unitsToChars_unitsList s

theorem decode_path_encode (s : PyStr) :
    decode_path (encode_string (pathTransform s)) = .ok (pathTransform s) :=
  decode_encode_string (pathTransform s)

/-! ## Builder success lemmas -/

@[simp] theorem ebind_ok {α β : Type} {ε : Type} (a : α) (f : α → Except ε β) :
    (Except.ok a : Except ε α) >>= f = f a := rfl

@[simp] theorem epure_eq_ok {α : Type} {ε : Type} (a : α) :
    (pure a : Except ε α) = .ok a := rfl

@[simp] theorem bcat_nil : bcat [] = .ok [] := rfl

@[simp] theorem emap_ok {α β : Type} {ε : Type} (f : α → β) (a : α) :
    Except.map f (Except.ok a : Except ε α) = .ok (f a) := rfl

@[simp] theorem bcat_cons_ok (v : Bytes) (xs : List BR) :
    bcat (.ok v :: xs) = Except.map (fun w => v ++ w) (bcat xs) := by
  rcases h : bcat xs with e | b <;> simp [bcat, h] <;> rfl

theorem packU8_ok {x : Nat} (h : x < 256) : packU8 x = .ok (u8le x) := by
  simp [packU8, u8le, h]

theorem packU16_ok {x : Nat} (h : x < 65536) : packU16 x = .ok (u16le x) := by
  simp [packU16, h]

theorem packU32_ok {x : Nat} (h : x < 4294967296) : packU32 x = .ok (u32le x) := by
  simp [packU32, h]

theorem packU64_ok {x : Nat} (h : x < 18446744073709551616) :
    packU64 x = .ok (u64le x) := by
  simp [packU64, h]

theorem packI32_zero : packI32 0 = .ok (u32le 0) := by decide

theorem packMac_ok {dt : Int} (h0 : 0 ≤ datetime_to_mac dt)
    (h1 : datetime_to_mac dt < 4294967296) :
    packMac dt = .ok (u32le (datetime_to_mac dt).toNat) := by
  unfold packMac
  rw [if_pos ⟨h0, h1⟩]

theorem f32leBytes?_isSome (n : Nat) (h : n < 4294967296) : (f32leBytes? n).isSome := by
  unfold f32leBytes?
  dsimp only
  split
  · rfl
  · rename_i h0
    have he : n.log2 < 32 := (Nat.log2_lt h0).mpr h
    rw [if_neg ?_]
    · rfl
    · split <;> split <;> omega

theorem packF32_ok {n : Nat} (h : n < 4294967296) : packF32 n = .ok (f32Bytes n) := by
  unfold packF32 f32Bytes
  rcases hf : f32leBytes? n with _ | v
  · have hs := f32leBytes?_isSome n h
    rw [hf] at hs
    simp at hs
  · simp [hf]

theorem encode_path_ok {v : PyStr} (h : (encode_string (pathTransform v)).length ≤ 112) :
    encode_path v = .ok (encode_string (pathTransform v)) := by
  unfold encode_path
  rw [if_neg (by omega)]

theorem build_string_mhod_ok (ty : Nat) (v : PyStr)
    (hlen : 40 + (stringMhodPayload ty v).length < 4294967296)
    (hty32 : ty < 4294967296)
    (hpath : ty = mhodLocation → (encode_string (pathTransform v)).length ≤ 112) :
    build_string_mhod ty v = .ok (stringMhodBytes ty v) := by
  have hl : (stringMhodPayload ty v).length < 4294967296 := by omega
  unfold build_string_mhod
  by_cases hty : ty = mhodLocation
  · rw [if_pos hty, encode_path_ok (hpath hty)]
    have hpay : encode_string (pathTransform v) = stringMhodPayload ty v := by
      rw [stringMhodPayload, if_pos hty]
    rw [hpay]
    simp only [epure_eq_ok, ebind_ok]
    rw [packU32_ok (show (24:Nat) < 4294967296 by norm_num),
      packU32_ok hlen, packU32_ok hty32,
      packU32_ok (show (0:Nat) < 4294967296 by norm_num),
      packU32_ok (show (1:Nat) < 4294967296 by norm_num),
      packU32_ok hl]
    simp [pb, stringMhodBytes, List.append_assoc]
  · rw [if_neg hty]
    have hpay : encode_string v = stringMhodPayload ty v := by
      rw [stringMhodPayload, if_neg hty]
    rw [hpay]
    simp only [epure_eq_ok, ebind_ok]
    rw [packU32_ok (show (24:Nat) < 4294967296 by norm_num),
      packU32_ok hlen, packU32_ok hty32,
      packU32_ok (show (0:Nat) < 4294967296 by norm_num),
      packU32_ok (show (1:Nat) < 4294967296 by norm_num),
      packU32_ok hl]
    simp [pb, stringMhodBytes, List.append_assoc]

@[simp] theorem stringMhodBytes_length (ty : Nat) (v : PyStr) :
    (stringMhodBytes ty v).length = 40 + (stringMhodPayload ty v).length := by
  simp [stringMhodBytes]
  omega

theorem mhodsBytes_cons (tv : Nat × PyStr) (rest : List (Nat × PyStr)) :
    mhodsBytes (tv :: rest) = stringMhodBytes tv.1 tv.2 ++ mhodsBytes rest := by
  simp [mhodsBytes]

theorem mem_length_le_mhodsBytes (tv : Nat × PyStr) (fields : List (Nat × PyStr))
    (h : tv ∈ fields) :
    (stringMhodBytes tv.1 tv.2).length ≤ (mhodsBytes fields).length := by
  induction fields with
  | nil => cases h
  | cons x rest ih =>
    rw [mhodsBytes_cons, List.length_append]
    rcases List.mem_cons.mp h with rfl | hm
    · omega
    · have := ih hm
      omega

theorem trackMhodFields_mem (t : Track) (tv : Nat × PyStr) (h : tv ∈ trackMhodFields t) :
    tv.1 < 4294967296 ∧ (tv.1 = mhodLocation → tv.2 = t.path) := by
  unfold trackMhodFields at h
  simp only [List.mem_append] at h
  rcases h with ((((((h | h) | h) | h) | h) | h) | h) | h <;>
    [skip; skip; skip; skip; skip; skip; skip; skip] <;>
    (split at h <;> simp_all [mhodTitle, mhodLocation, mhodArtist, mhodAlbum,
      mhodAlbumArtist, mhodGenre, mhodComposer, mhodComment])

theorem trackMhodFields_length_le (t : Track) : (trackMhodFields t).length ≤ 8 := by
  unfold trackMhodFields
  simp only [List.length_append]
  split_ifs <;> simp

theorem bcat_string_mhods_ok (fields : List (Nat × PyStr))
    (h : ∀ tv ∈ fields, 40 + (stringMhodPayload tv.1 tv.2).length < 4294967296 ∧
      tv.1 < 4294967296 ∧
      (tv.1 = mhodLocation → (encode_string (pathTransform tv.2)).length ≤ 112)) :
    bcat (fields.map fun tv => build_string_mhod tv.1 tv.2) = .ok (mhodsBytes fields) := by
  induction fields with
  | nil => rfl
  | cons tv rest ih =>
    have h1 := h tv (by simp)
    rw [List.map_cons, build_string_mhod_ok tv.1 tv.2 h1.1 h1.2.1 h1.2.2, bcat_cons_ok,
      ih (fun x hx => h x (by simp [hx]))]
    rw [mhodsBytes_cons]
    rfl

theorem FileType.value_lt_u32 (ft : FileType) : ft.value < 4294967296 := by
  cases ft <;> decide

theorem MediaType.value_lt_u32mt (mt : MediaType) : mt.value < 4294967296 := by
  cases mt <;> decide

theorem SortOrder.value_lt_u32so (so : SortOrder) : so.value < 4294967296 := by
  cases so <;> decide

theorem trackMhodFields_preconds (t : Track) (hlen : mhitLen t < 4294967296)
    (hpath : (encode_string (pathTransform t.path)).length ≤ 112) :
    ∀ tv ∈ trackMhodFields t, 40 + (stringMhodPayload tv.1 tv.2).length < 4294967296 ∧
      tv.1 < 4294967296 ∧
      (tv.1 = mhodLocation → (encode_string (pathTransform tv.2)).length ≤ 112) := by
  intro tv hm
  have hsum := mem_length_le_mhodsBytes tv (trackMhodFields t) hm
  rw [stringMhodBytes_length] at hsum
  have hml := trackMhodFields_mem t tv hm
  refine ⟨by unfold mhitLen at hlen; omega, hml.1, fun hloc => ?_⟩
  rw [hml.2 hloc]
  exact hpath

theorem build_mhit_ok (t : Track) (fresh : Nat) (hwf : TrackWF t)
    (hfresh : fresh < 18446744073709551616) (hlen : mhitLen t < 4294967296) :
    build_mhit t fresh = .ok (mhitBytes t fresh) := by
  obtain ⟨hid, hrating, hsr, hsize, hdur, htn, htt, hyear, hbr, hpc, hsc, hdn, htd,
    hpre, hpost, hgd, hsamp, hdbid, hda0, hda1, hlm0, hlm1, hlp, hpath⟩ := hwf
  have hdbid2 : (if t.dbid ≠ 0 then t.dbid else fresh) < 18446744073709551616 := by
    split <;> assumption
  have hsr32 : t.sample_rate < 4294967296 := by omega
  have hcount : (trackMhodFields t).length < 4294967296 := by
    have := trackMhodFields_length_le t
    omega
  unfold build_mhit
  rw [bcat_string_mhods_ok _ (trackMhodFields_preconds t hlen hpath)]
  simp only [epure_eq_ok, ebind_ok]
  rw [packU32_ok (show (388:Nat) < 4294967296 by norm_num),
    packU32_ok (show 388 + (mhodsBytes (trackMhodFields t)).length < 4294967296 from hlen),
    packU32_ok hcount, packU32_ok hid,
    packU32_ok (show (1:Nat) < 4294967296 by norm_num),
    packU32_ok (FileType.value_lt_u32 t.file_type),
    packU8_ok (show (0:Nat) < 256 by norm_num),
    packU8_ok (show (if t.file_type = .mp3 then 1 else 0) < 256 by split <;> norm_num),
    packU8_ok (show (if t.compilation then 1 else 0) < 256 by split <;> norm_num),
    packU8_ok hrating, packMac_ok hlm0 hlm1, packU32_ok hsize, packU32_ok hdur,
    packU32_ok htn, packU32_ok htt, packU32_ok hyear, packU32_ok hbr, packU32_ok hsr,
    packI32_zero, packU32_ok (show (0:Nat) < 4294967296 by norm_num), packU32_ok hpc,
    packU32_ok hdn, packU32_ok htd, packMac_ok hda0 hda1, packU64_ok hdbid2,
    packU16_ok (show (0:Nat) < 65536 by norm_num),
    packU16_ok (show (65535:Nat) < 65536 by norm_num),
    packF32_ok hsr32,
    packU16_ok (show (if t.file_type = .mp3 then 12 else 51) < 65536 by split <;> norm_num),
    packU32_ok hsc, packU8_ok (show (2:Nat) < 256 by norm_num), packU32_ok hpre,
    packU64_ok hsamp, packU32_ok hpost, packU32_ok (MediaType.value_lt_u32mt t.media_type),
    packU32_ok hgd,
    packU16_ok (show (if t.gapless_track_flag then 1 else 0) < 65536 by split <;> norm_num),
    packU16_ok (show (if t.gapless_album_flag then 1 else 0) < 65536 by split <;> norm_num)]
  rcases hlpc : t.last_played with _ | lp
  · simp only [epure_eq_ok, ebind_ok,
      packU32_ok (show (0:Nat) < 4294967296 by norm_num), bcat_cons_ok, bcat_nil, emap_ok]
    simp [mhitBytes, mhitHeaderBytes, mhitLen, trackDbid, zeros, hlpc, pb,
      List.append_assoc]
  · have hlpb := hlp lp (by rw [hlpc]; simp)
    simp only [epure_eq_ok, ebind_ok, packMac_ok hlpb.1 hlpb.2, bcat_cons_ok, bcat_nil,
      emap_ok]
    simp [mhitBytes, mhitHeaderBytes, mhitLen, trackDbid, zeros, hlpc, pb,
      List.append_assoc]

@[simp] theorem mhipBytes_length (tid pos : Nat) : (mhipBytes tid pos).length = 104 := by
  simp [mhipBytes]

theorem build_mhip_ok (tid pos : Nat) (htid : tid < 4294967296)
    (hpos : pos + 1 < 4294967296) : build_mhip tid pos = .ok (mhipBytes tid pos) := by
  have hpos' : pos < 4294967296 := by omega
  unfold build_mhip
  rw [packU32_ok (show (24:Nat) < 4294967296 by norm_num),
    packU32_ok (show (28:Nat) < 4294967296 by norm_num),
    packU32_ok (show mhodPlaylistColumn < 4294967296 by norm_num [mhodPlaylistColumn]),
    packU32_ok (show (0:Nat) < 4294967296 by norm_num),
    packU32_ok hpos', packU32_ok hpos, packU32_ok htid,
    packU32_ok (show (76:Nat) < 4294967296 by norm_num),
    packU16_ok (show (0:Nat) < 65536 by norm_num),
    packU8_ok (show (0:Nat) < 256 by norm_num),
    packU32_ok (show (1:Nat) < 4294967296 by norm_num)]
  simp only [pb, bcat_cons_ok, bcat_nil, emap_ok, epure_eq_ok, ebind_ok]
  simp only [List.append_nil, List.length_append, u32le_length, mhodMagic_length]
  rw [packU32_ok (show 76 + (4 + (4 + (4 + (4 + (4 + (4 + 4)))))) < 4294967296 by norm_num)]
  simp only [pb, bcat_cons_ok, bcat_nil, emap_ok, epure_eq_ok, ebind_ok]
  simp [mhipBytes, mhodPlaylistColumn, zeros, List.append_assoc]

theorem mhipsBytes_enumFrom_ok (ids : List Nat) (n : Nat)
    (htid : ∀ tid ∈ ids, tid < 4294967296) (hn : n + ids.length < 4294967296) :
    bcat ((List.enumFrom n ids).map fun iv => build_mhip iv.2 iv.1) =
      .ok (((List.enumFrom n ids).map fun iv => mhipBytes iv.2 iv.1).flatten) := by
  induction ids generalizing n with
  | nil => rfl
  | cons tid rest ih =>
    simp only [List.enumFrom, List.map_cons, List.flatten]
    rw [build_mhip_ok tid n (htid tid (by simp))
        (by have h2 := hn; simp only [List.length_cons] at h2; omega), bcat_cons_ok,
      ih (n+1) (fun x hx => htid x (by simp [hx]))
        (by have h2 := hn; simp only [List.length_cons] at h2; omega)]
    rfl

theorem mhypMhipBytes_length (p : Playlist) :
    (mhypMhipBytes p).length = 104 * p.track_ids.length := by
  unfold mhypMhipBytes
  show (((List.enumFrom 0 p.track_ids).map fun iv => mhipBytes iv.2 iv.1).flatten).length = _
  generalize p.track_ids = ids
  induction ids using List.reverseRecOn with
  | nil => rfl
  | append_singleton rest tid ih =>
    simp [List.enumFrom_append, List.flatten_append, ih]
    omega

theorem build_mhyp_ok (p : Playlist) (hid : p.id < 18446744073709551616)
    (hts0 : 0 ≤ datetime_to_mac p.timestamp)
    (hts1 : datetime_to_mac p.timestamp < 4294967296)
    (htids : ∀ tid ∈ p.track_ids, tid < 4294967296)
    (hlen : mhypLen p < 4294967296) :
    build_mhyp p = .ok (mhypBytes p) := by
  have hmhips := mhypMhipBytes_length p
  have hcnt : p.track_ids.length < 4294967296 := by
    unfold mhypLen at hlen
    omega
  have hmhipsE : bcat ((p.track_ids.enum).map fun iv => build_mhip iv.2 iv.1) =
      .ok (mhypMhipBytes p) :=
    mhipsBytes_enumFrom_ok p.track_ids 0 htids (by omega)
  unfold build_mhyp
  by_cases hm : ¬ p.is_master ∧ p.name ≠ []
  · have hmb : mhypMhodBytes p = stringMhodBytes mhodTitle p.name := by
      unfold mhypMhodBytes
      rw [if_pos hm]
    have hmc : mhypMhodCount p = 1 := by
      unfold mhypMhodCount
      rw [if_pos hm]
    have hnm : 40 + (stringMhodPayload mhodTitle p.name).length < 4294967296 := by
      have : (mhypMhodBytes p).length = 40 + (stringMhodPayload mhodTitle p.name).length := by
        rw [hmb, stringMhodBytes_length]
      unfold mhypLen at hlen
      omega
    rw [if_pos hm, if_pos hm,
      build_string_mhod_ok mhodTitle p.name hnm (by norm_num [mhodTitle])
        (by intro hc; exact absurd hc (by norm_num [mhodTitle, mhodLocation]))]
    simp only [epure_eq_ok, ebind_ok]
    rw [hmhipsE]
    simp only [epure_eq_ok, ebind_ok]
    rw [packU32_ok (show (108:Nat) < 4294967296 by norm_num),
      packU32_ok (show 108 + (stringMhodBytes mhodTitle p.name).length +
        (mhypMhipBytes p).length < 4294967296 from by
          unfold mhypLen at hlen
          rw [hmb] at hlen
          omega),
      packU32_ok (show (1:Nat) < 4294967296 by norm_num),
      packU32_ok hcnt,
      packU8_ok (show (if p.is_master then 1 else 0) < 256 by split <;> norm_num),
      packMac_ok hts0 hts1, packU64_ok hid,
      packU32_ok (show (0:Nat) < 4294967296 by norm_num),
      packU16_ok (show (1:Nat) < 65536 by norm_num),
      packU16_ok (show (if p.is_podcast then 1 else 0) < 65536 by split <;> norm_num),
      packU32_ok (SortOrder.value_lt_u32so p.sort_order)]
    simp only [pb, bcat_cons_ok, bcat_nil, emap_ok, epure_eq_ok, ebind_ok]
    simp [mhypBytes, mhypHeaderBytes, mhypLen, hmb, hmc, zeros, List.append_assoc]
  · have hmb : mhypMhodBytes p = [] := by
      unfold mhypMhodBytes
      rw [if_neg hm]
    have hmc : mhypMhodCount p = 0 := by
      unfold mhypMhodCount
      rw [if_neg hm]
    rw [if_neg hm, if_neg hm]
    simp only [epure_eq_ok, ebind_ok]
    rw [hmhipsE]
    simp only [epure_eq_ok, ebind_ok]
    rw [packU32_ok (show (108:Nat) < 4294967296 by norm_num),
      packU32_ok (show 108 + ([] : Bytes).length + (mhypMhipBytes p).length < 4294967296
        from by
          unfold mhypLen at hlen
          rw [hmb] at hlen
          simpa using hlen),
      packU32_ok (show (0:Nat) < 4294967296 by norm_num),
      packU32_ok hcnt,
      packU8_ok (show (if p.is_master then 1 else 0) < 256 by split <;> norm_num),
      packMac_ok hts0 hts1, packU64_ok hid,
      packU16_ok (show (0:Nat) < 65536 by norm_num),
      packU16_ok (show (if p.is_podcast then 1 else 0) < 65536 by split <;> norm_num),
      packU32_ok (SortOrder.value_lt_u32so p.sort_order)]
    simp only [pb, bcat_cons_ok, bcat_nil, emap_ok, epure_eq_ok, ebind_ok]
    simp [mhypBytes, mhypHeaderBytes, mhypLen, hmb, hmc, zeros, List.append_assoc]

@[simp] theorem mhitHeaderBytes_length (t : Track) (fresh : Nat) :
    (mhitHeaderBytes t fresh).length = 280 := by
  simp [mhitHeaderBytes]

@[simp] theorem mhitBytes_length (t : Track) (fresh : Nat) :
    (mhitBytes t fresh).length = mhitLen t := by
  simp [mhitBytes, mhitLen]
  omega

theorem bcat_mhits_ok (tracks : List Track) (rnd : Nat → Nat) (n : Nat)
    (h : ∀ t ∈ tracks, TrackWF t ∧ mhitLen t < 4294967296)
    (hr : ∀ i, rnd i < 18446744073709551616) :
    bcat ((List.enumFrom n tracks).map fun it => build_mhit it.2 (rnd it.1)) =
      .ok (((List.enumFrom n tracks).map fun it => mhitBytes it.2 (rnd it.1)).flatten) := by
  induction tracks generalizing n with
  | nil => rfl
  | cons t rest ih =>
    simp only [List.enumFrom, List.map_cons, List.flatten]
    have h1 := h t (by simp)
    rw [build_mhit_ok t (rnd n) h1.1 (hr n) h1.2, bcat_cons_ok,
      ih (n+1) (fun x hx => h x (by simp [hx]))]
    rfl

theorem mhitsBytes_length (tracks : List Track) (rnd : Nat → Nat) :
    (mhitsBytes tracks rnd).length = (tracks.map mhitLen).sum := by
  unfold mhitsBytes
  show (((List.enumFrom 0 tracks).map fun it => mhitBytes it.2 (rnd it.1)).flatten).length = _
  generalize 0 = n
  induction tracks generalizing n with
  | nil => rfl
  | cons t rest ih =>
    simp only [List.enumFrom, List.map_cons, List.flatten, List.length_append,
      List.map, List.sum_cons, mhitBytes_length]
    rw [ih (n+1)]

theorem mhypsBytes_length (ps : List Playlist) :
    (mhypsBytes ps).length = (ps.map mhypLen).sum := by
  unfold mhypsBytes
  induction ps with
  | nil => rfl
  | cons p rest ih =>
    have hlen : (mhypBytes p).length = mhypLen p := by
      simp [mhypBytes, mhypHeaderBytes, mhypLen]
      omega
    simp only [List.map_cons, List.flatten, List.length_append, List.sum_cons, hlen, ih]

theorem mem_le_sum (x : Nat) (l : List Nat) (h : x ∈ l) : x ≤ l.sum := by
  induction l with
  | nil => cases h
  | cons a rest ih =>
    rcases List.mem_cons.mp h with rfl | hm
    · simp
    · have := ih hm
      simp
      omega

theorem length_le_sum_of_pos (l : List Nat) (h : ∀ x ∈ l, 1 ≤ x) : l.length ≤ l.sum := by
  induction l with
  | nil => simp
  | cons a rest ih =>
    have h1 := h a (by simp)
    have h2 := ih fun x hx => h x (by simp [hx])
    simp
    omega

theorem build_track_section_ok (db : Database) (rnd : Nat → Nat)
    (h : ∀ t ∈ db.tracks, TrackWF t) (hr : ∀ i, rnd i < 18446744073709551616)
    (hsec : trackSectionLen db < 4294967296) :
    build_track_section db rnd = .ok (trackSectionBytes db rnd) := by
  have hsum : (db.tracks.map mhitLen).sum < 4294967296 := by
    unfold trackSectionLen at hsec
    omega
  have hmem : ∀ t ∈ db.tracks, TrackWF t ∧ mhitLen t < 4294967296 := by
    intro t ht
    refine ⟨h t ht, ?_⟩
    have := mem_le_sum (mhitLen t) (db.tracks.map mhitLen) (List.mem_map_of_mem _ ht)
    omega
  have hnum : db.tracks.length < 4294967296 := by
    have h1 : (db.tracks.map mhitLen).length ≤ (db.tracks.map mhitLen).sum := by
      refine length_le_sum_of_pos _ ?_
      intro x hx
      rcases List.mem_map.mp hx with ⟨t, _, rfl⟩
      unfold mhitLen
      omega
    rw [List.length_map] at h1
    omega
  unfold build_track_section
  rw [show bcat (db.tracks.enum.map fun it => build_mhit it.2 (rnd it.1)) =
      .ok (mhitsBytes db.tracks rnd) from
    bcat_mhits_ok db.tracks rnd 0 hmem hr]
  simp only [epure_eq_ok, ebind_ok]
  rw [packU32_ok (show (92:Nat) < 4294967296 by norm_num), packU32_ok hnum]
  simp only [pb, bcat_cons_ok, bcat_nil, emap_ok, epure_eq_ok, ebind_ok]
  simp only [List.append_nil, List.length_append, List.length_cons, List.length_nil,
    List.length_replicate, u32le_length, mhltMagic_length]
  norm_num
  rw [packU32_ok (show 96 + (92 + (mhitsBytes db.tracks rnd).length) < 4294967296 from by
    rw [mhitsBytes_length]
    unfold trackSectionLen at hsec
    omega)]
  rw [packU32_ok (show (96:Nat) < 4294967296 by norm_num),
    packU32_ok (show (1:Nat) < 4294967296 by norm_num)]
  simp only [pb, bcat_cons_ok, bcat_nil, emap_ok, epure_eq_ok, ebind_ok]
  simp [trackSectionBytes, trackSectionLen, mhitsBytes_length, zeros, List.append_assoc]
  rw [show 96 + (92 + (List.map mhitLen db.tracks).sum) =
    188 + (List.map mhitLen db.tracks).sum from by omega]

theorem bcat_mhyps_ok (ps : List Playlist)
    (h : ∀ p ∈ ps, PlaylistWF p ∧ mhypLen p < 4294967296) :
    bcat (ps.map build_mhyp) = .ok (mhypsBytes ps) := by
  induction ps with
  | nil => rfl
  | cons p rest ih =>
    have h1 := h p (by simp)
    obtain ⟨⟨hid, hts0, hts1, htids⟩, hlen⟩ := h1
    simp only [List.map_cons]
    rw [build_mhyp_ok p hid hts0 hts1 htids hlen, bcat_cons_ok,
      ih fun x hx => h x (by simp [hx])]
    simp [mhypsBytes]

theorem build_playlist_section_ok (db : Database)
    (h : ∀ p ∈ db.playlists, PlaylistWF p)
    (hsec : playlistSectionLen db < 4294967296) :
    build_playlist_section db = .ok (playlistSectionBytes db) := by
  have hsum : (db.playlists.map mhypLen).sum < 4294967296 := by
    unfold playlistSectionLen at hsec
    omega
  have hmem : ∀ p ∈ db.playlists, PlaylistWF p ∧ mhypLen p < 4294967296 := by
    intro p hp
    refine ⟨h p hp, ?_⟩
    have := mem_le_sum (mhypLen p) (db.playlists.map mhypLen) (List.mem_map_of_mem _ hp)
    omega
  have hnum : db.playlists.length < 4294967296 := by
    have h1 : (db.playlists.map mhypLen).length ≤ (db.playlists.map mhypLen).sum := by
      refine length_le_sum_of_pos _ ?_
      intro x hx
      rcases List.mem_map.mp hx with ⟨p, _, rfl⟩
      unfold mhypLen
      omega
    rw [List.length_map] at h1
    omega
  unfold build_playlist_section
  rw [bcat_mhyps_ok db.playlists hmem]
  simp only [epure_eq_ok, ebind_ok]
  rw [packU32_ok (show (92:Nat) < 4294967296 by norm_num), packU32_ok hnum]
  simp only [pb, bcat_cons_ok, bcat_nil, emap_ok, epure_eq_ok, ebind_ok]
  simp only [List.append_nil, List.length_append, List.length_cons, List.length_nil,
    List.length_replicate, u32le_length, mhlpMagic_length]
  norm_num
  rw [packU32_ok (show 96 + (92 + (mhypsBytes db.playlists).length) < 4294967296 from by
    rw [mhypsBytes_length]
    unfold playlistSectionLen at hsec
    omega)]
  rw [packU32_ok (show (96:Nat) < 4294967296 by norm_num),
    packU32_ok (show (2:Nat) < 4294967296 by norm_num)]
  simp only [pb, bcat_cons_ok, bcat_nil, emap_ok, epure_eq_ok, ebind_ok]
  simp [playlistSectionBytes, playlistSectionLen, mhypsBytes_length, zeros,
    List.append_assoc]
  rw [show 96 + (92 + (List.map mhypLen db.playlists).sum) =
    188 + (List.map mhypLen db.playlists).sum from by omega]

theorem asciiEnc_ok (s : PyStr) (h : ∀ c ∈ s, c.toNat < 128) :
    asciiEnc s = .ok (langBytes s) := by
  unfold asciiEnc langBytes
  rw [if_pos (by simpa [List.all_eq_true] using h)]
  simp [zeros]

@[simp] theorem langBytes_length (s : PyStr) : (langBytes s).length = 2 := by
  unfold langBytes
  simp
  try omega

theorem build_bytesPart_ok (db3 : Database) (rnd : Rnd)
    (hwf : DatabaseWF db3) (hr : ∀ i, rnd.track_dbid i < 18446744073709551616) :
    build_database_bytesPart db3 rnd = .ok (fileBytes db3 rnd) := by
  obtain ⟨hver, hdid, hlid, hlang, hfile, htr, hpl⟩ := hwf
  have hts : trackSectionLen db3 < 4294967296 := by
    unfold fileLen at hfile
    omega
  have hps : playlistSectionLen db3 < 4294967296 := by
    unfold fileLen at hfile
    omega
  unfold build_database_bytesPart
  rw [build_track_section_ok db3 rnd.track_dbid htr hr hts,
    build_playlist_section_ok db3 hpl hps]
  simp only [epure_eq_ok, ebind_ok]
  rw [asciiEnc_ok db3.language hlang]
  simp only [epure_eq_ok, ebind_ok]
  rw [packU32_ok (show (104:Nat) < 4294967296 by norm_num),
    packU32_ok (show 104 + (trackSectionBytes db3 rnd.track_dbid).length +
      (playlistSectionBytes db3).length < 4294967296 from by
        have e1 : (trackSectionBytes db3 rnd.track_dbid).length = trackSectionLen db3 := by
          simp [trackSectionBytes, trackSectionLen, mhitsBytes_length, zeros]
          omega
        have e2 : (playlistSectionBytes db3).length = playlistSectionLen db3 := by
          simp [playlistSectionBytes, playlistSectionLen, mhypsBytes_length, zeros]
          omega
        rw [e1, e2]
        unfold fileLen at hfile
        omega),
    packU32_ok (show (1:Nat) < 4294967296 by norm_num),
    packU32_ok hver,
    packU32_ok (show (2:Nat) < 4294967296 by norm_num),
    packU64_ok hdid,
    packU16_ok (show (2:Nat) < 65536 by norm_num),
    packU32_ok (show (0:Nat) < 4294967296 by norm_num),
    packU64_ok (show (0:Nat) < 18446744073709551616 by norm_num),
    packU64_ok hlid]
  simp only [pb, bcat_cons_ok, bcat_nil, emap_ok, epure_eq_ok, ebind_ok]
  have e1 : (trackSectionBytes db3 rnd.track_dbid).length = trackSectionLen db3 := by
    simp [trackSectionBytes, trackSectionLen, mhitsBytes_length, zeros]
    omega
  have e2 : (playlistSectionBytes db3).length = playlistSectionLen db3 := by
    simp [playlistSectionBytes, playlistSectionLen, mhypsBytes_length, zeros]
    omega
  simp [fileBytes, mhbdBytes, fileLen, e1, e2, zeros, List.append_assoc]
  try norm_num
  try omega

theorem build_database_snd (db : Database) (rnd : Rnd) (now : Int) :
    (build_database db rnd now).2 = build_database_bytesPart (postSave db rnd now) rnd := rfl

/-! ## Parsing the built bytes -/

@[simp] theorem drop_append_skip (l r : Bytes) (n : Nat) (h : l.length ≤ n) :
    (l ++ r).drop n = r.drop (n - l.length) := drop_append_right l r n h

theorem isStringType_lt (ty : Nat) (h : isStringType ty = true) : ty < 4294967296 := by
  unfold isStringType at h
  simp at h
  omega

theorem parse_mhod_string (ty : Nat) (v : PyStr) (hty : isStringType ty = true)
    (hlen : 40 + (stringMhodPayload ty v).length < 4294967296) :
    parse_mhod (stringMhodBytes ty v) = .ok (ty, .str (stringMhodDecoded ty v)) := by
  have hty32 := isStringType_lt ty hty
  have hl : (stringMhodBytes ty v).length = 40 + (stringMhodPayload ty v).length :=
    stringMhodBytes_length ty v
  have hmagic : pySlice (stringMhodBytes ty v) 0 4 = mhodMagic := by
    unfold stringMhodBytes
    simp only [List.append_assoc]
    exact pySlice_zero_exact _ _ 4 rfl
  have h4 : readU32 (stringMhodBytes ty v) 4 = 24 := by
    unfold stringMhodBytes
    simp [List.append_assoc]
  have h8 : readU32 (stringMhodBytes ty v) 8 = 40 + (stringMhodPayload ty v).length := by
    unfold stringMhodBytes
    simp [List.append_assoc, Nat.mod_eq_of_lt hlen]
  have h12 : readU32 (stringMhodBytes ty v) 12 = ty := by
    unfold stringMhodBytes
    simp [List.append_assoc, Nat.mod_eq_of_lt hty32]
  have h28 : readU32 (stringMhodBytes ty v) 28 = (stringMhodPayload ty v).length := by
    unfold stringMhodBytes
    simp [List.append_assoc, Nat.mod_eq_of_lt (show (stringMhodPayload ty v).length <
      4294967296 from by omega)]
  have hslice : pySlice (stringMhodBytes ty v) 40 (40 + (stringMhodPayload ty v).length) =
      stringMhodPayload ty v := by
    unfold stringMhodBytes
    simp [pySlice, List.append_assoc]
  unfold parse_mhod
  simp only [hl, hmagic, h4, h8, h12, h28]
  rw [if_neg (by omega), if_neg (by simp), if_pos hty, if_neg (by omega), hslice]
  by_cases hloc : ty = mhodLocation
  · rw [if_pos hloc]
    have : stringMhodPayload ty v = encode_string (pathTransform v) := by
      unfold stringMhodPayload
      rw [if_pos hloc]
    rw [this, decode_path_encode]
    simp [stringMhodDecoded, hloc]
  · rw [if_neg hloc]
    have : stringMhodPayload ty v = encode_string v := by
      unfold stringMhodPayload
      rw [if_neg hloc]
    rw [this, decode_encode_string]
    simp [stringMhodDecoded, hloc]

theorem parseMhitMhods_build (fields : List (Nat × PyStr)) (data : Bytes)
    (total off : Nat) (track : Track)
    (hdrop : data.drop off = mhodsBytes fields)
    (ht : total = off + (mhodsBytes fields).length)
    (hf : ∀ tv ∈ fields, isStringType tv.1 = true ∧
      40 + (stringMhodPayload tv.1 tv.2).length < 4294967296) :
    parseMhitMhods data total fields.length off track = .ok (applyMhods track fields) := by
  induction fields generalizing off track with
  | nil =>
    simp [mhodsBytes] at ht
    show parseMhitMhods data total 0 off track = _
    simp [parseMhitMhods, applyMhods]
  | cons f rest ih =>
    have hff := hf f (by simp)
    have hrest : data.drop (off + (40 + (stringMhodPayload f.1 f.2).length)) =
        mhodsBytes rest := by
      rw [← List.drop_drop, hdrop, mhodsBytes_cons,
        drop_append_right _ _ _ (by simp)]
      simp
    rw [mhodsBytes_cons] at ht hdrop
    have hsl : (stringMhodBytes f.1 f.2).length = 40 + (stringMhodPayload f.1 f.2).length :=
      stringMhodBytes_length f.1 f.2
    have hlen8 : readU32 (data.drop off) 8 = 40 + (stringMhodPayload f.1 f.2).length := by
      rw [hdrop]
      unfold stringMhodBytes
      simp [List.append_assoc, Nat.mod_eq_of_lt hff.2]
    show parseMhitMhods data total (rest.length + 1) off track = _
    rw [parseMhitMhods]
    rw [if_neg (by simp at ht ⊢; omega)]
    rw [if_neg (by rw [hdrop]; simp; omega)]
    rw [hlen8]
    rw [if_neg (by
      simp only [not_or, not_lt]
      have hx := ht
      simp only [List.length_append, hsl] at hx
      constructor <;> omega)]
    rw [show (data.drop off).take (40 + (stringMhodPayload f.1 f.2).length) =
        stringMhodBytes f.1 f.2 from by rw [hdrop]; exact take_append_exact _ _ _ hsl]
    rw [parse_mhod_string f.1 f.2 hff.1 hff.2]
    simp only [ebind_ok]
    rw [ih _ _ hrest (by simp at ht ⊢; omega) (fun x hx => hf x (by simp [hx]))]
    simp [applyMhods]

theorem FileType.fromValue?_roundtrip_ft (ft : FileType) : FileType.fromValue? ft.value = some ft := by
  cases ft <;> rfl

theorem MediaType.fromValue?_roundtrip_mt (mt : MediaType) :
    MediaType.fromValue? mt.value = some mt := by
  cases mt <;> rfl

theorem SortOrder.fromValue?_roundtrip_so (so : SortOrder) :
    SortOrder.fromValue? so.value = some so := by
  cases so <;> rfl

theorem trackMhodFields_stringType (t : Track) (tv : Nat × PyStr)
    (h : tv ∈ trackMhodFields t) : isStringType tv.1 = true := by
  unfold trackMhodFields at h
  simp only [List.mem_append] at h
  rcases h with ((((((h | h) | h) | h) | h) | h) | h) | h <;>
    (split at h <;> simp_all [isStringType, mhodTitle, mhodLocation, mhodArtist, mhodAlbum,
      mhodAlbumArtist, mhodGenre, mhodComposer, mhodComment])

theorem sr_reload (sr : Nat) (h : sr * 65536 < 4294967296) :
    (if sr * 65536 ≠ 0 then sr * 65536 / 65536 else 44100) =
      (if sr = 0 then 44100 else sr) := by
  by_cases h0 : sr = 0
  · simp [h0]
  · rw [if_pos (by simpa using h0), if_neg h0,
      Nat.mul_div_cancel _ (by norm_num : (0:Nat) < 65536)]

theorem mac_reload (now2 : Int) (dt : Int) (h0 : 0 ≤ datetime_to_mac dt) :
    (if (datetime_to_mac dt).toNat ≠ 0 then mac_to_datetime (datetime_to_mac dt).toNat
     else now2) = (if datetime_to_mac dt ≠ 0 then dt else now2) := by
  unfold mac_to_datetime datetime_to_mac at *
  by_cases h : dt + MAC_EPOCH_OFFSET = 0
  · simp [h]
  · rw [if_pos (by omega), if_pos h, if_neg (by omega)]
    omega

theorem lp_reload (o : Option Int) (h : ∀ lp ∈ o, 0 ≤ datetime_to_mac lp) :
    (if (match o with | some lp => (datetime_to_mac lp).toNat | none => 0) ≠ 0 then
       some (mac_to_datetime
         (match o with | some lp => (datetime_to_mac lp).toNat | none => 0))
     else none) =
    (match o with
     | some lp => if datetime_to_mac lp ≠ 0 then some lp else none
     | none => none) := by
  rcases o with _ | lp
  · simp
  · have h0 := h lp (by simp)
    by_cases hz : datetime_to_mac lp = 0
    · simp [hz]
    · have hnz : (datetime_to_mac lp).toNat ≠ 0 := by omega
      simp only []
      rw [if_pos hnz, if_pos hz]
      congr 1
      unfold mac_to_datetime datetime_to_mac at *
      rw [if_neg (by omega)]
      omega

theorem decide_and_flag (b : Bool) (P : Prop) [Decidable P] (hp : P) :
    decide (P ∧ (if b then 1 else 0) ≠ 0) = b := by
  cases b <;> simp [hp]

theorem decide_flag (b : Bool) : decide ((if b then 1 else 0) ≠ 0) = b := by
  cases b <;> simp

theorem lp_some_reload (lp : Int) (h0 : 0 ≤ datetime_to_mac lp) :
    (if (datetime_to_mac lp).toNat ≠ 0 then
       some (mac_to_datetime (datetime_to_mac lp).toNat) else none) =
    (if datetime_to_mac lp ≠ 0 then some lp else none) := by
  unfold mac_to_datetime datetime_to_mac at *
  by_cases h : lp + MAC_EPOCH_OFFSET = 0
  · simp [h]
  · rw [if_pos (by omega), if_pos h]
    congr 1
    omega

set_option maxHeartbeats 1600000 in
theorem applyMhods_trackMhodFields (t u : Track) (h1 : u.title = [])
    (h2 : u.path = []) (h3 : u.artist = []) (h4 : u.album = [])
    (h5 : u.album_artist = []) (h6 : u.genre = []) (h7 : u.composer = [])
    (h8 : u.comment = []) :
    applyMhods u (trackMhodFields t) =
    { u with
      title := t.title,
      artist := t.artist,
      album := t.album,
      album_artist := t.album_artist,
      genre := t.genre,
      composer := t.composer,
      comment := t.comment,
      path := if t.path = [] then [] else pathTransform t.path } := by
  cases u
  simp only at h1 h2 h3 h4 h5 h6 h7 h8
  subst h1 h2 h3 h4 h5 h6 h7 h8
  by_cases e1 : t.title = [] <;> by_cases e2 : t.path = [] <;>
    by_cases e3 : t.artist = [] <;> by_cases e4 : t.album = [] <;>
    by_cases e5 : t.album_artist = [] <;> by_cases e6 : t.genre = [] <;>
    by_cases e7 : t.composer = [] <;> by_cases e8 : t.comment = [] <;>
    simp [trackMhodFields, applyMhods, applyTrackMhod, stringMhodDecoded,
      mhodTitle, mhodLocation, mhodArtist, mhodAlbum, mhodAlbumArtist,
      mhodGenre, mhodComposer, mhodComment, e1, e2, e3, e4, e5, e6, e7, e8]

set_option maxHeartbeats 8000000 in
theorem parse_mhit_ok (now2 : Int) (t : Track) (fresh : Nat) (hwf : TrackWF t)
    (hfresh : fresh < 18446744073709551616) (hlen : mhitLen t < 4294967296) :
    parse_mhit now2 (mhitBytes t fresh) = .ok (reloadTrack now2 fresh t) := by
  obtain ⟨hid, hrating, hsr, hsize, hdur, htn, htt, hyear, hbr, hpc, hsc, hdn, htd,
    hpre, hpost, hgd, hsamp, hdbid, hda0, hda1, hlm0, hlm1, hlp, hpath⟩ := hwf
  have hdbid2 : trackDbid t fresh < 18446744073709551616 := by
    unfold trackDbid
    split <;> assumption
  have hcnt8 := trackMhodFields_length_le t
  have hbig : 388 ≤ (mhitBytes t fresh).length := by
    rw [mhitBytes_length]
    unfold mhitLen
    omega
  have hlpval : (match t.last_played with
      | some lp => (datetime_to_mac lp).toNat
      | none => 0) < 4294967296 := by
    rcases ho : t.last_played with _ | lp
    · simp
    · have := hlp lp (by rw [ho]; simp)
      simp
      omega
  have hmagic : pySlice (mhitBytes t fresh) 0 4 = mhitMagic := by
    unfold mhitBytes mhitHeaderBytes
    simp only [List.append_assoc]
    exact pySlice_zero_exact _ _ 4 rfl
  have hreads : readU32 (mhitBytes t fresh) 4 = 388 ∧
      readU32 (mhitBytes t fresh) 8 = mhitLen t ∧
      readU32 (mhitBytes t fresh) 12 = (trackMhodFields t).length ∧
      readU32 (mhitBytes t fresh) 16 = t.id ∧
      readU32 (mhitBytes t fresh) 24 = t.file_type.value ∧
      byteAt (mhitBytes t fresh) 30 = (if t.compilation then 1 else 0) ∧
      byteAt (mhitBytes t fresh) 31 = t.rating ∧
      readU32 (mhitBytes t fresh) 32 = (datetime_to_mac t.last_modified).toNat ∧
      readU32 (mhitBytes t fresh) 36 = t.size_bytes ∧
      readU32 (mhitBytes t fresh) 40 = t.duration_ms ∧
      readU32 (mhitBytes t fresh) 44 = t.track_number ∧
      readU32 (mhitBytes t fresh) 48 = t.total_tracks ∧
      readU32 (mhitBytes t fresh) 52 = t.year ∧
      readU32 (mhitBytes t fresh) 56 = t.bitrate ∧
      readU32 (mhitBytes t fresh) 60 = t.sample_rate * 65536 ∧
      readU32 (mhitBytes t fresh) 80 = t.play_count ∧
      readU32 (mhitBytes t fresh) 88 = (match t.last_played with
        | some lp => (datetime_to_mac lp).toNat
        | none => 0) ∧
      readU32 (mhitBytes t fresh) 92 = t.disc_number ∧
      readU32 (mhitBytes t fresh) 96 = t.total_discs ∧
      readU32 (mhitBytes t fresh) 104 = (datetime_to_mac t.date_added).toNat ∧
      readU64 (mhitBytes t fresh) 112 = trackDbid t fresh ∧
      readU32 (mhitBytes t fresh) 156 = t.skip_count ∧
      readU32 (mhitBytes t fresh) 184 = t.pregap ∧
      readU64 (mhitBytes t fresh) 188 = t.sample_count ∧
      readU32 (mhitBytes t fresh) 200 = t.postgap ∧
      readU32 (mhitBytes t fresh) 208 = t.media_type.value ∧
      readU32 (mhitBytes t fresh) 248 = t.gapless_data ∧
      readU16 (mhitBytes t fresh) 256 = (if t.gapless_track_flag then 1 else 0) ∧
      readU16 (mhitBytes t fresh) 258 = (if t.gapless_album_flag then 1 else 0) := by
    unfold mhitBytes mhitHeaderBytes
    simp only [List.append_assoc, readU32_append_right, readU16_append_right,
      readU64_append_right, byteAt_append_skip, readU32_u32le, readU16_u16le,
      byteAt_u8le, readU64_u64le, u32le_length, u16le_length, u8le_length,
      u64le_length, zeros_length, mhitMagic_length, f32Bytes_length,
      Nat.reduceLeDiff, Nat.reduceSub, Nat.reduceAdd, Nat.reduceMul, Nat.reduceMod,
      Nat.mod_eq_of_lt hlen,
      Nat.mod_eq_of_lt (show (trackMhodFields t).length < 4294967296 by omega),
      Nat.mod_eq_of_lt hid, Nat.mod_eq_of_lt (FileType.value_lt_u32 t.file_type),
      Nat.mod_eq_of_lt (show (datetime_to_mac t.last_modified).toNat
        < 4294967296 by omega),
      Nat.mod_eq_of_lt hsize, Nat.mod_eq_of_lt hdur, Nat.mod_eq_of_lt htn,
      Nat.mod_eq_of_lt htt, Nat.mod_eq_of_lt hyear, Nat.mod_eq_of_lt hbr,
      Nat.mod_eq_of_lt hsr, Nat.mod_eq_of_lt hpc, Nat.mod_eq_of_lt hlpval,
      Nat.mod_eq_of_lt hdn, Nat.mod_eq_of_lt htd,
      Nat.mod_eq_of_lt (show (datetime_to_mac t.date_added).toNat
        < 4294967296 by omega),
      Nat.mod_eq_of_lt hdbid2, Nat.mod_eq_of_lt hsc, Nat.mod_eq_of_lt hpre,
      Nat.mod_eq_of_lt hsamp, Nat.mod_eq_of_lt hpost,
      Nat.mod_eq_of_lt (MediaType.value_lt_u32mt t.media_type), Nat.mod_eq_of_lt hgd,
      Nat.mod_eq_of_lt (show (if t.gapless_track_flag then 1 else 0) < 65536
        by split <;> norm_num),
      Nat.mod_eq_of_lt (show (if t.gapless_album_flag then 1 else 0) < 65536
        by split <;> norm_num),
      and_self, and_true, true_and]
    try exact Nat.mod_eq_of_lt hlpval
  obtain ⟨r4, r8, r12, r16, r24, r30, r31, r32, r36, r40, r44, r48, r52, r56, r60,
    r80, r88, r92, r96, r104, r112, r156, r184, r188, r200, r208, r248, r256,
    r258⟩ := hreads
  have h16 : sliceU32 (mhitBytes t fresh) 16 = .ok t.id := by
    unfold sliceU32
    rw [if_pos (by omega), r16]
  have h24 : sliceU32 (mhitBytes t fresh) 24 = .ok t.file_type.value := by
    unfold sliceU32
    rw [if_pos (by omega), r24]
  have hdrop388 : (mhitBytes t fresh).drop 388 = mhodsBytes (trackMhodFields t) := by
    unfold mhitBytes
    rw [List.append_assoc, drop_append_right _ _ _ (by simp)]
    simp [zeros]
  have hfields : ∀ tv ∈ trackMhodFields t, isStringType tv.1 = true ∧
      40 + (stringMhodPayload tv.1 tv.2).length < 4294967296 := by
    intro tv hm
    refine ⟨trackMhodFields_stringType t tv hm, ?_⟩
    exact (trackMhodFields_preconds t hlen hpath tv hm).1
  unfold parse_mhit
  rw [if_neg (by omega), if_neg (by simp [hmagic])]
  simp only [r4, r8, r12, h16, h24, r30, r31, r32, r36, r40, r44, r48, r52, r56, r60,
    r80, r88, r92, r96, r104, r112, r156, r184, r188, r200, r208, r248, r256, r258,
    ebind_ok, mhitBytes_length,
    show (31:Nat) < mhitLen t from by unfold mhitLen; omega,
    show (35:Nat) < mhitLen t from by unfold mhitLen; omega,
    show (39:Nat) < mhitLen t from by unfold mhitLen; omega,
    show (43:Nat) < mhitLen t from by unfold mhitLen; omega,
    show (47:Nat) < mhitLen t from by unfold mhitLen; omega,
    show (51:Nat) < mhitLen t from by unfold mhitLen; omega,
    show (55:Nat) < mhitLen t from by unfold mhitLen; omega,
    show (59:Nat) < mhitLen t from by unfold mhitLen; omega,
    show (63:Nat) < mhitLen t from by unfold mhitLen; omega,
    show (83:Nat) < mhitLen t from by unfold mhitLen; omega,
    show (91:Nat) < mhitLen t from by unfold mhitLen; omega,
    show (95:Nat) < mhitLen t from by unfold mhitLen; omega,
    show (99:Nat) < mhitLen t from by unfold mhitLen; omega,
    show (107:Nat) < mhitLen t from by unfold mhitLen; omega,
    show (119:Nat) < mhitLen t from by unfold mhitLen; omega,
    show (30:Nat) < mhitLen t from by unfold mhitLen; omega,
    show (159:Nat) < mhitLen t from by unfold mhitLen; omega,
    show (211:Nat) < mhitLen t from by unfold mhitLen; omega,
    show (187:Nat) < mhitLen t from by unfold mhitLen; omega,
    show (195:Nat) < mhitLen t from by unfold mhitLen; omega,
    show (203:Nat) < mhitLen t from by unfold mhitLen; omega,
    show (251:Nat) < mhitLen t from by unfold mhitLen; omega,
    show (257:Nat) < mhitLen t from by unfold mhitLen; omega,
    show (259:Nat) < mhitLen t from by unfold mhitLen; omega,
    if_true, ite_true, FileType.fromValue?_roundtrip_ft, MediaType.fromValue?_roundtrip_mt,
    Option.getD_some]
  rw [parseMhitMhods_build (trackMhodFields t) (mhitBytes t fresh) (mhitLen t) 388 _
    hdrop388 (by rw [mhitLen]) hfields]
  rw [sr_reload t.sample_rate hsr, mac_reload now2 t.date_added hda0,
    mac_reload now2 t.last_modified hlm0,
    decide_and_flag t.compilation True trivial,
    decide_flag t.gapless_track_flag, decide_flag t.gapless_album_flag]
  rw [applyMhods_trackMhodFields t _ ?hh1 ?hh2 ?hh3 ?hh4 ?hh5 ?hh6 ?hh7 ?hh8]
  case hh1 => rfl
  case hh2 => rfl
  case hh3 => rfl
  case hh4 => rfl
  case hh5 => rfl
  case hh6 => rfl
  case hh7 => rfl
  case hh8 => rfl
  unfold reloadTrack trackDbid
  rcases hlpo : t.last_played with _ | lp
  · rfl
  · rw [lp_some_reload lp (hlp lp (by simp [hlpo])).1]


theorem byteAt_drop (d : Bytes) (a n : Nat) : byteAt (d.drop a) n = byteAt d (a + n) := by
  simp [byteAt, List.getD_eq_getElem?_getD, List.getElem?_drop]

theorem readU16_drop (d : Bytes) (a n : Nat) :
    readU16 (d.drop a) n = readU16 d (a + n) := by
  simp [readU16, byteAt_drop, Nat.add_assoc]

theorem readU32_drop (d : Bytes) (a n : Nat) :
    readU32 (d.drop a) n = readU32 d (a + n) := by
  simp [readU32, byteAt_drop, Nat.add_assoc]

theorem readU64_drop (d : Bytes) (a n : Nat) :
    readU64 (d.drop a) n = readU64 d (a + n) := by
  simp [readU64, readU32_drop, Nat.add_assoc]

theorem pySlice_off (d : Bytes) (a k : Nat) : pySlice d a (a + k) = (d.drop a).take k := by
  simp [pySlice]

theorem mhipsFlat_length (l : List (Nat × Nat)) :
    ((l.map fun iv => mhipBytes iv.2 iv.1).flatten).length = 104 * l.length := by
  induction l with
  | nil => rfl
  | cons a rest ih =>
    simp only [List.map_cons, List.flatten_cons, List.length_append, ih,
      mhipBytes_length, List.length_cons]
    omega

theorem mhypHeaderBytes_len (p : Playlist) : (mhypHeaderBytes p).length = 48 := by
  unfold mhypHeaderBytes
  simp

theorem mhypBytes_len (p : Playlist) : (mhypBytes p).length = mhypLen p := by
  unfold mhypBytes mhypLen
  simp [mhypHeaderBytes_len]
  omega

theorem parseMhypChildren_mhips (data : Bytes) (total num_mhods : Nat)
    (l : List (Nat × Nat)) (fuel off mp : Nat) (pl : Playlist) (acc : List Nat)
    (hdrop : data.drop off = (l.map fun iv => mhipBytes iv.2 iv.1).flatten)
    (ht : total = off + 104 * l.length)
    (hfuel : l.length ≤ fuel)
    (htid : ∀ iv ∈ l, iv.2 < 4294967296) :
    parseMhypChildren data total num_mhods fuel off mp pl acc =
      .ok (pl, acc ++ l.map fun iv => iv.2) := by
  induction l generalizing fuel off mp acc with
  | nil =>
    simp only [List.length_nil, Nat.mul_zero, Nat.add_zero] at ht
    subst ht
    cases fuel with
    | zero => simp [parseMhypChildren]
    | succ f =>
      rw [parseMhypChildren]
      rw [if_neg (by omega)]
      simp
  | cons a rest ih =>
    obtain ⟨f, rfl⟩ : ∃ f, fuel = f + 1 := ⟨fuel - 1, by simp at hfuel; omega⟩
    have hdrop0 : data.drop off =
        mhipBytes a.2 a.1 ++ (rest.map fun iv => mhipBytes iv.2 iv.1).flatten := by
      simpa using hdrop
    have hdl : data.length = off + 104 + 104 * rest.length := by
      have hc := congrArg List.length hdrop0
      simp only [List.length_drop, List.length_append, mhipBytes_length,
        mhipsFlat_length] at hc
      omega
    have hmagic : pySlice data off (off + 4) = mhipMagic := by
      rw [pySlice_off, hdrop0]
      unfold mhipBytes
      simp only [List.append_assoc]
      exact take_append_exact _ _ 4 rfl
    have h8 : readU32 data (off + 8) = 104 := by
      rw [← readU32_drop, hdrop0]
      unfold mhipBytes
      simp [List.append_assoc]
    have h24 : readU32 data (off + 24) = a.2 := by
      rw [← readU32_drop, hdrop0]
      unfold mhipBytes
      simp [List.append_assoc, Nat.mod_eq_of_lt (htid a (by simp))]
    have hdropn : data.drop (off + 104) =
        (rest.map fun iv => mhipBytes iv.2 iv.1).flatten := by
      rw [← List.drop_drop, hdrop0, drop_append_right _ _ _ (by simp)]
      simp
    rw [parseMhypChildren]
    simp only [hmagic, h8, h24,
      if_pos (show off < total from by simp only [List.length_cons] at ht; omega),
      if_neg (show ¬ List.length data < off + 12 from by omega),
      if_neg (show ¬ ((104:Nat) = 0) from by norm_num),
      if_neg (show ¬ (mhipMagic = mhodMagic ∧ mp < num_mhods) from by
        rintro ⟨h1, -⟩; exact absurd h1 (by decide)),
      if_pos (show mhipMagic = mhipMagic from rfl),
      if_pos (show off + 28 ≤ List.length data from by omega)]
    rw [ih f (off + 104) mp (acc ++ [a.2]) hdropn
      (by simp only [List.length_cons] at ht; omega)
      (by simp only [List.length_cons] at hfuel; omega)
      (fun iv hiv => htid iv (by simp [hiv]))]
    simp

theorem stringMhodDecoded_title (v : PyStr) : stringMhodDecoded mhodTitle v = v := by
  unfold stringMhodDecoded
  rw [if_neg (by norm_num [mhodTitle, mhodLocation])]

theorem enum_snd_lt (ids : List Nat) (h : ∀ tid ∈ ids, tid < 4294967296) :
    ∀ iv ∈ ids.enum, iv.2 < 4294967296 := by
  intro iv hiv
  have hm : iv.2 ∈ ids.enum.map Prod.snd := List.mem_map_of_mem _ hiv
  rw [List.enum_map_snd] at hm
  exact h iv.2 hm

set_option maxHeartbeats 3200000 in
theorem parse_mhyp_ok (now2 : Int) (p : Playlist) (hwf : PlaylistWF p)
    (hlen : mhypLen p < 4294967296) :
    parse_mhyp now2 (mhypBytes p) = .ok (reloadPlaylist now2 p, p.track_ids) := by
  obtain ⟨hid, hts0, hts1, htids⟩ := hwf
  have hlenB : (mhypBytes p).length = mhypLen p := mhypBytes_len p
  have h108 : 108 ≤ mhypLen p := by
    unfold mhypLen
    omega
  have hmc1 : mhypMhodCount p < 4294967296 := by
    unfold mhypMhodCount
    split <;> norm_num
  have hmagic : pySlice (mhypBytes p) 0 4 = mhypMagic := by
    unfold mhypBytes mhypHeaderBytes
    simp only [List.append_assoc]
    exact pySlice_zero_exact _ _ 4 rfl
  have hmips104 : (mhypMhipBytes p).length = 104 * p.track_ids.length :=
    mhypMhipBytes_length p
  have hreads : readU32 (mhypBytes p) 4 = 108 ∧
      readU32 (mhypBytes p) 8 = mhypLen p ∧
      readU32 (mhypBytes p) 12 = mhypMhodCount p ∧
      byteAt (mhypBytes p) 20 = (if p.is_master then 1 else 0) ∧
      readU32 (mhypBytes p) 24 = (datetime_to_mac p.timestamp).toNat ∧
      readU64 (mhypBytes p) 28 = p.id ∧
      readU16 (mhypBytes p) 42 = (if p.is_podcast then 1 else 0) ∧
      readU32 (mhypBytes p) 44 = p.sort_order.value := by
    unfold mhypBytes mhypHeaderBytes
    simp only [List.append_assoc, readU32_append_right, readU16_append_right,
      readU64_append_right, byteAt_append_skip, readU32_u32le, readU16_u16le,
      byteAt_u8le, readU64_u64le, u32le_length, u16le_length, u8le_length,
      u64le_length, zeros_length, mhypMagic_length,
      Nat.reduceLeDiff, Nat.reduceSub, Nat.reduceAdd, Nat.reduceMul, Nat.reduceMod,
      Nat.mod_eq_of_lt hlen, Nat.mod_eq_of_lt hmc1,
      Nat.mod_eq_of_lt (show (datetime_to_mac p.timestamp).toNat < 4294967296 by omega),
      Nat.mod_eq_of_lt hid,
      Nat.mod_eq_of_lt (SortOrder.value_lt_u32so p.sort_order),
      Nat.mod_eq_of_lt (show (if p.is_master then 1 else 0) < 256 by split <;> norm_num),
      Nat.mod_eq_of_lt (show (if p.is_podcast then 1 else 0) < 65536 by split <;> norm_num),
      and_self, and_true, true_and]
  obtain ⟨r4, r8, r12, r20, r24, r28, r42, r44⟩ := hreads
  unfold parse_mhyp
  rw [if_neg (by rw [hlenB]; omega), if_neg (by simp [hmagic])]
  simp only [r4, r8, r12, r20, r24, r28, r42, r44, hlenB, ebind_ok,
    show (20:Nat) < mhypLen p from by omega,
    show (27:Nat) < mhypLen p from by omega,
    show (35:Nat) < mhypLen p from by omega,
    show (43:Nat) < mhypLen p from by omega,
    show (47:Nat) < mhypLen p from by omega,
    if_true, ite_true, SortOrder.fromValue?_roundtrip_so, Option.getD_some]
  rw [decide_and_flag p.is_master True trivial, decide_flag p.is_podcast,
    mac_reload now2 p.timestamp hts0]
  by_cases hm : ¬ p.is_master ∧ p.name ≠ []
  · have hmb : mhypMhodBytes p = stringMhodBytes mhodTitle p.name := by
      unfold mhypMhodBytes
      rw [if_pos hm]
    have hmc : mhypMhodCount p = 1 := by
      unfold mhypMhodCount
      rw [if_pos hm]
    have hsl : (stringMhodBytes mhodTitle p.name).length =
        40 + (stringMhodPayload mhodTitle p.name).length :=
      stringMhodBytes_length mhodTitle p.name
    have hnm : 40 + (stringMhodPayload mhodTitle p.name).length < 4294967296 := by
      unfold mhypLen at hlen
      rw [hmb, hsl] at hlen
      omega
    have hlenb : mhypLen p = 108 + (40 + (stringMhodPayload mhodTitle p.name).length) +
        104 * p.track_ids.length := by
      unfold mhypLen
      rw [hmb, hsl, hmips104]
    have hdrop108 : (mhypBytes p).drop 108 =
        stringMhodBytes mhodTitle p.name ++ mhypMhipBytes p := by
      unfold mhypBytes
      rw [← hmb]
      simp only [List.append_assoc, drop_append_skip, mhypHeaderBytes_len, zeros_length,
        Nat.reduceLeDiff, Nat.reduceSub, List.drop_zero]
    have h116 : readU32 (mhypBytes p) 116 =
        40 + (stringMhodPayload mhodTitle p.name).length := by
      rw [show (116:Nat) = 108 + 8 from rfl, ← readU32_drop, hdrop108]
      unfold stringMhodBytes
      simp [List.append_assoc, Nat.mod_eq_of_lt hnm]
    have hmagic108 : pySlice (mhypBytes p) 108 (108 + 4) = mhodMagic := by
      rw [pySlice_off, hdrop108]
      unfold stringMhodBytes
      simp only [List.append_assoc]
      exact take_append_exact _ _ 4 rfl
    have hslice : pySlice (mhypBytes p) 108
        (108 + (40 + (stringMhodPayload mhodTitle p.name).length)) =
        stringMhodBytes mhodTitle p.name := by
      rw [pySlice_off, hdrop108]
      exact take_append_exact _ _ _ hsl
    have hdropm : (mhypBytes p).drop
        (108 + (40 + (stringMhodPayload mhodTitle p.name).length)) =
        ((p.track_ids.enum).map fun iv => mhipBytes iv.2 iv.1).flatten := by
      rw [← List.drop_drop, hdrop108, drop_append_right _ _ _ (by rw [hsl]),
        show 40 + (stringMhodPayload mhodTitle p.name).length -
          (stringMhodBytes mhodTitle p.name).length = 0 from by rw [hsl]; omega]
      rfl
    rw [hmc]
    rw [parseMhypChildren]
    simp only [hmagic108, h116, hslice,
      if_pos (show (108:Nat) < mhypLen p from by rw [hlenb]; omega),
      if_neg (show ¬ (mhypBytes p).length < 108 + 12 from by rw [hlenB, hlenb]; omega),
      if_neg (show ¬ (40 + (stringMhodPayload mhodTitle p.name).length = 0) from by omega),
      if_pos (show mhodMagic = mhodMagic ∧ 0 < 1 from ⟨rfl, by norm_num⟩)]
    rw [parse_mhod_string mhodTitle p.name (by decide) hnm]
    simp only [ebind_ok, stringMhodDecoded_title, eq_self_iff_true, true_and, and_true,
      show (0:Nat) < 1 from by norm_num, if_true, ite_true]
    rw [parseMhypChildren_mhips (mhypBytes p) (mhypLen p) 1 p.track_ids.enum
      (mhypLen p) (108 + (40 + (stringMhodPayload mhodTitle p.name).length)) 1 _ []
      hdropm (by rw [List.enum_length]; omega) (by rw [List.enum_length]; omega)
      (enum_snd_lt p.track_ids htids)]
    simp only [epure_eq_ok, List.nil_append, List.enum_map_snd]
    unfold reloadPlaylist
    rw [if_neg (show ¬ (p.is_master = true ∨ p.name = []) from by
      rcases hm with ⟨h1, h2⟩
      simp [h1, h2])]
    rfl
  · have hmb : mhypMhodBytes p = [] := by
      unfold mhypMhodBytes
      rw [if_neg hm]
    have hmc : mhypMhodCount p = 0 := by
      unfold mhypMhodCount
      rw [if_neg hm]
    have hlenb : mhypLen p = 108 + 104 * p.track_ids.length := by
      unfold mhypLen
      rw [hmb, hmips104]
      simp
    have hdrop108 : (mhypBytes p).drop 108 =
        ((p.track_ids.enum).map fun iv => mhipBytes iv.2 iv.1).flatten := by
      unfold mhypBytes
      rw [hmb]
      simp only [List.append_assoc, List.nil_append, drop_append_skip,
        mhypHeaderBytes_len, zeros_length, Nat.reduceLeDiff, Nat.reduceSub,
        List.drop_zero]
      rfl
    rw [hmc]
    rw [parseMhypChildren_mhips (mhypBytes p) (mhypLen p) 0 p.track_ids.enum
      (mhypLen p + 1) 108 0 _ [] hdrop108
      (by rw [List.enum_length]; omega) (by rw [List.enum_length]; omega)
      (enum_snd_lt p.track_ids htids)]
    simp only [epure_eq_ok, List.nil_append, List.enum_map_snd]
    unfold reloadPlaylist
    rw [if_pos (show p.is_master = true ∨ p.name = [] from by
      rcases not_and_or.mp hm with h1 | h2
      · exact Or.inl (by simpa using h1)
      · exact Or.inr (by simpa using h2))]
    rfl


theorem enum_snd_mem {α : Type} (l : List α) (iv : Nat × α) (h : iv ∈ l.enum) :
    iv.2 ∈ l := by
  have hm : iv.2 ∈ l.enum.map Prod.snd := List.mem_map_of_mem _ h
  rwa [List.enum_map_snd] at hm

theorem mhitsFlat_length (l : List (Track × Nat)) :
    ((l.map fun tf => mhitBytes tf.1 tf.2).flatten).length =
      (l.map fun tf => mhitLen tf.1).sum := by
  induction l with
  | nil => rfl
  | cons a rest ih =>
    simp only [List.map_cons, List.flatten_cons, List.length_append, ih,
      mhitBytes_length, List.sum_cons]

theorem parseMhits_build (now2 : Int) (data : Bytes) (l : List (Track × Nat))
    (off : Nat) (acc : List Track)
    (hdrop : data.drop off = (l.map fun tf => mhitBytes tf.1 tf.2).flatten)
    (hl : ∀ tf ∈ l, TrackWF tf.1 ∧ tf.2 < 18446744073709551616 ∧
      mhitLen tf.1 < 4294967296) :
    parseMhits now2 data l.length off acc =
      .ok (acc ++ l.map fun tf => reloadTrack now2 tf.2 tf.1) := by
  induction l generalizing off acc with
  | nil => simp [parseMhits]
  | cons a rest ih =>
    obtain ⟨hwf, hfr, hml⟩ := hl a (by simp)
    have hdrop0 : data.drop off =
        mhitBytes a.1 a.2 ++ (rest.map fun tf => mhitBytes tf.1 tf.2).flatten := by
      simpa using hdrop
    have hdl : data.length = off + mhitLen a.1 +
        ((rest.map fun tf => mhitBytes tf.1 tf.2).flatten).length := by
      have hc := congrArg List.length hdrop0
      simp only [List.length_drop, List.length_append, mhitBytes_length] at hc
      have h388 : 388 ≤ mhitLen a.1 := by unfold mhitLen; omega
      omega
    have h388 : 388 ≤ mhitLen a.1 := by unfold mhitLen; omega
    have hmagic : pySlice data off (off + 4) = mhitMagic := by
      rw [pySlice_off, hdrop0]
      unfold mhitBytes mhitHeaderBytes
      simp only [List.append_assoc]
      exact take_append_exact _ _ 4 rfl
    have h8 : readU32 data (off + 8) = mhitLen a.1 := by
      rw [← readU32_drop, hdrop0]
      unfold mhitBytes mhitHeaderBytes
      simp [List.append_assoc, Nat.mod_eq_of_lt hml]
    have hs8 : sliceU32 data (off + 8) = .ok (mhitLen a.1) := by
      unfold sliceU32
      rw [if_pos (by omega), h8]
    have hslice : pySlice data off (off + mhitLen a.1) = mhitBytes a.1 a.2 := by
      rw [pySlice_off, hdrop0]
      exact take_append_exact _ _ _ (mhitBytes_length a.1 a.2)
    have hdropn : data.drop (off + mhitLen a.1) =
        (rest.map fun tf => mhitBytes tf.1 tf.2).flatten := by
      rw [← List.drop_drop, hdrop0,
        drop_append_right _ _ _ (by rw [mhitBytes_length]),
        show mhitLen a.1 - (mhitBytes a.1 a.2).length = 0 from by
          rw [mhitBytes_length]; omega]
      rfl
    show parseMhits now2 data (rest.length + 1) off acc = _
    rw [parseMhits]
    simp only [hmagic, hs8, hslice, ebind_ok,
      if_neg (show ¬ data.length ≤ off from by omega),
      if_neg (show ¬ (mhitMagic ≠ mhitMagic) from fun h => h rfl),
      if_neg (show ¬ (mhitLen a.1 = 0) from by omega)]
    rw [parse_mhit_ok now2 a.1 a.2 hwf hfr hml]
    simp only [ebind_ok]
    rw [ih (off + mhitLen a.1) (acc ++ [reloadTrack now2 a.2 a.1]) hdropn
      (fun tf htf => hl tf (by simp [htf]))]
    simp

theorem parse_track_section_ok (now2 : Int) (db : Database) (rnd : Nat → Nat)
    (dbAcc : Database)
    (hwf : ∀ t ∈ db.tracks, TrackWF t)
    (hr : ∀ i, rnd i < 18446744073709551616)
    (hts : trackSectionLen db < 4294967296) :
    parse_track_section now2 (trackSectionBytes db rnd) dbAcc =
      .ok { dbAcc with tracks := dbAcc.tracks ++
        db.tracks.enum.map fun it => reloadTrack now2 (rnd it.1) it.2 } := by
  have hsum : (db.tracks.map mhitLen).sum < 4294967296 := by
    unfold trackSectionLen at hts
    omega
  have hcnt : db.tracks.length < 4294967296 := by
    have hle : db.tracks.length ≤ (db.tracks.map mhitLen).sum := by
      rw [show db.tracks.length = (db.tracks.map mhitLen).length from
        (List.length_map _ _).symm]
      refine length_le_sum_of_pos _ ?_
      intro x hx
      rcases List.mem_map.mp hx with ⟨t, -, rfl⟩
      unfold mhitLen
      omega
    omega
  have hlenB : (trackSectionBytes db rnd).length = trackSectionLen db := by
    unfold trackSectionBytes trackSectionLen
    simp only [List.length_append, List.length_cons, mhsdMagic_length, u32le_length,
      zeros_length, mhltMagic_length]
    rw [show (mhitsBytes db.tracks rnd).length = (db.tracks.map mhitLen).sum from
      mhitsBytes_length db.tracks rnd]
    try omega
  have h188 : 188 ≤ trackSectionLen db := by
    unfold trackSectionLen
    omega
  have hreads : readU32 (trackSectionBytes db rnd) 4 = 96 ∧
      readU32 (trackSectionBytes db rnd) 100 = 92 ∧
      readU32 (trackSectionBytes db rnd) 104 = db.tracks.length := by
    unfold trackSectionBytes
    simp only [List.append_assoc, readU32_append_right, readU32_u32le,
      u32le_length, zeros_length, mhsdMagic_length, mhltMagic_length,
      Nat.reduceLeDiff, Nat.reduceSub, Nat.reduceAdd, Nat.reduceMod,
      Nat.mod_eq_of_lt hcnt, and_self, and_true, true_and]
  obtain ⟨r4, r100, r104⟩ := hreads
  have hmagic96 : pySlice (trackSectionBytes db rnd) 96 (96 + 4) = mhltMagic := by
    rw [pySlice_off]
    unfold trackSectionBytes
    simp only [List.append_assoc, drop_append_skip, mhsdMagic_length, u32le_length,
      zeros_length, Nat.reduceLeDiff, Nat.reduceSub, List.drop_zero]
    exact take_append_exact _ _ 4 rfl
  have hdrop188 : (trackSectionBytes db rnd).drop 188 =
      ((db.tracks.enum.map fun it => (it.2, rnd it.1)).map
        fun tf => mhitBytes tf.1 tf.2).flatten := by
    unfold trackSectionBytes
    simp only [List.append_assoc, drop_append_skip, mhsdMagic_length, u32le_length,
      zeros_length, mhltMagic_length, Nat.reduceLeDiff, Nat.reduceSub, List.drop_zero]
    unfold mhitsBytes
    rw [List.map_map]
    rfl
  unfold parse_track_section
  rw [show sliceU32 (trackSectionBytes db rnd) 4 = .ok 96 from by
      unfold sliceU32
      rw [if_pos (by omega), r4]]
  simp only [ebind_ok]
  rw [if_neg (show ¬ (pySlice (trackSectionBytes db rnd) 96 (96 + 4) ≠ mhltMagic) from by
      rw [hmagic96]
      exact fun h => h rfl)]
  rw [show sliceU32 (trackSectionBytes db rnd) (96 + 4) = .ok 92 from by
      unfold sliceU32
      rw [if_pos (by omega)]
      exact congrArg Except.ok r100]
  simp only [ebind_ok]
  rw [show sliceU32 (trackSectionBytes db rnd) (96 + 8) = .ok db.tracks.length from by
      unfold sliceU32
      rw [if_pos (by omega)]
      exact congrArg Except.ok r104]
  simp only [ebind_ok]
  rw [show db.tracks.length =
      (db.tracks.enum.map fun it => (it.2, rnd it.1)).length from by
        rw [List.length_map, List.enum_length]]
  rw [parseMhits_build now2 (trackSectionBytes db rnd) _ (96 + 92) dbAcc.tracks
    (by rw [show (96 + 92 : Nat) = 188 from rfl]; exact hdrop188)
    (by
      intro tf htf
      rcases List.mem_map.mp htf with ⟨it, hit, rfl⟩
      have hmem : it.2 ∈ db.tracks := enum_snd_mem db.tracks it hit
      refine ⟨hwf it.2 hmem, hr it.1, ?_⟩
      have hms : mhitLen it.2 ≤ (db.tracks.map mhitLen).sum :=
        mem_le_sum _ _ (List.mem_map_of_mem _ hmem)
      show mhitLen it.2 < 4294967296
      omega)]
  simp only [epure_eq_ok, List.map_map]
  rfl

theorem mhypsFlat_length (l : List Playlist) :
    ((l.map mhypBytes).flatten).length = (l.map mhypLen).sum := by
  induction l with
  | nil => rfl
  | cons a rest ih =>
    simp only [List.map_cons, List.flatten_cons, List.length_append, ih,
      mhypBytes_len, List.sum_cons]

theorem parseMhyps_build (now2 : Int) (data : Bytes) (l : List Playlist)
    (off : Nat) (acc : List Playlist)
    (hdrop : data.drop off = (l.map mhypBytes).flatten)
    (hl : ∀ p ∈ l, PlaylistWF p ∧ mhypLen p < 4294967296) :
    parseMhyps now2 data l.length off acc =
      .ok (acc ++ l.map (reloadPlaylist now2)) := by
  induction l generalizing off acc with
  | nil => simp [parseMhyps]
  | cons a rest ih =>
    obtain ⟨hwf, hml⟩ := hl a (by simp)
    have hdrop0 : data.drop off = mhypBytes a ++ (rest.map mhypBytes).flatten := by
      simpa using hdrop
    have hdl : data.length = off + mhypLen a + ((rest.map mhypBytes).flatten).length := by
      have hc := congrArg List.length hdrop0
      simp only [List.length_drop, List.length_append, mhypBytes_len] at hc
      have h108 : 108 ≤ mhypLen a := by unfold mhypLen; omega
      omega
    have h108 : 108 ≤ mhypLen a := by unfold mhypLen; omega
    have hmagic : pySlice data off (off + 4) = mhypMagic := by
      rw [pySlice_off, hdrop0]
      unfold mhypBytes mhypHeaderBytes
      simp only [List.append_assoc]
      exact take_append_exact _ _ 4 rfl
    have h8 : readU32 data (off + 8) = mhypLen a := by
      rw [← readU32_drop, hdrop0]
      unfold mhypBytes mhypHeaderBytes
      simp [List.append_assoc, Nat.mod_eq_of_lt hml]
    have hs8 : sliceU32 data (off + 8) = .ok (mhypLen a) := by
      unfold sliceU32
      rw [if_pos (by omega), h8]
    have hslice : pySlice data off (off + mhypLen a) = mhypBytes a := by
      rw [pySlice_off, hdrop0]
      exact take_append_exact _ _ _ (mhypBytes_len a)
    have hdropn : data.drop (off + mhypLen a) = (rest.map mhypBytes).flatten := by
      rw [← List.drop_drop, hdrop0,
        drop_append_right _ _ _ (by rw [mhypBytes_len]),
        show mhypLen a - (mhypBytes a).length = 0 from by rw [mhypBytes_len]; omega]
      rfl
    show parseMhyps now2 data (rest.length + 1) off acc = _
    rw [parseMhyps]
    simp only [hmagic, hs8, hslice, ebind_ok,
      if_neg (show ¬ data.length ≤ off from by omega),
      if_neg (show ¬ (mhypMagic ≠ mhypMagic) from fun h => h rfl),
      if_neg (show ¬ (mhypLen a = 0) from by omega)]
    rw [parse_mhyp_ok now2 a hwf hml]
    simp only [ebind_ok]
    rw [ih (off + mhypLen a) (acc ++ [reloadPlaylist now2 a]) hdropn
      (fun p hp => hl p (by simp [hp]))]
    simp

theorem parse_playlist_section_ok (now2 : Int) (db : Database) (dbAcc : Database)
    (hwf : ∀ p ∈ db.playlists, PlaylistWF p)
    (hps : playlistSectionLen db < 4294967296) :
    parse_playlist_section now2 (playlistSectionBytes db) dbAcc =
      .ok { dbAcc with playlists := dbAcc.playlists ++
        db.playlists.map (reloadPlaylist now2) } := by
  have hsum : (db.playlists.map mhypLen).sum < 4294967296 := by
    unfold playlistSectionLen at hps
    omega
  have hcnt : db.playlists.length < 4294967296 := by
    have hle : db.playlists.length ≤ (db.playlists.map mhypLen).sum := by
      rw [show db.playlists.length = (db.playlists.map mhypLen).length from
        (List.length_map _ _).symm]
      refine length_le_sum_of_pos _ ?_
      intro x hx
      rcases List.mem_map.mp hx with ⟨p, -, rfl⟩
      unfold mhypLen
      omega
    omega
  have hlenB : (playlistSectionBytes db).length = playlistSectionLen db := by
    unfold playlistSectionBytes playlistSectionLen
    simp only [List.length_append, mhsdMagic_length, u32le_length,
      zeros_length, mhlpMagic_length]
    rw [show (mhypsBytes db.playlists).length = (db.playlists.map mhypLen).sum from by
      unfold mhypsBytes
      exact mhypsFlat_length db.playlists]
    try omega
  have h188 : 188 ≤ playlistSectionLen db := by
    unfold playlistSectionLen
    omega
  have hreads : readU32 (playlistSectionBytes db) 4 = 96 ∧
      readU32 (playlistSectionBytes db) 100 = 92 ∧
      readU32 (playlistSectionBytes db) 104 = db.playlists.length := by
    unfold playlistSectionBytes
    simp only [List.append_assoc, readU32_append_right, readU32_u32le,
      u32le_length, zeros_length, mhsdMagic_length, mhlpMagic_length,
      Nat.reduceLeDiff, Nat.reduceSub, Nat.reduceAdd, Nat.reduceMod,
      Nat.mod_eq_of_lt hcnt, and_self, and_true, true_and]
  obtain ⟨r4, r100, r104⟩ := hreads
  have hmagic96 : pySlice (playlistSectionBytes db) 96 (96 + 4) = mhlpMagic := by
    rw [pySlice_off]
    unfold playlistSectionBytes
    simp only [List.append_assoc, drop_append_skip, mhsdMagic_length, u32le_length,
      zeros_length, Nat.reduceLeDiff, Nat.reduceSub, List.drop_zero]
    exact take_append_exact _ _ 4 rfl
  have hdrop188 : (playlistSectionBytes db).drop 188 =
      (db.playlists.map mhypBytes).flatten := by
    unfold playlistSectionBytes
    simp only [List.append_assoc, drop_append_skip, mhsdMagic_length, u32le_length,
      zeros_length, mhlpMagic_length, Nat.reduceLeDiff, Nat.reduceSub, List.drop_zero]
    rfl
  unfold parse_playlist_section
  rw [show sliceU32 (playlistSectionBytes db) 4 = .ok 96 from by
      unfold sliceU32
      rw [if_pos (by omega), r4]]
  simp only [ebind_ok]
  rw [if_neg (show ¬ (pySlice (playlistSectionBytes db) 96 (96 + 4) ≠ mhlpMagic) from by
      rw [hmagic96]
      exact fun h => h rfl)]
  rw [show sliceU32 (playlistSectionBytes db) (96 + 4) = .ok 92 from by
      unfold sliceU32
      rw [if_pos (by omega)]
      exact congrArg Except.ok r100]
  simp only [ebind_ok]
  rw [show sliceU32 (playlistSectionBytes db) (96 + 8) = .ok db.playlists.length from by
      unfold sliceU32
      rw [if_pos (by omega)]
      exact congrArg Except.ok r104]
  simp only [ebind_ok]
  rw [parseMhyps_build now2 (playlistSectionBytes db) db.playlists (96 + 92)
    dbAcc.playlists
    (by rw [show (96 + 92 : Nat) = 188 from rfl]; exact hdrop188)
    (by
      intro p hp
      refine ⟨hwf p hp, ?_⟩
      have hms : mhypLen p ≤ (db.playlists.map mhypLen).sum :=
        mem_le_sum _ _ (List.mem_map_of_mem _ hp)
      omega)]
  rfl

theorem mhbdBytes_len (db : Database) : (mhbdBytes db).length = 104 := by
  unfold mhbdBytes
  simp

theorem parseSections_succ (now : Int) (data : Bytes) (n pos : Nat) (db : Database) :
    parseSections now data (n + 1) pos db = (do
      let sp ← read_bytesR data pos 4
      if sp.1 ≠ mhsdMagic then .error .badMhsd
      else do
        let hp ← read_uint32R data sp.2
        let tp ← read_uint32R data hp.2
        let yp ← read_uint32R data tp.2
        let sdp ← read_bytesR data pos tp.1
        let db2 ←
          if yp.1 = 1 then parse_track_section now sdp.1 db
          else if yp.1 = 2 then parse_playlist_section now sdp.1 db
          else pure db
        parseSections now data n sdp.2 db2) := rfl

set_option maxHeartbeats 3200000 in
theorem parse_database_ok (now2 : Int) (db3 : Database) (rnd : Rnd)
    (hwf : DatabaseWF db3)
    (hr : ∀ i, rnd.track_dbid i < 18446744073709551616) :
    parse_database now2 (fileBytes db3 rnd) = .ok (reloadDatabase now2 rnd db3) := by
  obtain ⟨hver, hdid, hlid, hlang, hfile, htr, hpl⟩ := hwf
  have e1 : (trackSectionBytes db3 rnd.track_dbid).length = trackSectionLen db3 := by
    unfold trackSectionBytes trackSectionLen
    simp only [List.length_append, mhsdMagic_length, mhltMagic_length, u32le_length,
      zeros_length]
    rw [mhitsBytes_length]
    try omega
  have e2 : (playlistSectionBytes db3).length = playlistSectionLen db3 := by
    unfold playlistSectionBytes playlistSectionLen
    simp only [List.length_append, mhsdMagic_length, mhlpMagic_length, u32le_length,
      zeros_length]
    rw [show (mhypsBytes db3.playlists).length = (db3.playlists.map mhypLen).sum from by
      unfold mhypsBytes
      exact mhypsFlat_length db3.playlists]
    try omega
  have hts188 : 188 ≤ trackSectionLen db3 := by
    unfold trackSectionLen
    omega
  have hps188 : 188 ≤ playlistSectionLen db3 := by
    unfold playlistSectionLen
    omega
  have hts : trackSectionLen db3 < 4294967296 := by
    unfold fileLen at hfile
    omega
  have hps : playlistSectionLen db3 < 4294967296 := by
    unfold fileLen at hfile
    omega
  have hlenD : (fileBytes db3 rnd).length = fileLen db3 := by
    unfold fileBytes fileLen
    simp only [List.length_append, mhbdBytes_len, e1, e2]
  have hfl : 480 ≤ fileLen db3 := by
    unfold fileLen
    omega
  have hm0 : pySlice (fileBytes db3 rnd) 0 4 = mhbdMagic := by
    unfold fileBytes mhbdBytes
    simp only [List.append_assoc]
    exact pySlice_zero_exact _ _ 4 rfl
  have hreads : readU32 (fileBytes db3 rnd) 4 = 104 ∧
      readU32 (fileBytes db3 rnd) 16 = db3.version ∧
      readU32 (fileBytes db3 rnd) 20 = 2 ∧
      readU64 (fileBytes db3 rnd) 24 = db3.database_id ∧
      readU64 (fileBytes db3 rnd) 72 = db3.library_persistent_id := by
    unfold fileBytes mhbdBytes
    simp only [List.append_assoc, readU32_append_right, readU16_append_right,
      readU64_append_right, byteAt_append_skip, readU32_u32le, readU16_u16le,
      byteAt_u8le, readU64_u64le, u32le_length, u16le_length, u8le_length,
      u64le_length, zeros_length, mhbdMagic_length, langBytes_length,
      Nat.reduceLeDiff, Nat.reduceSub, Nat.reduceAdd, Nat.reduceMul, Nat.reduceMod,
      Nat.mod_eq_of_lt hver, Nat.mod_eq_of_lt hdid, Nat.mod_eq_of_lt hlid,
      and_self, and_true, true_and]
  obtain ⟨r4, r16, r20, r24, r72⟩ := hreads
  have hlang72 : pySlice (fileBytes db3 rnd) 70 (70 + 2) = langBytes db3.language := by
    rw [pySlice_off]
    unfold fileBytes mhbdBytes
    simp only [List.append_assoc, drop_append_skip, mhbdMagic_length, u32le_length,
      u16le_length, u64le_length, zeros_length, Nat.reduceLeDiff, Nat.reduceSub,
      List.drop_zero]
    exact take_append_exact _ _ 2 (langBytes_length db3.language)
  have hdrop104 : (fileBytes db3 rnd).drop 104 =
      trackSectionBytes db3 rnd.track_dbid ++ playlistSectionBytes db3 := by
    unfold fileBytes
    rw [List.append_assoc, drop_append_right _ _ _ (by rw [mhbdBytes_len]),
      show (104:Nat) - (mhbdBytes db3).length = 0 from by rw [mhbdBytes_len]]
    rfl
  have hm104 : pySlice (fileBytes db3 rnd) 104 (104 + 4) = mhsdMagic := by
    rw [pySlice_off, hdrop104]
    unfold trackSectionBytes
    simp only [List.append_assoc]
    exact take_append_exact _ _ 4 rfl
  have hsec1 : readU32 (fileBytes db3 rnd) (104 + 4) = 96 ∧
      readU32 (fileBytes db3 rnd) (104 + 8) = trackSectionLen db3 ∧
      readU32 (fileBytes db3 rnd) (104 + 12) = 1 := by
    rw [← readU32_drop, ← readU32_drop, ← readU32_drop, hdrop104]
    unfold trackSectionBytes
    simp only [List.append_assoc, readU32_append_right, readU32_u32le, u32le_length,
      zeros_length, mhsdMagic_length, Nat.reduceLeDiff, Nat.reduceSub, Nat.reduceAdd,
      Nat.reduceMod, Nat.mod_eq_of_lt hts, and_self, and_true, true_and]
  obtain ⟨rs4, rs8, rs12⟩ := hsec1
  have hts_slice : pySlice (fileBytes db3 rnd) 104 (104 + trackSectionLen db3) =
      trackSectionBytes db3 rnd.track_dbid := by
    rw [pySlice_off, hdrop104]
    exact take_append_exact _ _ _ e1
  have hdropP : (fileBytes db3 rnd).drop (104 + trackSectionLen db3) =
      playlistSectionBytes db3 := by
    rw [← List.drop_drop, hdrop104, drop_append_right _ _ _ (by rw [e1]),
      show trackSectionLen db3 - (trackSectionBytes db3 rnd.track_dbid).length = 0 from by
        rw [e1]; omega]
    rfl
  have hm2 : pySlice (fileBytes db3 rnd) (104 + trackSectionLen db3)
      (104 + trackSectionLen db3 + 4) = mhsdMagic := by
    rw [pySlice_off, hdropP]
    unfold playlistSectionBytes
    simp only [List.append_assoc]
    exact take_append_exact _ _ 4 rfl
  have hsec2 : readU32 (fileBytes db3 rnd) (104 + trackSectionLen db3 + 4) = 96 ∧
      readU32 (fileBytes db3 rnd) (104 + trackSectionLen db3 + 8) =
        playlistSectionLen db3 ∧
      readU32 (fileBytes db3 rnd) (104 + trackSectionLen db3 + 12) = 2 := by
    rw [show 104 + trackSectionLen db3 + 4 = 104 + trackSectionLen db3 + 4 from rfl,
      ← readU32_drop, ← readU32_drop, ← readU32_drop, hdropP]
    unfold playlistSectionBytes
    simp only [List.append_assoc, readU32_append_right, readU32_u32le, u32le_length,
      zeros_length, mhsdMagic_length, Nat.reduceLeDiff, Nat.reduceSub, Nat.reduceAdd,
      Nat.reduceMod, Nat.mod_eq_of_lt hps, and_self, and_true, true_and]
  obtain ⟨rp4, rp8, rp12⟩ := hsec2
  have hps_slice : pySlice (fileBytes db3 rnd) (104 + trackSectionLen db3)
      (104 + trackSectionLen db3 + playlistSectionLen db3) =
      playlistSectionBytes db3 := by
    rw [pySlice_off, hdropP, ← e2]
    exact List.take_length _
  have hrdB : ∀ pos n, pos + n ≤ fileLen db3 →
      read_bytesR (fileBytes db3 rnd) pos n =
        .ok (pySlice (fileBytes db3 rnd) pos (pos + n), pos + n) := by
    intro pos n h
    unfold read_bytesR
    rw [hlenD, if_pos h]
  have hrd4 : ∀ pos, pos + 4 ≤ fileLen db3 →
      read_uint32R (fileBytes db3 rnd) pos =
        .ok (readU32 (fileBytes db3 rnd) pos, pos + 4) := by
    intro pos h
    unfold read_uint32R
    rw [hlenD, if_pos h]
  have hrd8 : ∀ pos, pos + 8 ≤ fileLen db3 →
      read_uint64R (fileBytes db3 rnd) pos =
        .ok (readU64 (fileBytes db3 rnd) pos, pos + 8) := by
    intro pos h
    unfold read_uint64R
    rw [hlenD, if_pos h]
  unfold parse_database
  rw [show read_bytesR (fileBytes db3 rnd) 0 4 = .ok (mhbdMagic, 4) from by
    rw [hrdB 0 4 (by omega)]
    rw [show pySlice (fileBytes db3 rnd) 0 (0 + 4) = mhbdMagic from hm0]]
  simp only [ebind_ok]
  rw [if_neg (show ¬ ((mhbdMagic, (4:Nat)).1 ≠ mhbdMagic) from fun h => h rfl)]
  rw [show read_uint32R (fileBytes db3 rnd) (mhbdMagic, (4:Nat)).2 = .ok (104, 8) from by
    rw [hrd4 4 (by omega), r4]]
  simp only [ebind_ok]
  rw [show read_uint32R (fileBytes db3 rnd) ((104:Nat), (8:Nat)).2 =
      .ok (readU32 (fileBytes db3 rnd) 8, 12) from hrd4 8 (by omega)]
  simp only [ebind_ok]
  rw [show read_uint32R (fileBytes db3 rnd)
      ((readU32 (fileBytes db3 rnd) 8, (12:Nat))).2 =
      .ok (readU32 (fileBytes db3 rnd) 12, 16) from hrd4 12 (by omega)]
  simp only [ebind_ok]
  rw [show read_uint32R (fileBytes db3 rnd)
      ((readU32 (fileBytes db3 rnd) 12, (16:Nat))).2 =
      .ok (db3.version, 20) from by rw [hrd4 16 (by omega), r16]]
  simp only [ebind_ok]
  rw [show read_uint32R (fileBytes db3 rnd) ((db3.version, (20:Nat))).2 =
      .ok (2, 24) from by rw [hrd4 20 (by omega), r20]]
  simp only [ebind_ok]
  rw [show read_uint64R (fileBytes db3 rnd) (((2:Nat), (24:Nat))).2 =
      .ok (db3.database_id, 32) from by rw [hrd8 24 (by omega), r24]]
  simp only [ebind_ok]
  rw [show read_bytesR (fileBytes db3 rnd) 70 2 =
      .ok (langBytes db3.language, 72) from by
    rw [hrdB 70 2 (by omega), hlang72]]
  simp only [ebind_ok]
  rw [show read_uint64R (fileBytes db3 rnd) ((langBytes db3.language, (72:Nat))).2 =
      .ok (db3.library_persistent_id, 80) from by rw [hrd8 72 (by omega), r72]]
  simp only [ebind_ok]
  rw [show (2:Nat) = 1 + 1 from rfl, parseSections_succ]
  rw [show read_bytesR (fileBytes db3 rnd) 104 4 = .ok (mhsdMagic, 108) from by
    rw [hrdB 104 4 (by omega), hm104]]
  simp only [ebind_ok]
  rw [if_neg (show ¬ ((mhsdMagic, (108:Nat)).1 ≠ mhsdMagic) from fun h => h rfl)]
  rw [show read_uint32R (fileBytes db3 rnd) ((mhsdMagic, (108:Nat))).2 =
      .ok (96, 112) from by
    rw [hrd4 108 (by omega)]
    rw [show readU32 (fileBytes db3 rnd) 108 = 96 from rs4]]
  simp only [ebind_ok]
  rw [show read_uint32R (fileBytes db3 rnd) (((96:Nat), (112:Nat))).2 =
      .ok (trackSectionLen db3, 116) from by
    rw [hrd4 112 (by omega)]
    rw [show readU32 (fileBytes db3 rnd) 112 = trackSectionLen db3 from rs8]]
  simp only [ebind_ok]
  rw [show read_uint32R (fileBytes db3 rnd) ((trackSectionLen db3, (116:Nat))).2 =
      .ok (1, 120) from by
    rw [hrd4 116 (by omega)]
    rw [show readU32 (fileBytes db3 rnd) 116 = 1 from rs12]]
  simp only [ebind_ok]
  rw [show read_bytesR (fileBytes db3 rnd) 104 (trackSectionLen db3) =
      .ok (trackSectionBytes db3 rnd.track_dbid, 104 + trackSectionLen db3) from by
    rw [hrdB 104 (trackSectionLen db3) (by unfold fileLen; omega), hts_slice]]
  simp only [ebind_ok]
  rw [if_pos (show True from trivial)]
  rw [parse_track_section_ok now2 db3 rnd.track_dbid _ htr hr hts]
  simp only [ebind_ok, List.nil_append]
  rw [parseSections_succ]
  rw [show read_bytesR (fileBytes db3 rnd) (104 + trackSectionLen db3) 4 =
      .ok (mhsdMagic, 104 + trackSectionLen db3 + 4) from by
    rw [hrdB (104 + trackSectionLen db3) 4 (by unfold fileLen; omega), hm2]]
  simp only [ebind_ok]
  rw [if_neg (show ¬ ((mhsdMagic, 104 + trackSectionLen db3 + 4).1 ≠ mhsdMagic) from
    fun h => h rfl)]
  rw [show read_uint32R (fileBytes db3 rnd)
      ((mhsdMagic, 104 + trackSectionLen db3 + 4)).2 =
      .ok (96, 104 + trackSectionLen db3 + 4 + 4) from by
    rw [hrd4 (104 + trackSectionLen db3 + 4) (by unfold fileLen; omega), rp4]]
  simp only [ebind_ok]
  rw [show read_uint32R (fileBytes db3 rnd)
      (((96:Nat), 104 + trackSectionLen db3 + 4 + 4)).2 =
      .ok (playlistSectionLen db3, 104 + trackSectionLen db3 + 4 + 4 + 4) from by
    rw [show 104 + trackSectionLen db3 + 4 + 4 = 104 + trackSectionLen db3 + 8 from by
      omega]
    rw [hrd4 (104 + trackSectionLen db3 + 8) (by unfold fileLen; omega), rp8,
      show 104 + trackSectionLen db3 + 8 + 4 = 104 + trackSectionLen db3 + 4 + 4 + 4 from
        by omega]]
  simp only [ebind_ok]
  rw [show read_uint32R (fileBytes db3 rnd)
      ((playlistSectionLen db3, 104 + trackSectionLen db3 + 4 + 4 + 4)).2 =
      .ok (2, 104 + trackSectionLen db3 + 16) from by
    rw [show 104 + trackSectionLen db3 + 4 + 4 + 4 = 104 + trackSectionLen db3 + 12 from
      by omega]
    rw [hrd4 (104 + trackSectionLen db3 + 12) (by unfold fileLen; omega), rp12,
      show 104 + trackSectionLen db3 + 12 + 4 = 104 + trackSectionLen db3 + 16 from
        by omega]]
  simp only [ebind_ok]
  rw [show read_bytesR (fileBytes db3 rnd) (104 + trackSectionLen db3)
      (playlistSectionLen db3) =
      .ok (playlistSectionBytes db3,
        104 + trackSectionLen db3 + playlistSectionLen db3) from by
    rw [hrdB (104 + trackSectionLen db3) (playlistSectionLen db3)
      (by unfold fileLen; omega), hps_slice]]
  simp only [ebind_ok]
  rw [if_neg (show ¬ ((2:Nat) = 1) from by norm_num)]
  first
  | rw [if_pos (show True from trivial)]
  | rw [if_pos (show (2:Nat) = 2 from rfl)]
  rw [parse_playlist_section_ok now2 db3 _ hpl hps]
  simp only [ebind_ok, List.nil_append]
  rw [parseSections]
  rfl


@[simp] theorem ebind_err {α β ε : Type} (e : ε) (f : α → Except ε β) :
    (Except.error e >>= f : Except ε β) = .error e := rfl

theorem colonize_id (s : PyStr) (h : '/' ∉ s) : colonize s = s := by
  induction s with
  | nil => rfl
  | cons c cs ih =>
    simp only [List.mem_cons, not_or] at h
    show (if c = '/' then ':' else c) :: colonize cs = c :: cs
    rw [if_neg (fun hc => h.1 hc.symm), ih h.2]

theorem pathTransform_colonform (s : PyStr) (hh : s.head? = some ':') (hs : '/' ∉ s) :
    pathTransform s = s := by
  unfold pathTransform ensureLeadingColon
  rw [if_pos hh, colonize_id s hs]

theorem reloadTrack_faithful (now2 : Int) (fresh : Nat) (t : Track)
    (hf : TrackFaithful t) : trackEqModDbid (reloadTrack now2 fresh t) t := by
  obtain ⟨h1, h2, h3, h4, h5, h6, h7⟩ := hf
  constructor
  · show reloadTrack now2 fresh t = _
    unfold reloadTrack
    rcases ho : t.last_played with _ | lp
    · simp only [if_neg h1, if_neg h2, if_neg h3, if_pos h4, if_pos h5]
      rcases h7 with hnil | ⟨hhead, hslash⟩
      · rw [if_pos hnil, ← hnil]
      · rw [if_neg (show ¬ t.path = [] from fun hc => by rw [hc] at hhead; cases hhead),
          pathTransform_colonform t.path hhead hslash]
    · simp only [if_neg h1, if_neg h2, if_neg h3, if_pos h4, if_pos h5,
        if_pos (h6 lp (Option.mem_def.mpr ho))]
      rcases h7 with hnil | ⟨hhead, hslash⟩
      · rw [if_pos hnil, ← hnil, ← ho]
      · rw [if_neg (show ¬ t.path = [] from fun hc => by rw [hc] at hhead; cases hhead),
          pathTransform_colonform t.path hhead hslash, ← ho]
  · intro hdb
    show (reloadTrack now2 fresh t).dbid = t.dbid
    unfold reloadTrack
    simp [hdb]

theorem reloadPlaylist_name_user (now2 : Int) (p : Playlist) (hm : ¬ p.is_master) :
    (reloadPlaylist now2 p).name = p.name := by
  unfold reloadPlaylist
  by_cases hn : p.name = []
  · simp [hm, hn]
  · simp [hm, hn]

theorem userPlaylistView_reload (now2 : Int) (rnd : Rnd) (db3 : Database) :
    userPlaylistView (reloadDatabase now2 rnd db3) = userPlaylistView db3 := by
  unfold userPlaylistView reloadDatabase
  show ((db3.playlists.map (reloadPlaylist now2)).filter _).map _ =
    (db3.playlists.filter _).map _
  generalize db3.playlists = ps
  induction ps with
  | nil => rfl
  | cons p rest ih =>
    by_cases hm : p.is_master
    · simp only [List.map_cons, List.filter_cons]
      rw [if_neg (by simp [reloadPlaylist, hm]), if_neg (by simp [hm])]
      exact ih
    · simp only [List.map_cons, List.filter_cons]
      rw [if_pos (by simp [reloadPlaylist, hm]), if_pos (by simp [hm])]
      simp only [List.map_cons, ih]
      rw [reloadPlaylist_name_user now2 p hm]
      rfl

theorem postSave_tracks (db : Database) (rnd : Rnd) (now : Int) :
    (postSave db rnd now).tracks = db.tracks := by
  unfold postSave build_database
  rcases db.get_master_playlist with _ | m <;> dsimp only <;> split <;> split <;> rfl

theorem postSave_playlists (db : Database) (rnd : Rnd) (now : Int) :
    (postSave db rnd now).playlists =
      match db.get_master_playlist with
      | none =>
        { id := db.next_playlist_id, name := "Library".data,
          track_ids := db.tracks.map Track.id, is_master := true,
          timestamp := now } :: db.playlists
      | some _ => refreshFirstMaster (db.tracks.map Track.id) db.playlists := by
  unfold postSave build_database
  rcases db.get_master_playlist with _ | m <;> dsimp only <;> split <;> split <;> rfl

theorem refreshFirstMaster_find (ids : List Nat) (ps : List Playlist) :
    ∀ m, (refreshFirstMaster ids ps).find? (fun p => p.is_master) = some m →
      m.track_ids = ids := by
  induction ps with
  | nil => intro m h; cases h
  | cons p rest ih =>
    intro m h
    by_cases hm : p.is_master
    · rw [refreshFirstMaster, if_pos hm] at h
      rw [List.find?_cons_of_pos _ (by simpa using hm)] at h
      injection h with h
      rw [← h]
    · rw [refreshFirstMaster, if_neg hm] at h
      rw [List.find?_cons_of_neg _ (by simpa using hm)] at h
      exact ih m h

theorem postSave_master (db : Database) (rnd : Rnd) (now : Int) :
    ∀ m, (postSave db rnd now).get_master_playlist = some m →
      m.track_ids = db.tracks.map Track.id := by
  intro m h
  unfold Database.get_master_playlist at h
  rw [postSave_playlists] at h
  rcases hm : db.get_master_playlist with _ | m0 <;> rw [hm] at h
  · rw [List.find?_cons_of_pos _ (by simp)] at h
    injection h with h
    rw [← h]
  · exact refreshFirstMaster_find _ _ m h

theorem reload_master (now2 : Int) (rnd : Rnd) (db3 : Database) :
    ∀ m, (reloadDatabase now2 rnd db3).get_master_playlist = some m →
      ∃ m0, db3.get_master_playlist = some m0 ∧ m = reloadPlaylist now2 m0 := by
  intro m h
  unfold Database.get_master_playlist at h ⊢
  unfold reloadDatabase at h
  dsimp only at h
  rw [List.find?_map] at h
  rw [show ((fun p : Playlist => p.is_master) ∘ reloadPlaylist now2) =
    (fun p : Playlist => p.is_master) from rfl] at h
  rcases hm : db3.playlists.find? (fun p : Playlist => p.is_master) with _ | m0 <;>
    rw [hm] at h
  · cases h
  · injection h with h
    exact ⟨m0, rfl, h.symm⟩

theorem roundTrip_ok (db : Database) (rnd : Rnd) (now now2 : Int)
    (hwf : DatabaseWF (postSave db rnd now))
    (hr : ∀ i, rnd.track_dbid i < 18446744073709551616) :
    (build_database db rnd now).2 = .ok (fileBytes (postSave db rnd now) rnd) ∧
    parse_database now2 (fileBytes (postSave db rnd now) rnd) =
      .ok (reloadDatabase now2 rnd (postSave db rnd now)) := by
  constructor
  · rw [build_database_snd]
    exact build_bytesPart_ok _ _ hwf hr
  · exact parse_database_ok now2 _ rnd hwf hr

theorem applyTrackMhod_numeric (t : Track) (ty : Nat) (v : MhodVal) :
    (applyTrackMhod t ty v).sample_rate = t.sample_rate ∧
    (applyTrackMhod t ty v).disc_number = t.disc_number ∧
    (applyTrackMhod t ty v).total_discs = t.total_discs := by
  unfold applyTrackMhod
  rcases v with s | n | b
  · repeat' split
    all_goals exact ⟨rfl, rfl, rfl⟩
  · exact ⟨rfl, rfl, rfl⟩
  · exact ⟨rfl, rfl, rfl⟩

theorem parseMhitMhods_numeric (data : Bytes) (total : Nat) :
    ∀ n off track t', parseMhitMhods data total n off track = .ok t' →
      t'.sample_rate = track.sample_rate ∧ t'.disc_number = track.disc_number ∧
      t'.total_discs = track.total_discs := by
  intro n
  induction n with
  | zero =>
    intro off track t' h
    rw [parseMhitMhods] at h
    injection h with h
    rw [← h]
    exact ⟨rfl, rfl, rfl⟩
  | succ k ih =>
    intro off track t' h
    rw [parseMhitMhods] at h
    dsimp only at h
    split at h
    · injection h with h
      rw [← h]
      exact ⟨rfl, rfl, rfl⟩
    · split at h
      · injection h with h
        rw [← h]
        exact ⟨rfl, rfl, rfl⟩
      · split at h
        · injection h with h
          rw [← h]
          exact ⟨rfl, rfl, rfl⟩
        · rcases hpm : parse_mhod ((data.drop off).take (readU32 (data.drop off) 8))
            with e | tv <;> rw [hpm] at h
          · rw [ebind_err] at h
            cases h
          · rw [ebind_ok] at h
            have hrec := ih _ _ _ h
            have hap := applyTrackMhod_numeric track tv.1 tv.2
            exact ⟨hrec.1.trans hap.1, hrec.2.1.trans hap.2.1, hrec.2.2.trans hap.2.2⟩

def selectStep (f : Nat → Nat) (st : Option Nat × Nat) (i : Nat) : Option Nat × Nat :=
  match st.1 with
  | none => (some (f i), i)
  | some m => if f i < m then (some (f i), i) else st

theorem select_total_eq (f : Nat → Nat) :
    select_music_folder (fun i => some (f i)) =
      ((List.range 50).foldl (selectStep f) (none, 0)).2 := rfl

theorem selectFold (f : Nat → Nat) : ∀ n, 0 < n →
    ∃ b, (List.range n).foldl (selectStep f) (none, 0) = (some (f b), b) ∧ b < n ∧
      (∀ j, j < n → f b ≤ f j) ∧ (∀ j, j < n → f j = f b → b ≤ j) := by
  intro n
  induction n with
  | zero => omega
  | succ k ih =>
    intro _
    rcases Nat.eq_zero_or_pos k with rfl | hk
    · refine ⟨0, rfl, by omega, ?_, ?_⟩
      · intro j hj
        have : j = 0 := by omega
        rw [this]
      · intro j hj _
        omega
    · obtain ⟨b, hfold, hb, hmin, htie⟩ := ih hk
      rw [List.range_succ, List.foldl_append, hfold]
      by_cases hlt : f k < f b
      · refine ⟨k, ?_, by omega, ?_, ?_⟩
        · show selectStep f (some (f b), b) k = _
          simp only [selectStep]
          rw [if_pos hlt]
        · intro j hj
          rcases Nat.lt_succ_iff_lt_or_eq.mp hj with h | rfl
          · exact le_of_lt (lt_of_lt_of_le hlt (hmin j h))
          · exact Nat.le_refl _
        · intro j hj hfj
          rcases Nat.lt_succ_iff_lt_or_eq.mp hj with h | rfl
          · exact absurd (hmin j h) (by rw [hfj]; omega)
          · exact Nat.le_refl _
      · refine ⟨b, ?_, by omega, ?_, ?_⟩
        · show selectStep f (some (f b), b) k = _
          simp only [selectStep]
          rw [if_neg hlt]
        · intro j hj
          rcases Nat.lt_succ_iff_lt_or_eq.mp hj with h | rfl
          · exact hmin j h
          · omega
        · intro j hj hfj
          rcases Nat.lt_succ_iff_lt_or_eq.mp hj with h | rfl
          · exact htie j h hfj
          · omega


def w1rndB : Rnd := { track_dbid := fun i => 100 + i % 50, db_id := 31, lib_id := 37 }

def c5db : Database :=
  { tracks := [],
    playlists := [{ id := 1, name := "Library".data, track_ids := [], is_master := true }] }

def c6path112 : PyStr := ':' :: List.replicate 55 'a'

def c6path114 : PyStr := ':' :: List.replicate 56 'a'

def c9pl : Playlist :=
  { id := 1, name := "Library".data, track_ids := [5, 6], is_master := true, timestamp := 1 }

def c10data : Bytes :=
  mhitMagic ++ u32le 388 ++ u32le 388 ++ u32le 0 ++ u32le 7 ++ zeros 368

def c4insert (tid : Nat) (pos : Int) (q : Playlist) : Playlist :=
  { q with track_ids := insertAt tid (pyInsertIdx pos q.track_ids.length) q.track_ids }

def c10track : Track :=
  match parse_mhit 0 c10data with
  | .ok t => t
  | .error _ => { id := 0, title := [], artist := [], album := [] }

theorem refreshFirstMaster_filter (ids : List Nat) (ps : List Playlist) :
    (refreshFirstMaster ids ps).filter (fun p => ¬ p.is_master) =
      ps.filter (fun p => ¬ p.is_master) := by
  induction ps with
  | nil => rfl
  | cons p rest ih =>
    by_cases hm : p.is_master
    · rw [refreshFirstMaster, if_pos hm, List.filter_cons, List.filter_cons,
        if_neg (by simp [hm]), if_neg (by simp [hm])]
    · rw [refreshFirstMaster, if_neg hm, List.filter_cons, List.filter_cons,
        if_pos (by simp [hm]), if_pos (by simp [hm]), ih]

theorem userPlaylistView_postSave (db : Database) (rnd : Rnd) (now : Int) :
    userPlaylistView (postSave db rnd now) = userPlaylistView db := by
  unfold userPlaylistView
  rw [postSave_playlists]
  rcases hm : db.get_master_playlist with _ | m0
  · dsimp only
    rw [List.filter_cons, if_neg (by simp)]
  · dsimp only
    rw [refreshFirstMaster_filter]

/-- C1: for every library, saving with build_database and re-parsing the
emitted bytes succeeds and yields the same tracks field-by-field modulo a
freshly drawn dbid when the stored dbid was zero, the same non-master
playlist names, contents and order, and a master playlist whose track_ids
is the library's track-ID sequence — provided the saved object is
serializable and every track's values are in the faithful range (nonzero
sample rate and disc fields, timestamps away from the Mac epoch, colon-form
path): outside that range the parser substitutes defaults, refuting the
unconditional original claim. -/
theorem podsy_c1_roundtrip (db : Database) (rnd : Rnd) (now now2 : Int)
    (hwf : DatabaseWF (postSave db rnd now))
    (hr : ∀ i, rnd.track_dbid i < 18446744073709551616)
    (hfaith : ∀ t ∈ db.tracks, TrackFaithful t) :
    ∃ bytes db2,
      (build_database db rnd now).2 = .ok bytes ∧
      parse_database now2 bytes = .ok db2 ∧
      db2.tracks.length = db.tracks.length ∧
      (∀ (i : Nat) (h1 : i < db2.tracks.length) (h2 : i < db.tracks.length),
        trackEqModDbid (db2.tracks.get ⟨i, h1⟩) (db.tracks.get ⟨i, h2⟩)) ∧
      userPlaylistView db2 = userPlaylistView db ∧
      (∀ m, db2.get_master_playlist = some m →
        m.track_ids = db.tracks.map Track.id) := by
  obtain ⟨hb, hp⟩ := roundTrip_ok db rnd now now2 hwf hr
  refine ⟨_, _, hb, hp, ?_, ?_, ?_, ?_⟩
  · show (reloadDatabase now2 rnd (postSave db rnd now)).tracks.length = _
    unfold reloadDatabase
    rw [postSave_tracks]
    simp [List.enum_length]
  · intro i h1 h2
    show trackEqModDbid ((reloadDatabase now2 rnd (postSave db rnd now)).tracks.get _) _
    have he : (reloadDatabase now2 rnd (postSave db rnd now)).tracks =
        db.tracks.enum.map fun it => reloadTrack now2 (rnd.track_dbid it.1) it.2 := by
      unfold reloadDatabase
      rw [postSave_tracks]
    have hi : i < (db.tracks.enum.map
        fun it => reloadTrack now2 (rnd.track_dbid it.1) it.2).length := by
      rw [← he]
      exact h1
    have hget : (reloadDatabase now2 rnd (postSave db rnd now)).tracks.get ⟨i, h1⟩ =
        reloadTrack now2 (rnd.track_dbid i) (db.tracks.get ⟨i, h2⟩) := by
      rw [List.get_of_eq he ⟨i, h1⟩]
      simp [List.getElem_enum]
    rw [hget]
    exact reloadTrack_faithful now2 _ _ (hfaith _ (db.tracks.get_mem _ _))
  · show userPlaylistView (reloadDatabase now2 rnd (postSave db rnd now)) = _
    rw [userPlaylistView_reload, userPlaylistView_postSave]
  · intro m h
    obtain ⟨m0, hm0, rfl⟩ := reload_master now2 rnd (postSave db rnd now) m h
    show (reloadPlaylist now2 m0).track_ids = _
    have : m0.track_ids = db.tracks.map Track.id := postSave_master db rnd now m0 hm0
    rw [← this]
    rfl

/-- Witness for C1: the two-track, two-playlist library of the
specification's save/load scenario, with a deterministic id supply. -/
theorem podsy_c1_roundtrip_witness :
    DatabaseWF (postSave w1db w1rndB 0) ∧
    (∃ bytes db2,
      (build_database w1db w1rndB 0).2 = .ok bytes ∧
      parse_database 0 bytes = .ok db2 ∧
      db2.tracks.length = w1db.tracks.length ∧
      (∀ (i : Nat) (h1 : i < db2.tracks.length) (h2 : i < w1db.tracks.length),
        trackEqModDbid (db2.tracks.get ⟨i, h1⟩) (w1db.tracks.get ⟨i, h2⟩)) ∧
      userPlaylistView db2 = userPlaylistView w1db ∧
      (∀ m, db2.get_master_playlist = some m →
        m.track_ids = w1db.tracks.map Track.id)) :=
  ⟨by decide,
   podsy_c1_roundtrip w1db w1rndB 0 0 (by decide)
     (fun i => by
       show 100 + i % 50 < 18446744073709551616
       have := Nat.mod_lt i (show 0 < 50 by norm_num)
       omega)
     (by decide)⟩

/-- Counterexample to C1 as stated: a library whose single track stores
sample_rate 0 round-trips to a track with sample_rate 44100, so the
reloaded tracks do not equal the originals field-by-field even modulo the
dbid. -/
theorem podsy_c1_roundtrip_counterexample :
    (build_database c1db c1rnd 0).2 = .ok c1bytes ∧
    parse_database 0 c1bytes = .ok c1db2 ∧
    c1db.tracks.map Track.sample_rate = [0] ∧
    c1db2.tracks.map Track.sample_rate = [44100] ∧
    c1db2.tracks.length = c1db.tracks.length ∧
    ¬ ((c1db2.tracks.zip c1db.tracks).all
        fun ab => decide (trackEqModDbid ab.1 ab.2)) = true := by
  obtain ⟨hb, hp⟩ := roundTrip_ok c1db c1rnd 0 0 (by decide)
    (fun i => show (11:Nat) < 18446744073709551616 from by norm_num)
  have hbytes : c1bytes = fileBytes (postSave c1db c1rnd 0) c1rnd := by
    unfold c1bytes
    rw [show (build_database c1db c1rnd 0).2 =
      .ok (fileBytes (postSave c1db c1rnd 0) c1rnd) from hb]
  have hdb2 : c1db2 = reloadDatabase 0 c1rnd (postSave c1db c1rnd 0) := by
    unfold c1db2
    rw [hbytes, hp]
  refine ⟨by rw [hbytes]; exact hb, by rw [hbytes, hdb2]; exact hp, by decide,
    ?_, ?_, ?_⟩
  · rw [hdb2]
    decide
  · rw [hdb2]
    decide
  · rw [hdb2]
    decide

/-- C2: every mutation operation of the playlist API that returns a typed
error returns the database exactly as it was before the call: all
preconditions are checked before any state is changed. -/
theorem podsy_c2_error_leaves_db (db : Database) :
    (∀ name so now e, (create_playlist db name so now).2 = some e →
      (create_playlist db name so now).1 = db) ∧
    (∀ pid e, (delete_playlist db pid).2 = some e → (delete_playlist db pid).1 = db) ∧
    (∀ pid nm e, (rename_playlist db pid nm).2 = some e →
      (rename_playlist db pid nm).1 = db) ∧
    (∀ pid tid pos e, (add_track_to_playlist db pid tid pos).2 = some e →
      (add_track_to_playlist db pid tid pos).1 = db) ∧
    (∀ pid tid e, (remove_track_from_playlist db pid tid).2 = some e →
      (remove_track_from_playlist db pid tid).1 = db) ∧
    (∀ pid ids e, (reorder_playlist db pid ids).2 = some e →
      (reorder_playlist db pid ids).1 = db) ∧
    (∀ pid tid pos e, (move_track_in_playlist db pid tid pos).2 = some e →
      (move_track_in_playlist db pid tid pos).1 = db) ∧
    (∀ pid e, (clear_playlist db pid).2 = some e → (clear_playlist db pid).1 = db) ∧
    (∀ pid nm now e, (duplicate_playlist db pid nm now).2 = some e →
      (duplicate_playlist db pid nm now).1 = db) := by
  refine ⟨?_, ?_, ?_, ?_, ?_, ?_, ?_, ?_, ?_⟩
  · intro name so now e h
    unfold create_playlist at h ⊢
    rcases hx : db.get_playlist_by_name name with _ | q <;> simp only [hx] at h ⊢
    cases h
  · intro pid e h
    unfold delete_playlist at h ⊢
    rcases hx : db.get_playlist_by_id pid with _ | p <;> simp only [hx] at h ⊢
    by_cases hm : p.is_master
    · rw [if_pos hm]
    · rw [if_neg hm] at h
      cases h
  · intro pid nm e h
    unfold rename_playlist at h ⊢
    rcases hx : db.get_playlist_by_id pid with _ | p <;> simp only [hx] at h ⊢
    by_cases hm : p.is_master
    · rw [if_pos hm]
    · rw [if_neg hm] at h ⊢
      rcases hy : db.get_playlist_by_name nm with _ | q <;> simp only [hy] at h ⊢
      · cases h
      · by_cases hi : q.id ≠ pid
        · rw [if_pos hi]
        · rw [if_neg hi] at h
          cases h
  · intro pid tid pos e h
    unfold add_track_to_playlist at h ⊢
    rcases hx : db.get_playlist_by_id pid with _ | p <;> simp only [hx] at h ⊢
    rcases ht : db.get_track_by_id tid with _ | t <;> simp only [ht] at h ⊢
    by_cases hmem : tid ∈ p.track_ids
    · rw [if_pos hmem]
    · rw [if_neg hmem] at h
      rcases pos with _ | v <;> simp only [] at h <;> cases h
  · intro pid tid e h
    unfold remove_track_from_playlist at h ⊢
    rcases hx : db.get_playlist_by_id pid with _ | p <;> simp only [hx] at h ⊢
    by_cases hmem : tid ∉ p.track_ids
    · rw [if_pos hmem]
    · rw [if_neg hmem] at h
      cases h
  · intro pid ids e h
    unfold reorder_playlist at h ⊢
    rcases hx : db.get_playlist_by_id pid with _ | p <;> simp only [hx] at h ⊢
    by_cases hs : ¬ sameSet ids p.track_ids
    · rw [if_pos hs]
    · rw [if_neg hs] at h
      cases h
  · intro pid tid pos e h
    unfold move_track_in_playlist at h ⊢
    rcases hx : db.get_playlist_by_id pid with _ | p <;> simp only [hx] at h ⊢
    by_cases hmem : tid ∉ p.track_ids
    · rw [if_pos hmem]
    · rw [if_neg hmem] at h
      cases h
  · intro pid e h
    unfold clear_playlist at h ⊢
    rcases hx : db.get_playlist_by_id pid with _ | p <;> simp only [hx] at h ⊢
    by_cases hm : p.is_master
    · rw [if_pos hm]
    · rw [if_neg hm] at h
      cases h
  · intro pid nm now e h
    unfold duplicate_playlist at h ⊢
    rcases hx : db.get_playlist_by_id pid with _ | p <;> simp only [hx] at h ⊢
    rcases hy : db.get_playlist_by_name nm with _ | q <;> simp only [hy] at h ⊢
    cases h

/-- C3: what the child loops actually guarantee: in a track record, a child
whose declared total length is zero or would exceed the record's declared
total stops the child loop cleanly with everything parsed so far; in a
playlist record, a playlist-item child whose declared length overruns the
record is still consumed — its track id is appended — and the loop then
stops.  (As the counterexample shows, the parser can additionally raise on
an in-bounds malformed string child, so the original "no error" claim
fails.) -/
theorem podsy_c3_child_loop_stops :
    (∀ data total n off track,
      readU32 (data.drop off) 8 = 0 ∨ total < off + readU32 (data.drop off) 8 →
      parseMhitMhods data total (n + 1) off track = .ok track) ∧
    (∀ data total n fuel off mp pl acc,
      off < total →
      ¬ data.length < off + 12 →
      pySlice data off (off + 4) = mhipMagic →
      readU32 data (off + 8) ≠ 0 →
      total ≤ off + readU32 data (off + 8) →
      off + 28 ≤ data.length →
      parseMhypChildren data total n (fuel + 2) off mp pl acc =
        .ok (pl, acc ++ [readU32 data (off + 24)])) := by
  constructor
  · intro data total n off track h
    rw [parseMhitMhods]
    dsimp only
    by_cases hb1 : total ≤ off
    · rw [if_pos hb1]
    · rw [if_neg hb1]
      by_cases hb2 : (data.drop off).length < 12
      · rw [if_pos hb2]
      · rw [if_neg hb2, if_pos h]
  · intro data total n fuel off mp pl acc h1 h2 hm hz hover h28
    rw [parseMhypChildren]
    simp only [hm, if_pos h1, if_neg h2, if_neg hz,
      if_neg (show ¬ (mhipMagic = mhodMagic ∧ mp < n) from by
        rintro ⟨hh, -⟩
        exact absurd hh (by decide)),
      if_pos (show mhipMagic = mhipMagic from rfl), if_pos h28, if_true, ite_true]
    rw [parseMhypChildren]
    rw [if_neg (show ¬ (off + readU32 data (off + 8) < total) from by omega)]

/-- Counterexample to C3 as stated: a track record whose single declared
child fits inside the record (declared length 20, nonzero, within the
declared total) still makes the parser raise MHOD too short, an error kind
outside the claim's list. -/
theorem podsy_c3_child_loop_counterexample :
    c3data.length = 52 ∧
    readU32 c3data 12 = 1 ∧
    readU32 c3data 40 = 20 ∧
    readU32 c3data 40 ≠ 0 ∧
    32 + readU32 c3data 40 ≤ readU32 c3data 8 ∧
    parse_mhit 0 c3data = .error .mhodTooShort := by
  decide

/-- C4: with the playlist and track present and the track not yet a member,
add_track_to_playlist succeeds and inserts at Python's list.insert index: a
nonnegative position is capped at the length, but a negative position
counts from the end (floored at 0) — not clamped to the front as the
specification's table says. -/
theorem podsy_c4_insert_position (db : Database) (pid tid : Nat) (pos : Int)
    (p : Playlist) (hp : db.get_playlist_by_id pid = some p)
    (ht : db.get_track_by_id tid ≠ none) (hmem : tid ∉ p.track_ids) :
    (add_track_to_playlist db pid tid (some pos)).2 = none ∧
    (add_track_to_playlist db pid tid (some pos)).1 =
      { db with playlists := mutateFirst pid (c4insert tid pos) db.playlists } := by
  unfold add_track_to_playlist
  rcases htv : db.get_track_by_id tid with _ | t
  · exact absurd htv ht
  · simp only [hp, htv]
    rw [if_neg hmem]
    exact ⟨rfl, rfl⟩

/-- Witness for C4: inserting track 3 at position 5 of the two-element
playlist appends at the end (index capped at the length). -/
theorem podsy_c4_insert_position_witness :
    c4db.get_playlist_by_id 10 = some { id := 10, name := [ 'P'], track_ids := [1, 2] } ∧
    ((add_track_to_playlist c4db 10 3 (some 5)).2 = none ∧
     (add_track_to_playlist c4db 10 3 (some 5)).1 =
       { c4db with playlists := mutateFirst 10 (c4insert 3 5) c4db.playlists }) :=
  ⟨by decide,
   podsy_c4_insert_position c4db 10 3 5 { id := 10, name := [ 'P'], track_ids := [1, 2] }
     (by decide) (by decide) (by decide)⟩

/-- Counterexample to C4 as stated: inserting at position -1 into [1, 2]
yields [1, 3, 2] (Python's insert counts a negative index from the end),
not the [3, 1, 2] that clamping to the front would produce. -/
theorem podsy_c4_insert_position_counterexample :
    (add_track_to_playlist c4db 10 3 (some (-1))).2 = none ∧
    ((add_track_to_playlist c4db 10 3 (some (-1))).1.playlists.map
      Playlist.track_ids) = [[1, 3, 2]] ∧
    insertAt 3 (specClamp (-1) 2) [1, 2] = [3, 1, 2] ∧
    ([[1, 3, 2]] : List (List Nat)) ≠ [[3, 1, 2]] := by
  decide

/-- C5: when the playlist with id 1 is the master, delete_playlist,
rename_playlist and clear_playlist on id 1 all fail with the
master-protected error and return the database unchanged. -/
theorem podsy_c5_master_protected (db : Database) (p : Playlist)
    (hp : db.get_playlist_by_id 1 = some p) (hm : p.is_master) :
    delete_playlist db 1 = (db, some .masterProtected) ∧
    rename_playlist db 1 [ 'x'] = (db, some .masterProtected) ∧
    clear_playlist db 1 = (db, some .masterProtected) := by
  refine ⟨?_, ?_, ?_⟩
  · unfold delete_playlist
    simp only [hp]
    rw [if_pos hm]
  · unfold rename_playlist
    simp only [hp]
    rw [if_pos hm]
  · unfold clear_playlist
    simp only [hp]
    rw [if_pos hm]

/-- Witness for C5: a library whose master playlist has id 1. -/
theorem podsy_c5_master_protected_witness :
    c5db.get_playlist_by_id 1 = some
      { id := 1, name := "Library".data, track_ids := [], is_master := true } ∧
    (delete_playlist c5db 1 = (c5db, some .masterProtected) ∧
     rename_playlist c5db 1 [ 'x'] = (c5db, some .masterProtected) ∧
     clear_playlist c5db 1 = (c5db, some .masterProtected)) :=
  ⟨by decide,
   podsy_c5_master_protected c5db
     { id := 1, name := "Library".data, track_ids := [], is_master := true }
     (by decide) (by decide)⟩

/-- C6: encode_path succeeds with the UTF-16LE bytes of the colonized path
exactly when that encoding is at most 112 bytes and raises the
path-too-long error beyond; a 112-byte encoding succeeds and a 114-byte
one fails. -/
theorem podsy_c6_path_limit :
    (∀ s : PyStr,
      ((encode_string (pathTransform s)).length ≤ 112 →
        encode_path s = .ok (encode_string (pathTransform s))) ∧
      (112 < (encode_string (pathTransform s)).length →
        encode_path s = .error .pathTooLong)) ∧
    (encode_string (pathTransform c6path112)).length = 112 ∧
    encode_path c6path112 = .ok (encode_string (pathTransform c6path112)) ∧
    (encode_string (pathTransform c6path114)).length = 114 ∧
    encode_path c6path114 = .error .pathTooLong := by
  refine ⟨fun s => ⟨?_, ?_⟩, by decide, by decide, by decide, by decide⟩
  · intro h
    unfold encode_path
    dsimp only
    rw [if_neg (by omega)]
  · intro h
    unfold encode_path
    dsimp only
    rw [if_pos (by omega)]

/-- C7: encode_path prepends the leading colon before substituting slashes,
as the two literal paths of the specification show. -/
theorem podsy_c7_colon_prepended_first :
    encode_path ("iPod_Control:Music:F00:ABCD.mp3".data) =
      .ok (encode_string (":iPod_Control:Music:F00:ABCD.mp3".data)) ∧
    encode_path ("/iPod_Control/Music/F00/X.mp3".data) =
      .ok (encode_string ("::iPod_Control:Music:F00:X.mp3".data)) := by
  constructor
  · decide
  · decide

/-- C8: over any total assignment of entry counts to the fifty folders,
select_music_folder picks an index below fifty holding the minimum count,
breaking ties towards the lowest index; on the fresh-device counts (five
entries in each of F00 through F09, none elsewhere) it picks F10. -/
theorem podsy_c8_folder_selection (f : Nat → Nat) :
    select_music_folder (fun i => some (f i)) < 50 ∧
    (∀ j, j < 50 → f (select_music_folder (fun i => some (f i))) ≤ f j) ∧
    (∀ j, j < 50 → f j = f (select_music_folder (fun i => some (f i))) →
      select_music_folder (fun i => some (f i)) ≤ j) ∧
    select_music_folder freshDeviceCounts = 10 := by
  obtain ⟨b, hfold, hb, hmin, htie⟩ := selectFold f 50 (by norm_num)
  have hsel : select_music_folder (fun i => some (f i)) = b := by
    rw [select_total_eq, hfold]
  refine ⟨by rw [hsel]; exact hb, ?_, ?_, by decide⟩
  · intro j hj
    rw [hsel]
    exact hmin j hj
  · intro j hj hfj
    rw [hsel] at hfj ⊢
    exact htie j hj hfj

/-- C9: the serializer writes no title data-object for a master playlist
(its record carries zero data-objects), and re-parsing its record yields a
playlist whose name is empty, whatever name the in-memory master carried. -/
theorem podsy_c9_master_name_empty (now2 : Int) (p : Playlist) (hm : p.is_master)
    (hwf : PlaylistWF p) (hlen : mhypLen p < 4294967296) :
    build_mhyp p = .ok (mhypBytes p) ∧
    mhypMhodBytes p = [] ∧
    mhypMhodCount p = 0 ∧
    parse_mhyp now2 (mhypBytes p) = .ok (reloadPlaylist now2 p, p.track_ids) ∧
    (reloadPlaylist now2 p).name = [] := by
  obtain ⟨hid, h0, h1, htids⟩ := hwf
  refine ⟨build_mhyp_ok p hid h0 h1 htids hlen, ?_, ?_,
    parse_mhyp_ok now2 p ⟨hid, h0, h1, htids⟩ hlen, ?_⟩
  · unfold mhypMhodBytes
    rw [if_neg (by rintro ⟨h, -⟩; exact h hm)]
  · unfold mhypMhodCount
    rw [if_neg (by rintro ⟨h, -⟩; exact h hm)]
  · unfold reloadPlaylist
    dsimp only
    rw [if_pos (Or.inl hm)]

/-- Witness for C9: a master playlist named Library with two tracks reads
back with an empty name. -/
theorem podsy_c9_master_name_empty_witness :
    c9pl.is_master = true ∧
    (build_mhyp c9pl = .ok (mhypBytes c9pl) ∧
     mhypMhodBytes c9pl = [] ∧
     mhypMhodCount c9pl = 0 ∧
     parse_mhyp 7 (mhypBytes c9pl) = .ok (reloadPlaylist 7 c9pl, c9pl.track_ids) ∧
     (reloadPlaylist 7 c9pl).name = []) :=
  ⟨by decide, podsy_c9_master_name_empty 7 c9pl (by decide) (by decide) (by decide)⟩

/-- C10: whenever parse_mhit succeeds on a record long enough to carry the
fields, the track's sample_rate is the on-disk 32-bit field shifted right
sixteen bits — 44100 when that field is zero — and disc_number and
total_discs equal the on-disk values with zero replaced by one. -/
theorem podsy_c10_parse_defaults (now : Int) (data : Bytes) (t : Track)
    (h : parse_mhit now data = .ok t)
    (h63 : 63 < data.length) (h95 : 95 < data.length) (h99 : 99 < data.length) :
    t.sample_rate = (if readU32 data 60 ≠ 0 then readU32 data 60 / 65536 else 44100) ∧
    t.disc_number = (if readU32 data 92 = 0 then 1 else readU32 data 92) ∧
    t.total_discs = (if readU32 data 96 = 0 then 1 else readU32 data 96) := by
  unfold parse_mhit at h
  split at h
  · cases h
  split at h
  · cases h
  rcases hs16 : sliceU32 data 16 with e | uid <;> rw [hs16] at h
  · rw [ebind_err] at h
    cases h
  rw [ebind_ok] at h
  try dsimp only at h
  rcases hs24 : sliceU32 data 24 with e | ftv <;> rw [hs24] at h
  · rw [ebind_err] at h
    cases h
  rw [ebind_ok] at h
  try dsimp only at h
  have hn := parseMhitMhods_numeric data _ _ _ _ _ h
  refine ⟨?_, ?_, ?_⟩
  · rw [hn.1]
    try rw [if_pos h63]
  · rw [hn.2.1]
    try rw [if_pos h95]
  · rw [hn.2.2]
    try rw [if_pos h99]

/-- Witness for C10: a 388-byte record whose shifted sample-rate field and
disc fields are all zero parses to sample_rate 44100 and disc fields 1. -/
theorem podsy_c10_parse_defaults_witness :
    parse_mhit 0 c10data = .ok c10track ∧
    (c10track.sample_rate = (if readU32 c10data 60 ≠ 0 then
        readU32 c10data 60 / 65536 else 44100) ∧
     c10track.disc_number = (if readU32 c10data 92 = 0 then 1
        else readU32 c10data 92) ∧
     c10track.total_discs = (if readU32 c10data 96 = 0 then 1
        else readU32 c10data 96)) :=
  ⟨by decide,
   podsy_c10_parse_defaults 0 c10data c10track (by decide) (by decide) (by decide)
     (by decide)⟩


end Podsy
